import Mathlib

/-!
# Sigloop SDK (Go): budget tracker, x402 payment transport, policies

A shallow embedding of `software/ai/sdk-go/x402` (`types.go`, `budget.go`,
`middleware.go`, `payment.go`) and of `software/ai/sdk-go/policy` (`types.go`,
`allowlist.go`, `compose.go`, `policy.go`), and the properties proved about
them.

Conventions of the embedding.

* A `*big.Int` that the code dereferences unconditionally (`record.Amount`,
  `state.TotalSpent`, `state.PeriodSpent`) is an `Int`; a `*big.Int` that the
  code tests against `nil` (`policy.MaxPerRequest`, `policy.MaxPerPeriod`) is
  an `Option Int`.
* A `uint64` is a `Nat`; the one place where the code adds two of them
  (`PeriodStart + PeriodDuration`) is reduced modulo `2 ^ 64`.
* An `error` is an `Option String`: `none` is `nil`, `some m` is
  `errors.New(m)`.
* `time.Now().Unix()` is read once by every operation of the tracker; the
  value read is the argument `now`.
* The mutex of the tracker is not modelled: every operation holds it from
  entry to exit, so an operation is a function from the state before to the
  state after.
-/

namespace X402

/-! ## types.go -/

/-- A `common.Address` (20 bytes), as the number it encodes. -/
abbrev Address := Nat

/-- A `common.Hash` (32 bytes), as the number it encodes. -/
abbrev Hash := Nat

/-- A Go `map[K]bool`. `none` is the nil map, `some es` a map with the entries
`es`; a key is looked up at its first entry. -/
abbrev BoolMap (κ : Type) := Option (List (κ × Bool))

/-- The Go expression `m != nil`. -/
def BoolMap.notNil {κ : Type} (m : BoolMap κ) : Bool :=
  m.isSome

/-- The Go expression `len(m)`; it is 0 for the nil map. -/
def BoolMap.len {κ : Type} : BoolMap κ → Nat
  | none => 0
  | some es => es.length

/-- The Go expression `m[k]`: the zero value `false` when `k` has no entry,
also in the nil map. -/
def BoolMap.get {κ : Type} [DecidableEq κ] : BoolMap κ → κ → Bool
  | none, _ => false
  | some es, k => (es.lookup k).getD false

structure PaymentRecord where
  Resource : String
  Amount : Int
  PayTo : Address
  Timestamp : Nat
  TxHash : Hash
  Network : String
deriving DecidableEq, Repr

structure X402Policy where
  MaxPerRequest : Option Int
  MaxPerPeriod : Option Int
  AllowedPayees : BoolMap Address
  AllowedDomains : BoolMap String
deriving DecidableEq, Repr

structure BudgetState where
  TotalSpent : Int
  PeriodSpent : Int
  PeriodStart : Nat
  PeriodDuration : Nat
  Records : List PaymentRecord
deriving DecidableEq, Repr

/-! ## budget.go -/

structure BudgetTracker where
  state : BudgetState
  policy : X402Policy
deriving DecidableEq, Repr

/-- The number of values of a `uint64`. -/
def uint64Size : Nat := 2 ^ 64

/-- Source: `NewBudgetTracker`; `now` is the clock reading
`uint64(time.Now().Unix())`. -/
def NewBudgetTracker (policy : X402Policy) (periodDuration : Nat) (now : Nat) : BudgetTracker :=
  { state :=
      { TotalSpent := 0
        PeriodSpent := 0
        PeriodStart := now
        PeriodDuration := periodDuration
        Records := [] }
    policy := policy }

/-- The condition of `resetPeriodIfNeeded`:
`PeriodDuration > 0 && now >= PeriodStart + PeriodDuration`, the sum being a
`uint64` sum. -/
def BudgetTracker.periodElapsed (bt : BudgetTracker) (now : Nat) : Bool :=
  decide (bt.state.PeriodDuration > 0) &&
    decide (now ≥ (bt.state.PeriodStart + bt.state.PeriodDuration) % uint64Size)

/-- Source: `BudgetTracker.resetPeriodIfNeeded`. -/
def BudgetTracker.resetPeriodIfNeeded (bt : BudgetTracker) (now : Nat) : BudgetTracker :=
  if bt.periodElapsed now then
    { bt with state := { bt.state with PeriodSpent := 0, PeriodStart := now } }
  else
    bt

/-- The Go condition `limit != nil && x.Cmp(limit) > 0`. -/
def exceeds (x : Int) : Option Int → Bool
  | none => false
  | some limit => decide (x > limit)

/-- Source: `BudgetTracker.Track`. The result is the returned error and the
tracker after the call. -/
def BudgetTracker.Track (bt : BudgetTracker) (now : Nat) (record : PaymentRecord) :
    Option String × BudgetTracker :=
  let bt := bt.resetPeriodIfNeeded now
  if bt.policy.AllowedPayees.notNil && decide (bt.policy.AllowedPayees.len > 0) &&
      !bt.policy.AllowedPayees.get record.PayTo then
    (some "payee not in allowlist", bt)
  else if exceeds record.Amount bt.policy.MaxPerRequest then
    (some "amount exceeds per-request limit", bt)
  else
    let newPeriodTotal := bt.state.PeriodSpent + record.Amount
    if exceeds newPeriodTotal bt.policy.MaxPerPeriod then
      (some "amount exceeds period budget", bt)
    else
      (none,
        { bt with
          state :=
            { bt.state with
              TotalSpent := bt.state.TotalSpent + record.Amount
              PeriodSpent := newPeriodTotal
              Records := bt.state.Records ++ [record] } })

/-- Source: `BudgetTracker.Check`. The result is the returned error and the
tracker after the call. -/
def BudgetTracker.Check (bt : BudgetTracker) (now : Nat) (amount : Int) (payTo : Address) :
    Option String × BudgetTracker :=
  let bt := bt.resetPeriodIfNeeded now
  if bt.policy.AllowedPayees.notNil && decide (bt.policy.AllowedPayees.len > 0) &&
      !bt.policy.AllowedPayees.get payTo then
    (some "payee not in allowlist", bt)
  else if exceeds amount bt.policy.MaxPerRequest then
    (some "amount exceeds per-request limit", bt)
  else
    let newPeriodTotal := bt.state.PeriodSpent + amount
    if exceeds newPeriodTotal bt.policy.MaxPerPeriod then
      (some "amount exceeds period budget", bt)
    else
      (none, bt)

/-- Source: `BudgetTracker.Remaining`. The result is the returned number and
the tracker after the call. -/
def BudgetTracker.Remaining (bt : BudgetTracker) (now : Nat) : Int × BudgetTracker :=
  let bt := bt.resetPeriodIfNeeded now
  match bt.policy.MaxPerPeriod with
  | none => (-1, bt)
  | some maxPerPeriod =>
    let remaining := maxPerPeriod - bt.state.PeriodSpent
    if remaining < 0 then (0, bt) else (remaining, bt)

/-- Source: `BudgetTracker.IsExhausted`. The result is the returned boolean
and the tracker after the call. -/
def BudgetTracker.IsExhausted (bt : BudgetTracker) (now : Nat) : Bool × BudgetTracker :=
  let bt := bt.resetPeriodIfNeeded now
  match bt.policy.MaxPerPeriod with
  | none => (false, bt)
  | some maxPerPeriod => (decide (bt.state.PeriodSpent ≥ maxPerPeriod), bt)

/-- A sequence of `Track` calls, each with the clock reading it is made at;
the result is the tracker after the last call. -/
def BudgetTracker.trackAll (bt : BudgetTracker) : List (Nat × PaymentRecord) → BudgetTracker
  | [] => bt
  | (now, record) :: rest => ((bt.Track now record).2).trackAll rest

/-! ## Calls on a tracker -/

/-- A call on a tracker, with its arguments and its clock reading. -/
inductive Op where
  | track (now : Nat) (record : PaymentRecord)
  | check (now : Nat) (amount : Int) (payTo : Address)
  | remaining (now : Nat)
  | isExhausted (now : Nat)
deriving DecidableEq, Repr

/-- The tracker after a call. -/
def BudgetTracker.after (bt : BudgetTracker) : Op → BudgetTracker
  | .track now record => (bt.Track now record).2
  | .check now amount payTo => (bt.Check now amount payTo).2
  | .remaining now => (bt.Remaining now).2
  | .isExhausted now => (bt.IsExhausted now).2

/-- The tracker after a sequence of calls. -/
def BudgetTracker.afterAll (bt : BudgetTracker) (ops : List Op) : BudgetTracker :=
  ops.foldl BudgetTracker.after bt

/-- The number of `Track` calls of a sequence of calls that return nil. -/
def BudgetTracker.accepted (bt : BudgetTracker) : List Op → Nat
  | [] => 0
  | op :: rest =>
    (match op with
      | .track now record => if (bt.Track now record).1 = none then 1 else 0
      | _ => 0) + (bt.after op).accepted rest

/-! ## payment.go -/

structure PaymentRequirement where
  Scheme : String
  Network : String
  MaxAmountRequired : String
  Resource : String
  Description : String
  MimeType : String
  PayTo : Address
  RequiredDeadline : String
  Extra : List (String × String)
deriving DecidableEq, Repr

structure X402Config where
  MaxAmount : Option Int
  AutoPay : Bool
  AllowedSchemes : List String
  BudgetPeriod : Nat
deriving DecidableEq, Repr

/-- An `*ecdsa.PrivateKey`, as its secret scalar. -/
abbrev PrivateKey := Nat

/-- The inner map `payload` of the header that `BuildPaymentHeader` marshals;
`sender` is its key `from` and `payee` its key `to`. -/
structure HeaderPayload where
  signature : String
  sender : String
  payee : String
  value : String
  validAfter : String
  validBefore : String
  nonce : String
deriving DecidableEq, Repr

/-- The map that `BuildPaymentHeader` marshals. -/
structure PaymentHeader where
  x402Version : Nat
  scheme : String
  network : String
  payload : HeaderPayload
deriving DecidableEq, Repr

/-- Functions of libraries outside the repository that the payment code calls;
they are parameters of the embedding. -/
structure Lib where
  /-- Go `crypto.Keccak256(data...)`, on the concatenation of its arguments. -/
  Keccak256 : List Nat → List Nat
  /-- Go `crypto.Sign(digest, privateKey)`. -/
  Sign : List Nat → PrivateKey → Except String (List Nat)
  /-- Go `common.Bytes2Hex`. -/
  Bytes2Hex : List Nat → String
  /-- Go `common.Address.Hex`. -/
  AddressHex : Address → String
  /-- Go `json.Marshal` of the header map. -/
  Marshal : PaymentHeader → Except String String
  /-- Go `json.Unmarshal` into a `[]PaymentRequirement`; `none` is an error. -/
  UnmarshalArray : String → Option (List PaymentRequirement)
  /-- Go `json.Unmarshal` into a `PaymentRequirement`; `none` is an error. -/
  UnmarshalSingle : String → Option PaymentRequirement

/-- The value of a decimal digit. -/
def digitVal (c : Char) : Option Nat :=
  if '0' ≤ c ∧ c ≤ '9' then some (c.toNat - '0'.toNat) else none

/-- The number written by a list of decimal digits, continuing from `acc`. -/
def parseDigits : List Char → Nat → Option Nat
  | [], acc => some acc
  | c :: cs, acc =>
    match digitVal c with
    | some d => parseDigits cs (acc * 10 + d)
    | none => none

/-- Go `new(big.Int).SetString(s, 10)`: an optional sign and then one or more
decimal digits, nothing else; `none` is `ok == false`. -/
def SetString (s : String) : Option Int :=
  match s.toList with
  | [] => none
  | '-' :: [] => none
  | '+' :: [] => none
  | '-' :: cs => (parseDigits cs 0).map (fun n => - (n : Int))
  | '+' :: cs => (parseDigits cs 0).map (fun n => (n : Int))
  | cs => (parseDigits cs 0).map (fun n => (n : Int))

/-- The big-endian bytes of `n`, `len` of them (the low `len` bytes). -/
def bigEndian : Nat → Nat → List Nat
  | 0, _ => []
  | len + 1, n => bigEndian len (n / 256) ++ [n % 256]

/-- Go `math.U256Bytes`: the 32 big-endian bytes of `n` modulo `2 ^ 256`. -/
def U256Bytes (n : Int) : List Nat :=
  bigEndian 32 (n % (2 : Int) ^ 256).toNat

/-- Go `common.LeftPadBytes(slice, l)`. -/
def LeftPadBytes (slice : List Nat) (l : Nat) : List Nat :=
  if l ≤ slice.length then slice else List.replicate (l - slice.length) 0 ++ slice

/-- Go `common.Address.Bytes`: the 20 bytes of the address. -/
def addressBytes (a : Address) : List Nat :=
  bigEndian 20 a

/-- Go `[]byte(s)`: the bytes of a string. -/
def stringBytes (s : String) : List Nat :=
  s.toUTF8.data.toList.map UInt8.toNat

/-- Source: `buildDomainSeparator`. -/
def buildDomainSeparator (lib : Lib) (tokenAddress : Address) (chainID : Int) : List Nat :=
  let domainTypeHash := lib.Keccak256 (stringBytes
    "EIP712Domain(string name,string version,uint256 chainId,address verifyingContract)")
  let nameHash := lib.Keccak256 (stringBytes "USD Coin")
  let versionHash := lib.Keccak256 (stringBytes "2")
  lib.Keccak256
    (domainTypeHash ++ nameHash ++ versionHash ++ U256Bytes chainID ++
      LeftPadBytes (addressBytes tokenAddress) 32)

/-- Source: `SignEIP3009Authorization`. -/
def SignEIP3009Authorization (lib : Lib) (privateKey : PrivateKey) (tokenAddress : Address)
    (sender : Address) (payee : Address) (value : Int) (validAfter : Int) (validBefore : Int)
    (nonce : List Nat) (chainID : Int) : Except String (List Nat) :=
  let domainSeparator := buildDomainSeparator lib tokenAddress chainID
  let transferTypeHash := lib.Keccak256 (stringBytes
    "TransferWithAuthorization(address from,address to,uint256 value,uint256 validAfter,uint256 validBefore,bytes32 nonce)")
  let structHash := lib.Keccak256
    (transferTypeHash ++ LeftPadBytes (addressBytes sender) 32 ++
      LeftPadBytes (addressBytes payee) 32 ++ U256Bytes value ++ U256Bytes validAfter ++
      U256Bytes validBefore ++ nonce)
  let digestInput := [0x19, 0x01] ++ domainSeparator ++ structHash
  let digest := lib.Keccak256 digestInput
  match lib.Sign digest privateKey with
  | .error err => .error err
  | .ok sig =>
    if sig.getD 64 0 < 27 then .ok (sig.set 64 (sig.getD 64 0 + 27)) else .ok sig

/-- The bytes that `SignEIP3009Authorization` hashes into `structHash`: the
arguments of its `crypto.Keccak256` call, concatenated. -/
def transferStructBytes (lib : Lib) (sender : Address) (payee : Address) (value : Int)
    (validAfter : Int) (validBefore : Int) (nonce : List Nat) : List Nat :=
  lib.Keccak256 (stringBytes
    "TransferWithAuthorization(address from,address to,uint256 value,uint256 validAfter,uint256 validBefore,bytes32 nonce)") ++
    LeftPadBytes (addressBytes sender) 32 ++ LeftPadBytes (addressBytes payee) 32 ++
    U256Bytes value ++ U256Bytes validAfter ++ U256Bytes validBefore ++ nonce

/-- The token address written in `BuildPaymentHeader`. -/
def usdcAddress : Address := 0x833589fCD6eDb6E08f4c7C32D4f71b54bdA02913

/-- Source: `BuildPaymentHeader`; `req` is `none` for a nil pointer. -/
def BuildPaymentHeader (lib : Lib) (privateKey : PrivateKey) (req : Option PaymentRequirement)
    (sender : Address) (chainID : Int) : Except String String :=
  match req with
  | none => .error "nil payment requirement"
  | some req =>
    match SetString req.MaxAmountRequired with
    | none => .error "invalid amount"
    | some amount =>
      let deadline := (SetString req.RequiredDeadline).getD 0
      let nonceHash := lib.Keccak256 (addressBytes sender ++ addressBytes req.PayTo ++ U256Bytes amount)
      let nonce := (nonceHash.take 32) ++ List.replicate (32 - (nonceHash.take 32).length) 0
      let tokenAddress := usdcAddress
      match SignEIP3009Authorization lib privateKey tokenAddress sender req.PayTo amount 0
          deadline nonce chainID with
      | .error err => .error err
      | .ok sig =>
        let payload : PaymentHeader :=
          { x402Version := 1
            scheme := req.Scheme
            network := req.Network
            payload :=
              { signature := lib.Bytes2Hex sig
                sender := lib.AddressHex sender
                payee := lib.AddressHex req.PayTo
                value := req.MaxAmountRequired
                validAfter := "0"
                validBefore := req.RequiredDeadline
                nonce := lib.Bytes2Hex nonce } }
        match lib.Marshal payload with
        | .error err => .error err
        | .ok headerBytes => .ok headerBytes

/-- Source: `ParsePaymentRequirements`. -/
def ParsePaymentRequirements (lib : Lib) (data : String) :
    Except String (List PaymentRequirement) :=
  match lib.UnmarshalArray data with
  | none =>
    match lib.UnmarshalSingle data with
    | none => .error "invalid payment requirements format"
    | some single => .ok [single]
  | some requirements => .ok requirements

/-! ## middleware.go -/

/-- An `*http.Request`, with what `RoundTrip` reads of it. `URL` is
`req.URL.String()`, `Host` is `req.URL.Host`; `Body` is `none` for a nil body;
`GetBody` is `none` for a nil function, `some none` for one that returns an
error, `some (some b)` for one that returns the body `b`. -/
structure Request where
  Method : String
  URL : String
  Host : String
  Header : List (String × String)
  Body : Option String
  GetBody : Option (Option String)
deriving DecidableEq, Repr

/-- An `*http.Response`, with what `RoundTrip` reads of it. `Body` is what
`io.ReadAll(resp.Body)` gives, `none` when it returns an error. A response is
a value: that `RoundTrip` has read and closed the body of the response it
returns is not recorded in it. -/
structure Response where
  StatusCode : Int
  Body : Option String
deriving DecidableEq, Repr

/-- Go `http.Header.Set`: the value replaces every value of the key. -/
def headerSet (h : List (String × String)) (key value : String) : List (String × String) :=
  (key, value) :: h.filter (fun e => e.1 ≠ key)

/-- Source: `X402Transport`. `Base` is the underlying transport: `Base n r` is
what its `RoundTrip` returns when it is called for the `n`-th time (from 0) in
one `RoundTrip` of the decorator, with the request `r`; it does not touch the
budget. `Budget` and `Policy` are `none` for nil pointers. -/
structure X402Transport where
  Base : Nat → Request → Except String Response
  PrivateKey : PrivateKey
  From : Address
  ChainID : Int
  Budget : Option BudgetTracker
  Policy : Option X402Policy
  Config : X402Config

/-- What one `RoundTrip` meets from outside while it runs: the two clock
readings, made by `Budget.Check` before the retry and by `Budget.Track` after
it, and `between`, the calls that other goroutines make on the tracker between
these two calls, in order. `t.Budget` is a pointer to a tracker that other
goroutines share, and `RoundTrip` does not hold its lock from `Budget.Check`
to `Budget.Track`. -/
structure Clock where
  check : Nat
  track : Nat
  between : List Op
deriving DecidableEq, Repr

/-- What one `RoundTrip` returns and does: the returned response and error, the
budget after the last call that this `RoundTrip` makes on it, and the requests
dispatched through `Base`, in order. -/
structure Outcome where
  resp : Option Response
  err : Option String
  budget : Option BudgetTracker
  dispatched : List Request
deriving DecidableEq, Repr

/-- The outcome of a `return resp, nil` that `RoundTrip` makes before it
dispatches a retry: the first response, no error, one dispatch. -/
def passThrough (req : Request) (resp : Response) (budget : Option BudgetTracker) : Outcome :=
  { resp := some resp, err := none, budget := budget, dispatched := [req] }

/-- Source: `X402Transport.selectRequirement`. The code indexes
`requirements[0]`; its caller has checked the list is not empty. -/
def X402Transport.selectRequirement (t : X402Transport)
    (requirements : List PaymentRequirement) : Option PaymentRequirement :=
  if t.Config.AllowedSchemes.length = 0 then
    requirements.head?
  else
    let schemeSet : BoolMap String := some (t.Config.AllowedSchemes.map (fun s => (s, true)))
    requirements.find? (fun r => schemeSet.get r.Scheme)

/-- The policy gate of `RoundTrip` (the block `if t.Policy != nil`): true when
one of its three checks returns the first response. -/
def X402Transport.policyDeclines (t : X402Transport) (req : Request)
    (payReq : PaymentRequirement) (amount : Int) : Bool :=
  match t.Policy with
  | none => false
  | some policy =>
    if exceeds amount policy.MaxPerRequest then true
    else if policy.AllowedPayees.notNil && decide (policy.AllowedPayees.len > 0) &&
        !policy.AllowedPayees.get payReq.PayTo then true
    else if policy.AllowedDomains.notNil && decide (policy.AllowedDomains.len > 0) &&
        !policy.AllowedDomains.get req.Host then true
    else false

/-- The request that `RoundTrip` dispatches as the retry: the clone of `req`
with the header `X-PAYMENT` set, and with the body that `req.GetBody` returns
when `req` has a body and a `GetBody`. It is `none` when `GetBody` returns an
error, in which case `RoundTrip` returns the first response. -/
def retryRequest (req : Request) (paymentHeader : String) : Option Request :=
  let retryReq : Request := { req with Header := headerSet req.Header "X-PAYMENT" paymentHeader }
  match req.Body, req.GetBody with
  | some _, some none => none
  | some _, some (some newBody) => some { retryReq with Body := some newBody }
  | _, _ => some retryReq

/-- The record that `RoundTrip` passes to `Budget.Track`. -/
def paidRecord (req : Request) (payReq : PaymentRequirement) (amount : Int) : PaymentRecord :=
  { Resource := req.URL
    Amount := amount
    PayTo := payReq.PayTo
    Timestamp := 0
    TxHash := 0
    Network := payReq.Network }

/-- The last part of `RoundTrip`, from `BuildPaymentHeader` on: the gates have
passed, `budget` is the budget after `Budget.Check`, `pass` is the outcome that
returns the first response. `Budget.Track` meets the tracker as the calls of
`clock.between` left it, and its error is dropped. -/
def X402Transport.payAndRetry (t : X402Transport) (lib : Lib) (clock : Clock) (req : Request)
    (payReq : PaymentRequirement) (amount : Int) (budget : Option BudgetTracker)
    (pass : Outcome) : Outcome :=
  match BuildPaymentHeader lib t.PrivateKey (some payReq) t.From t.ChainID with
  | .error _ => pass
  | .ok paymentHeader =>
    match retryRequest req paymentHeader with
    | none => pass
    | some retryReq =>
      match t.Base 1 retryReq with
      | .error _ => { pass with dispatched := [req, retryReq] }
      | .ok retryResp =>
        let budget :=
          match budget with
          | some b =>
            if retryResp.StatusCode ≥ 200 ∧ retryResp.StatusCode < 300 then
              some ((b.afterAll clock.between).Track clock.track
                (paidRecord req payReq amount)).2
            else some b
          | none => none
        { resp := some retryResp, err := none, budget := budget, dispatched := [req, retryReq] }

/-- Source: `X402Transport.RoundTrip`. -/
def X402Transport.RoundTrip (t : X402Transport) (lib : Lib) (clock : Clock) (req : Request) :
    Outcome :=
  match t.Base 0 req with
  | .error err => { resp := none, err := some err, budget := t.Budget, dispatched := [req] }
  | .ok resp =>
    if resp.StatusCode ≠ 402 then passThrough req resp t.Budget
    else if !t.Config.AutoPay then passThrough req resp t.Budget
    else
      match resp.Body with
      | none => passThrough req resp t.Budget
      | some body =>
        match ParsePaymentRequirements lib body with
        | .error _ => passThrough req resp t.Budget
        | .ok requirements =>
          if requirements.length = 0 then passThrough req resp t.Budget
          else
            match t.selectRequirement requirements with
            | none => passThrough req resp t.Budget
            | some payReq =>
              match SetString payReq.MaxAmountRequired with
              | none => passThrough req resp t.Budget
              | some amount =>
                if t.policyDeclines req payReq amount then passThrough req resp t.Budget
                else
                  match t.Budget with
                  | none => t.payAndRetry lib clock req payReq amount none
                      (passThrough req resp none)
                  | some b =>
                    let checked := b.Check clock.check amount payReq.PayTo
                    if checked.1 ≠ none then passThrough req resp (some checked.2)
                    else
                      t.payAndRetry lib clock req payReq amount (some checked.2)
                        (passThrough req resp (some checked.2))

/-- The tracker of the test `cumulative tracking`: ceilings 100 per request
and 200 per period, no allowlist, period 3600. -/
def cumulativeTracker : BudgetTracker :=
  NewBudgetTracker
    { MaxPerRequest := some 100, MaxPerPeriod := some 200, AllowedPayees := none,
      AllowedDomains := none } 3600 1000

/-- A record of the given amount to payee 187. -/
def payment (amount : Int) : PaymentRecord :=
  { Resource := "", Amount := amount, PayTo := 187, Timestamp := 0, TxHash := 0, Network := "" }

/-- A tracker whose period of 10 seconds started at 0 with 5 already spent. -/
def elapsedTracker : BudgetTracker :=
  { state := { TotalSpent := 5, PeriodSpent := 5, PeriodStart := 0, PeriodDuration := 10,
               Records := [payment 5] }
    policy := { MaxPerRequest := none, MaxPerPeriod := some 100, AllowedPayees := none,
                AllowedDomains := none } }

/-- The tracker of the test `overspent returns zero`: ceiling 100, 150 spent. -/
def overspentTracker : BudgetTracker :=
  { state := { TotalSpent := 150, PeriodSpent := 150, PeriodStart := 1000,
               PeriodDuration := 3600, Records := [] }
    policy := { MaxPerRequest := none, MaxPerPeriod := some 100, AllowedPayees := none,
                AllowedDomains := none } }

/-- The tracker of the test `no period limit`. -/
def unlimitedTracker : BudgetTracker :=
  NewBudgetTracker
    { MaxPerRequest := some 100, MaxPerPeriod := none, AllowedPayees := none,
      AllowedDomains := none } 3600 1000

/-- The tracker of the test `exhausted`: ceiling 100, 100 spent. -/
def exhaustedTracker : BudgetTracker :=
  { state := { TotalSpent := 100, PeriodSpent := 100, PeriodStart := 1000,
               PeriodDuration := 3600, Records := [] }
    policy := { MaxPerRequest := none, MaxPerPeriod := some 100, AllowedPayees := none,
                AllowedDomains := none } }

/-- A tracker made with PeriodDuration 0, after one payment of 50. -/
def undatedTracker : BudgetTracker :=
  { state := { TotalSpent := 50, PeriodSpent := 50, PeriodStart := 1000,
               PeriodDuration := 0, Records := [payment 50] }
    policy := { MaxPerRequest := none, MaxPerPeriod := some 100, AllowedPayees := none,
                AllowedDomains := none } }

/-- A requirement of the given amount, to payee 187, of scheme `exact`. -/
def requirementOf (amount : String) : PaymentRequirement :=
  { Scheme := "exact", Network := "base", MaxAmountRequired := amount, Resource := "/data",
    Description := "", MimeType := "", PayTo := 187, RequiredDeadline := "9999999999",
    Extra := [] }

/-- Library functions for the examples: a signer that refuses the key 0, and a
decoder that knows two bodies, the array of one requirement of 1000 and the
array of one requirement of 100. -/
def exampleLib : Lib :=
  { Keccak256 := fun _ => List.replicate 32 0
    Sign := fun _ key => if key = 0 then .error "invalid private key" else .ok (List.replicate 65 0)
    Bytes2Hex := fun _ => "00"
    AddressHex := fun _ => "0x00"
    Marshal := fun header => .ok header.payload.value
    UnmarshalArray := fun body =>
      if body = "[requirement 1000]" then some [requirementOf "1000"]
      else if body = "[requirement 100]" then some [requirementOf "100"]
      else none
    UnmarshalSingle := fun _ => none }

/-- A GET request without a body. -/
def exampleRequest : Request :=
  { Method := "GET", URL := "https://api.example/data", Host := "api.example", Header := [],
    Body := none, GetBody := none }

/-- A base transport that answers the first dispatch with 402 and the given
body, and the retry with the given status. -/
def exampleBase (body : String) (retryStatus : Int) : Nat → Request → Except String Response :=
  fun n _ =>
    if n = 0 then .ok { StatusCode := 402, Body := some body }
    else .ok { StatusCode := retryStatus, Body := some "paid" }

/-- A transport with auto-pay, no scheme filter and no policy. -/
def exampleTransport (body : String) (retryStatus : Int) (key : PrivateKey)
    (budget : Option BudgetTracker) : X402Transport :=
  { Base := exampleBase body retryStatus
    PrivateKey := key
    From := 170
    ChainID := 8453
    Budget := budget
    Policy := none
    Config := { MaxAmount := none, AutoPay := true, AllowedSchemes := [], BudgetPeriod := 0 } }

/-- A budget with a period ceiling of 50 and a period of 10 seconds, made at
time 0, after a `Track` of the amount -100 at time 1. -/
def refundedBudget : BudgetTracker :=
  ((NewBudgetTracker
    { MaxPerRequest := none, MaxPerPeriod := some 50, AllowedPayees := none,
      AllowedDomains := none } 10 0).Track 1 (payment (-100))).2

/-- A budget without ceilings, made at time 1000 with a period of 3600. -/
def openBudget : BudgetTracker :=
  NewBudgetTracker
    { MaxPerRequest := none, MaxPerPeriod := none, AllowedPayees := none,
      AllowedDomains := none } 3600 1000

/-- The nonce that `BuildPaymentHeader` computes: the hash of the payer, the
payee and the amount, copied into a `[32]byte`. -/
def paymentNonce (lib : Lib) (sender payTo : Address) (amount : Int) : List Nat :=
  let nonceHash := lib.Keccak256 (addressBytes sender ++ addressBytes payTo ++ U256Bytes amount)
  (nonceHash.take 32) ++ List.replicate (32 - (nonceHash.take 32).length) 0

/-- The map that `BuildPaymentHeader` passes to `json.Marshal`: the body of
`BuildPaymentHeader` up to that call. -/
def paymentPayload (lib : Lib) (privateKey : PrivateKey) (req : Option PaymentRequirement)
    (sender : Address) (chainID : Int) : Except String PaymentHeader :=
  match req with
  | none => .error "nil payment requirement"
  | some req =>
    match SetString req.MaxAmountRequired with
    | none => .error "invalid amount"
    | some amount =>
      let deadline := (SetString req.RequiredDeadline).getD 0
      let nonce := paymentNonce lib sender req.PayTo amount
      match SignEIP3009Authorization lib privateKey usdcAddress sender req.PayTo amount 0
          deadline nonce chainID with
      | .error err => .error err
      | .ok sig =>
        .ok
          { x402Version := 1
            scheme := req.Scheme
            network := req.Network
            payload :=
              { signature := lib.Bytes2Hex sig
                sender := lib.AddressHex sender
                payee := lib.AddressHex req.PayTo
                value := req.MaxAmountRequired
                validAfter := "0"
                validBefore := req.RequiredDeadline
                nonce := lib.Bytes2Hex nonce } }

/-- A base transport whose first dispatch fails. -/
def deadBase : Nat → Request → Except String Response :=
  fun _ _ => .error "connection refused"

/-- A base transport that answers the first dispatch with 402 and one
requirement of 1000, and fails on the retry. -/
def flakyBase : Nat → Request → Except String Response :=
  fun n _ =>
    if n = 0 then .ok { StatusCode := 402, Body := some "[requirement 1000]" }
    else .error "connection reset"

/-- The transport of the examples over a given base transport. -/
def transportOver (base : Nat → Request → Except String Response)
    (budget : Option BudgetTracker) : X402Transport :=
  { Base := base
    PrivateKey := 1
    From := 170
    ChainID := 8453
    Budget := budget
    Policy := none
    Config := { MaxAmount := none, AutoPay := true, AllowedSchemes := [], BudgetPeriod := 0 } }

/-- The three requirements of the test `TestSelectRequirement`. -/
def testRequirements : List PaymentRequirement :=
  [ { requirementOf "1" with Scheme := "exact", Network := "base" },
    { requirementOf "1" with Scheme := "upto", Network := "arbitrum" },
    { requirementOf "1" with Scheme := "exact", Network := "optimism" } ]

/-- A transport with the given scheme filter. -/
def filteringTransport (schemes : List String) : X402Transport :=
  { transportOver deadBase none with
    Config := { MaxAmount := none, AutoPay := true, AllowedSchemes := schemes, BudgetPeriod := 0 } }

end X402

/-! # Package policy -/

namespace policy

/-! ## types.go -/

/-- A `time.Time`, as the signed distance of its instant from the zero time. -/
abbrev Time := Int

/-- Go `t.IsZero()`. -/
def Time.IsZero (t : Time) : Bool := decide (t = 0)

/-- Go `t.After(u)`. -/
def Time.After (t u : Time) : Bool := decide (t > u)

/-- Go `t.Before(u)`. -/
def Time.Before (t u : Time) : Bool := decide (t < u)

/-- A `time.Duration`: a signed count of nanoseconds. -/
abbrev Duration := Int

structure SpendingLimit where
  Token : X402.Address
  MaxAmount : Option Int
  Spent : Option Int
  Period : Duration
  ResetAt : Time
deriving DecidableEq, Repr

structure ContractAllowlist where
  Contracts : X402.BoolMap X402.Address
deriving DecidableEq, Repr

structure FunctionAllowlist where
  Functions : X402.BoolMap String
deriving DecidableEq, Repr

structure TimeWindow where
  Start : Time
  End : Time
  Days : List Nat
  Hours : Int × Int
deriving DecidableEq, Repr

structure RateLimit where
  MaxCalls : Nat
  Calls : Nat
  Period : Duration
  ResetAt : Time
deriving DecidableEq, Repr

structure Policy where
  ID : String
  SpendingLimits : List SpendingLimit
  ContractAllowlist : Option ContractAllowlist
  FunctionAllowlist : Option FunctionAllowlist
  TimeWindow : Option TimeWindow
  RateLimit : Option RateLimit
  CreatedAt : Time
deriving DecidableEq, Repr

/-! ## allowlist.go -/

/-- Go `hex.EncodeToString`: two lower-case hexadecimal digits for each byte. -/
def hexEncode (bytes : List Nat) : String :=
  String.mk (bytes.flatMap (fun b => [Nat.digitChar (b / 16 % 16), Nat.digitChar (b % 16)]))

/-- The selector of a function signature, as `IsAllowed` and
`NewFunctionAllowlist` compute it: the hexadecimal of the first 4 bytes of the
hash of the signature. `keccak` is Go `crypto.Keccak256`. -/
def selectorHex (keccak : List Nat → List Nat) (functionSig : String) : String :=
  hexEncode ((keccak (X402.stringBytes functionSig)).take 4)

/-- Source: `NewContractAllowlist`. -/
def NewContractAllowlist (contracts : List X402.Address) : ContractAllowlist :=
  { Contracts := some (contracts.foldl (fun m c => (c, true) :: m) []) }

/-- Source: `NewFunctionAllowlist`. -/
def NewFunctionAllowlist (keccak : List Nat → List Nat) (signatures : List String) :
    FunctionAllowlist :=
  { Functions := some (signatures.foldl (fun m sig => (selectorHex keccak sig, true) :: m) []) }

/-- Source: `IsAllowed`; `p` is `none` for a nil policy. -/
def IsAllowed (keccak : List Nat → List Nat) (p : Option Policy) (contract : X402.Address)
    (functionSig : String) : Bool :=
  match p with
  | none => false
  | some p =>
    if (match p.ContractAllowlist with
        | some al => !al.Contracts.get contract
        | none => false) then false
    else if (match p.FunctionAllowlist with
        | some al => !al.Functions.get (selectorHex keccak functionSig)
        | none => false) then false
    else true

/-! ## compose.go -/

/-- The keys of a Go map, as `range` visits them. -/
def keys {κ : Type} : X402.BoolMap κ → List κ
  | none => []
  | some es => es.map Prod.fst

/-- The loop `for k, allowed := range m { if allowed { acc[k] = true } }` of
`ComposePolicy`, on the entries `acc` of the map it fills. -/
def collectAllowed {κ : Type} [DecidableEq κ] (acc : List (κ × Bool)) (m : X402.BoolMap κ) :
    List (κ × Bool) :=
  (keys m).foldl (fun acc k => if m.get k then (k, true) :: acc else acc) acc

/-- The time-window block of the loop of `ComposePolicy`: `cur` is
`composed.TimeWindow`, `tw` is `*p.TimeWindow`. -/
def mergeTimeWindow (cur : Option TimeWindow) (tw : TimeWindow) : Option TimeWindow :=
  match cur with
  | none => some tw
  | some cur =>
    let cur := if tw.Start.After cur.Start then { cur with Start := tw.Start } else cur
    let cur :=
      if !tw.End.IsZero && (cur.End.IsZero || tw.End.Before cur.End) then
        { cur with End := tw.End }
      else cur
    some cur

/-- The rate-limit block of the loop of `ComposePolicy`: `cur` is
`composed.RateLimit`, `rl` is `*p.RateLimit`. -/
def mergeRateLimit (cur : Option RateLimit) (rl : RateLimit) : Option RateLimit :=
  match cur with
  | none => some rl
  | some cur =>
    let cur := if rl.MaxCalls < cur.MaxCalls then { cur with MaxCalls := rl.MaxCalls } else cur
    let cur := if rl.Period > cur.Period then { cur with Period := rl.Period } else cur
    some cur

/-- The variables of `ComposePolicy` during its loop: the policy being built
and the entries of the maps `contracts` and `functions`. -/
structure Composition where
  composed : Policy
  contracts : List (X402.Address × Bool)
  functions : List (String × Bool)
deriving DecidableEq, Repr

/-- The variables of `ComposePolicy` before its loop. -/
def Composition.init : Composition :=
  { composed :=
      { ID := "", SpendingLimits := [], ContractAllowlist := none, FunctionAllowlist := none,
        TimeWindow := none, RateLimit := none, CreatedAt := 0 }
    contracts := []
    functions := [] }

/-- One turn of the loop of `ComposePolicy`, for the policy `p` (`none` is a
nil pointer, which the loop skips). -/
def composeStep (c : Composition) : Option Policy → Composition
  | none => c
  | some p =>
    { composed :=
        { c.composed with
          SpendingLimits := c.composed.SpendingLimits ++ p.SpendingLimits
          TimeWindow :=
            match p.TimeWindow with
            | some tw => mergeTimeWindow c.composed.TimeWindow tw
            | none => c.composed.TimeWindow
          RateLimit :=
            match p.RateLimit with
            | some rl => mergeRateLimit c.composed.RateLimit rl
            | none => c.composed.RateLimit }
      contracts :=
        match p.ContractAllowlist with
        | some al => collectAllowed c.contracts al.Contracts
        | none => c.contracts
      functions :=
        match p.FunctionAllowlist with
        | some al => collectAllowed c.functions al.Functions
        | none => c.functions }

/-- Source: `ComposePolicy`. -/
def ComposePolicy (policies : List (Option Policy)) : Policy :=
  let c := policies.foldl composeStep Composition.init
  { c.composed with
    ContractAllowlist :=
      if c.contracts.length > 0 then some { Contracts := some c.contracts }
      else c.composed.ContractAllowlist
    FunctionAllowlist :=
      if c.functions.length > 0 then some { Functions := some c.functions }
      else c.composed.FunctionAllowlist }

/-! ## policy.go -/

/-- The loop of `ValidatePolicy` over the spending limits. -/
def validateSpendingLimits : List SpendingLimit → Option String
  | [] => none
  | sl :: rest =>
    if (match sl.MaxAmount with
        | none => true
        | some maxAmount => decide (maxAmount ≤ 0)) then
      some "invalid spending limit amount"
    else if sl.Period ≤ 0 then some "invalid spending limit period"
    else validateSpendingLimits rest

/-- Source: `PolicyService.ValidatePolicy`; `p` is `none` for a nil policy. -/
def ValidatePolicy (p : Option Policy) : Option String :=
  match p with
  | none => some "nil policy"
  | some p =>
    match validateSpendingLimits p.SpendingLimits with
    | some err => some err
    | none =>
      match (match p.TimeWindow with
          | some tw =>
            if !tw.End.IsZero && tw.Start.After tw.End then some "time window start after end"
            else if tw.Hours.1 < 0 ∨ tw.Hours.1 > 23 then some "invalid start hour"
            else if tw.Hours.2 < 0 ∨ tw.Hours.2 > 23 then some "invalid end hour"
            else none
          | none => none) with
      | some err => some err
      | none =>
        match p.RateLimit with
        | some rl =>
          if rl.MaxCalls = 0 then some "rate limit max calls must be positive"
          else if rl.Period ≤ 0 then some "invalid rate limit period"
          else none
        | none => none

/-- The checks of the specification of `validate`, in its order: for each
spending limit, in list order, its amount and then its period; then the time
window: start after a bounded end, start hour, end hour; then the rate limit:
max calls, period. Each check comes with the error of its violation and is
true when violated. -/
def specViolations (p : Policy) : List (Bool × String) :=
  p.SpendingLimits.flatMap (fun sl =>
    [ (decide (¬ ∃ m, sl.MaxAmount = some m ∧ m > 0), "invalid spending limit amount"),
      (decide (¬ sl.Period > 0), "invalid spending limit period") ]) ++
  (match p.TimeWindow with
    | some tw =>
      [ (decide (tw.End ≠ 0 ∧ tw.Start > tw.End), "time window start after end"),
        (decide (¬ (0 ≤ tw.Hours.1 ∧ tw.Hours.1 ≤ 23)), "invalid start hour"),
        (decide (¬ (0 ≤ tw.Hours.2 ∧ tw.Hours.2 ≤ 23)), "invalid end hour") ]
    | none => []) ++
  (match p.RateLimit with
    | some rl =>
      [ (decide (¬ rl.MaxCalls > 0), "rate limit max calls must be positive"),
        (decide (¬ rl.Period > 0), "invalid rate limit period") ]
    | none => [])

/-- The error of the first violated check of `specViolations`, if any. -/
def specFirstViolation (p : Policy) : Option String :=
  ((specViolations p).find? (fun check => check.1)).map (fun check => check.2)

/-- The bounds that the specification gives a composed time window over the
windows `ws`: `start` is the latest Start, `finish` is the earliest End that is
not zero, or zero when every End is zero. -/
def TightestBounds (start finish : Time) (ws : List TimeWindow) : Prop :=
  (∃ w ∈ ws, start = w.Start) ∧ (∀ w ∈ ws, w.Start ≤ start) ∧
  (finish = 0 ↔ ∀ w ∈ ws, w.End = 0) ∧
  (finish ≠ 0 → ∃ w ∈ ws, finish = w.End) ∧
  (∀ w ∈ ws, w.End ≠ 0 → finish ≤ w.End)

/-- A policy without limits, allowlists, window or rate limit: `&Policy{}`. -/
def emptyPolicy : Policy :=
  { ID := "", SpendingLimits := [], ContractAllowlist := none, FunctionAllowlist := none,
    TimeWindow := none, RateLimit := none, CreatedAt := 0 }

/-- A policy whose contract allowlist is present and empty:
`&Policy{ContractAllowlist: NewContractAllowlist(nil)}`. -/
def denyAllPolicy : Policy :=
  { emptyPolicy with ContractAllowlist := some (NewContractAllowlist []) }

/-- A hash for the examples: it returns its input. -/
def plainKeccak : List Nat → List Nat :=
  fun bytes => bytes

/-- One hour, as a `time.Duration`. -/
def hour : Duration := 3600000000000

/-- A policy with the rate limit of the given MaxCalls and Period. -/
def ratePolicy (maxCalls : Nat) (period : Duration) : Policy :=
  { emptyPolicy with
    RateLimit := some { MaxCalls := maxCalls, Calls := 0, Period := period, ResetAt := 0 } }

/-- A policy with the time window of the given Start and End and the given
start hour. -/
def windowPolicy (start finish : Time) (startHour : Int) : Policy :=
  { emptyPolicy with
    TimeWindow := some { Start := start, End := finish, Days := [], Hours := (startHour, 17) } }

/-- A spending limit of the given MaxAmount and Period. -/
def limitOf (maxAmount : Option Int) (period : Duration) : SpendingLimit :=
  { Token := 0, MaxAmount := maxAmount, Spent := none, Period := period, ResetAt := 0 }

/-- A policy with the given spending limits. -/
def limitsPolicy (limits : List SpendingLimit) : Policy :=
  { emptyPolicy with SpendingLimits := limits }

/-! ## spending.go -/

/-- Go `t.Add(d)`; a `Time` and a `Duration` count the same unit. -/
def Time.Add (t : Time) (d : Duration) : Time := t + d

/-- What a call of `CheckSpendingLimit` or `UpdateSpending` returns and leaves:
the returned error and the limit after the call (`none` for a nil pointer). -/
structure SpendingResult where
  err : Option String
  limit : Option SpendingLimit
deriving DecidableEq, Repr

/-- Source: `NewSpendingLimit`; `now` is the clock reading. -/
def NewSpendingLimit (token : X402.Address) (maxAmount : Int) (period : Duration)
    (now : Time) : SpendingLimit :=
  { Token := token, MaxAmount := some maxAmount, Spent := some 0, Period := period,
    ResetAt := now.Add period }

/-- Source: `CheckSpendingLimit`; `sl` and `amount` are `none` for nil
pointers, `now` is the clock reading. The result is `none` when the call
panics: `big.Int.Add` and `big.Int.Cmp` dereference `sl.Spent` and
`sl.MaxAmount`, which the code does not test against nil. -/
def CheckSpendingLimit (sl : Option SpendingLimit) (amount : Option Int) (now : Time) :
    Option SpendingResult :=
  match sl with
  | none => some { err := some "nil spending limit", limit := none }
  | some sl =>
    if (match amount with
        | none => true
        | some a => decide (a ≤ 0)) then
      some { err := some "invalid amount", limit := some sl }
    else
      let sl :=
        if now.After sl.ResetAt then
          { sl with Spent := some 0, ResetAt := now.Add sl.Period }
        else sl
      match sl.Spent, amount, sl.MaxAmount with
      | some spent, some a, some maxAmount =>
        let newTotal := spent + a
        if newTotal > maxAmount then
          some { err := some "spending limit exceeded", limit := some sl }
        else some { err := none, limit := some sl }
      | _, _, _ => none

/-- Source: `UpdateSpending`; the result is `none` when the call panics. -/
def UpdateSpending (sl : Option SpendingLimit) (amount : Option Int) (now : Time) :
    Option SpendingResult :=
  match CheckSpendingLimit sl amount now with
  | none => none
  | some checked =>
    match checked.err with
    | some err => some { err := some err, limit := checked.limit }
    | none =>
      match checked.limit, amount with
      | some sl, some a =>
        match sl.Spent with
        | some spent => some { err := none, limit := some { sl with Spent := some (spent + a) } }
        | none => none
      | _, _ => none

/-- A sequence of `UpdateSpending` calls on one limit, each with its amount and
clock reading; the result is the limit after the last call, `none` when a call
panics. -/
def updateAll (sl : SpendingLimit) : List (Option Int × Time) → Option SpendingLimit
  | [] => some sl
  | (amount, now) :: rest =>
    match UpdateSpending (some sl) amount now with
    | some { err := _, limit := some next } => updateAll next rest
    | _ => none

/-- The limit of the specification's example: max 1000, spent 500, reset at
time 3600. -/
def halfSpentLimit : SpendingLimit :=
  { Token := 0, MaxAmount := some 1000, Spent := some 500, Period := 3600, ResetAt := 3600 }

/-- The limit of the test `TestCheckSpendingLimitPeriodReset`, with time in
milliseconds: max 1000, spent 999, period 1, reset at time 0. -/
def staleLimit : SpendingLimit :=
  { Token := 0, MaxAmount := some 1000, Spent := some 999, Period := 1, ResetAt := 0 }

end policy

/-! # Package agent -/

namespace agent

/-! ## types.go -/

/-- A `time.Time`, as the nanoseconds of its instant since the Unix epoch. -/
abbrev Time := Int

/-- A `time.Duration`: a signed count of nanoseconds. -/
abbrev Duration := Int

/-- Go `t.Unix()`: the whole seconds since the Unix epoch, rounded down. -/
def Time.Unix (t : Time) : Int := t / 1000000000

/-- Go `t.Add(d)`. -/
def Time.Add (t : Time) (d : Duration) : Time := t + d

/-- Go `t.After(u)`. -/
def Time.After (t u : Time) : Bool := decide (t > u)

inductive AgentStatus where
  | Active
  | Revoked
  | Expired
deriving DecidableEq, Repr

/-- Source: `SessionKey`. An `*ecdsa.PrivateKey` is its secret scalar `D`; its
embedded public key is the one the library derives from `D`, as
`crypto.GenerateKey` and `crypto.ToECDSA` make it. A pointer is `none` when
nil. -/
structure SessionKey where
  PrivateKey : Option Nat
  PublicKey : Option (Nat × Nat)
  Address : X402.Address
  ValidAfter : Option Int
  ValidUntil : Option Int
  ChainID : Option Int
deriving DecidableEq, Repr

structure AgentConfig where
  Name : String
  WalletAddress : X402.Address
  Duration : Duration
  Permissions : List String
deriving DecidableEq, Repr

structure CreateAgentParams where
  Config : AgentConfig
  ChainID : Option Int
deriving DecidableEq, Repr

structure Agent where
  ID : String
  Name : String
  WalletAddress : X402.Address
  SessionKey : Option SessionKey
  Status : AgentStatus
  CreatedAt : Time
  ExpiresAt : Time
  Permissions : List String
deriving DecidableEq, Repr

/-- Functions of the library `go-ethereum/crypto` that the package calls; they
are parameters of the embedding. -/
structure Crypto where
  /-- The public key of a private scalar: the field `PublicKey` of the key. -/
  PublicKey : Nat → Nat × Nat
  /-- Go `crypto.PubkeyToAddress`. -/
  PubkeyToAddress : Nat × Nat → X402.Address
  /-- Go `crypto.Sign(hash, privateKey)`. -/
  Sign : List Nat → Nat → Except String (List Nat)
  /-- Go `crypto.Keccak256(data...)`, on the concatenation of its arguments. -/
  Keccak256 : List Nat → List Nat

/-! ## session.go -/

/-- The order of the group of secp256k1. -/
def secp256k1N : Nat := 0xFFFFFFFFFFFFFFFFFFFFFFFFFFFFFFFEBAAEDCE6AF48A03BBFD25E8CD0364141

/-- The big-endian bytes of `n` without leading zeros, in at most `fuel`
bytes. -/
def natBytesWithin : Nat → Nat → List Nat
  | 0, _ => []
  | fuel + 1, n => if n = 0 then [] else natBytesWithin fuel (n / 256) ++ [n % 256]

/-- Go `big.Int.Bytes` on a number that is not negative: its big-endian bytes
without leading zeros. A number `n` has fewer than `n + 1` bytes. -/
def natBytes (n : Nat) : List Nat :=
  natBytesWithin n n

/-- Go `x.Bytes()` of a `*big.Int`: the bytes of the absolute value. -/
def bigIntBytes (x : Int) : List Nat :=
  natBytes x.natAbs

/-- Go `new(big.Int).SetBytes(buf)`: the number that big-endian bytes write. -/
def SetBytes (buf : List Nat) : Nat :=
  buf.foldl (fun acc b => acc * 256 + b) 0

/-- Go `crypto.FromECDSA`: the scalar in 32 big-endian bytes, or in its own
bytes when they are more. -/
def FromECDSA (d : Nat) : List Nat :=
  if d < 2 ^ 256 then X402.bigEndian 32 d else natBytes d

/-- Go `crypto.ToECDSA`: the scalar that 32 bytes write, when it lies between
1 and the order of the group. -/
def ToECDSA (d : List Nat) : Except String Nat :=
  if d.length ≠ 32 then .error "invalid length, need 256 bits"
  else if SetBytes d ≥ secp256k1N then .error "invalid private key, >=N"
  else if SetBytes d = 0 then .error "invalid private key, zero or negative"
  else .ok (SetBytes d)

/-- The value of a hexadecimal digit, of either case. -/
def hexVal (c : Char) : Option Nat :=
  if '0' ≤ c ∧ c ≤ '9' then some (c.toNat - '0'.toNat)
  else if 'a' ≤ c ∧ c ≤ 'f' then some (c.toNat - 'a'.toNat + 10)
  else if 'A' ≤ c ∧ c ≤ 'F' then some (c.toNat - 'A'.toNat + 10)
  else none

/-- The bytes that pairs of hexadecimal digits write. The errors are those of
Go `encoding/hex`, without the byte they quote. -/
def decodePairs : List Char → Except String (List Nat)
  | [] => .ok []
  | [c] =>
    if hexVal c = none then .error "encoding/hex: invalid byte"
    else .error "encoding/hex: odd length hex string"
  | hi :: lo :: rest =>
    match hexVal hi, hexVal lo with
    | some h, some l =>
      match decodePairs rest with
      | .ok bytes => .ok ((h * 16 + l) :: bytes)
      | .error err => .error err
    | _, _ => .error "encoding/hex: invalid byte"

/-- Go `hex.DecodeString`. -/
def hexDecode (s : String) : Except String (List Nat) :=
  decodePairs s.toList

/-- Source: `common_left_pad`. -/
def common_left_pad (b : List Nat) (size : Nat) : List Nat :=
  if b.length ≥ size then b.take size
  else List.replicate (size - b.length) 0 ++ b

/-- Source: `GenerateSessionKey`. `generated` is what `crypto.GenerateKey`
returns, `now` is the clock reading. -/
def GenerateSessionKey (lib : Crypto) (generated : Except String Nat) (chainID : Option Int)
    (duration : Duration) (now : Time) : Except String SessionKey :=
  match generated with
  | .error err => .error err
  | .ok privateKey =>
    let validAfter := now.Unix
    let validUntil := (now.Add duration).Unix
    .ok
      { PrivateKey := some privateKey
        PublicKey := some (lib.PublicKey privateKey)
        Address := lib.PubkeyToAddress (lib.PublicKey privateKey)
        ValidAfter := some validAfter
        ValidUntil := some validUntil
        ChainID := chainID }

/-- Source: `SerializeSessionKey`. The result is `none` when the call panics:
`Bytes` dereferences `sk.ChainID`, `sk.ValidAfter` and `sk.ValidUntil`, which
the code does not test against nil. -/
def SerializeSessionKey (sk : Option SessionKey) : Option (Except String String) :=
  match sk with
  | none => some (.error "nil session key")
  | some sk =>
    match sk.PrivateKey with
    | none => some (.error "nil session key")
    | some privateKey =>
      match sk.ChainID, sk.ValidAfter, sk.ValidUntil with
      | some chainID, some validAfter, some validUntil =>
        let privBytes := FromECDSA privateKey
        let chainBytes := bigIntBytes chainID
        let afterBytes := bigIntBytes validAfter
        let untilBytes := bigIntBytes validUntil
        let data := privBytes ++ common_left_pad chainBytes 32 ++
          common_left_pad afterBytes 32 ++ common_left_pad untilBytes 32
        some (.ok (policy.hexEncode data))
      | _, _, _ => none

/-- Source: `DeserializeSessionKey`. -/
def DeserializeSessionKey (lib : Crypto) (encoded : String) : Except String SessionKey :=
  match hexDecode encoded with
  | .error err => .error err
  | .ok data =>
    if data.length < 128 then .error "invalid session key data"
    else
      let privBytes := data.take 32
      let chainBytes := (data.drop 32).take 32
      let afterBytes := (data.drop 64).take 32
      let untilBytes := (data.drop 96).take 32
      match ToECDSA privBytes with
      | .error err => .error err
      | .ok privateKey =>
        .ok
          { PrivateKey := some privateKey
            PublicKey := some (lib.PublicKey privateKey)
            Address := lib.PubkeyToAddress (lib.PublicKey privateKey)
            ValidAfter := some (SetBytes chainBytes : Nat)
            ValidUntil := some (SetBytes afterBytes : Nat)
            ChainID := some (SetBytes untilBytes : Nat) }

/-- Source: `ValidateSessionKey`; `clock` is the clock reading `time.Now()`. -/
def ValidateSessionKey (lib : Crypto) (sk : Option SessionKey) (clock : Time) : Option String :=
  match sk with
  | none => some "nil session key"
  | some sk =>
    match sk.PrivateKey with
    | none => some "missing private key"
    | some privateKey =>
      if (match sk.ChainID with
          | none => true
          | some chainID => decide (chainID ≤ 0)) then some "invalid chain ID"
      else
        let now := clock.Unix
        if (match sk.ValidAfter with
            | some validAfter => decide (now < validAfter)
            | none => false) then some "session key not yet valid"
        else if (match sk.ValidUntil with
            | some validUntil => decide (now > validUntil)
            | none => false) then some "session key expired"
        else
          let expectedAddr := lib.PubkeyToAddress (lib.PublicKey privateKey)
          if sk.Address ≠ expectedAddr then some "address mismatch"
          else none

/-- Source: `SignWithSessionKey`: the error of the validation, or what
`crypto.Sign` returns. -/
def SignWithSessionKey (lib : Crypto) (sk : Option SessionKey) (hash : List Nat)
    (clock : Time) : Except String (List Nat) :=
  match ValidateSessionKey lib sk clock with
  | some err => .error err
  | none =>
    match sk.bind (fun k => k.PrivateKey) with
    | some privateKey => lib.Sign hash privateKey
    | none => .error "missing private key"

/-! ## agent.go -/

/-- Source: `AgentService`. The map `agents` is the list of its entries; an id
is looked up at its first entry, and the entries of a Go map have distinct
keys. -/
structure AgentService where
  agents : List (String × Agent)
deriving DecidableEq, Repr

/-- Source: `NewAgentService`. -/
def NewAgentService : AgentService :=
  { agents := [] }

/-- The lazy expiry that `GetAgent` and `ListAgents` apply to an agent:
`if a.Status == AgentStatusActive && now.After(a.ExpiresAt)`. -/
def refresh (a : Agent) (now : Time) : Agent :=
  if a.Status = AgentStatus.Active ∧ now.After a.ExpiresAt = true then
    { a with Status := AgentStatus.Expired }
  else a

/-- A write through the pointer stored under `id`. -/
def modify (agents : List (String × Agent)) (id : String) (f : Agent → Agent) :
    List (String × Agent) :=
  agents.map (fun entry => if entry.1 = id then (entry.1, f entry.2) else entry)

/-- Source: `AgentService.CreateAgent`. `generated` is what `crypto.GenerateKey`
returns; `keyTime` is the clock reading of `GenerateSessionKey`, `now` the one
of `CreateAgent` after it. The result is what is returned and the service
after the call. -/
def AgentService.CreateAgent (s : AgentService) (lib : Crypto) (generated : Except String Nat)
    (params : CreateAgentParams) (keyTime now : Time) : Except String Agent × AgentService :=
  match GenerateSessionKey lib generated params.ChainID params.Config.Duration keyTime with
  | .error err => (.error err, s)
  | .ok sessionKey =>
    let idBytes := lib.Keccak256
      (X402.addressBytes sessionKey.Address ++ X402.addressBytes params.Config.WalletAddress)
    let id := policy.hexEncode (idBytes.take 16)
    let a : Agent :=
      { ID := id
        Name := params.Config.Name
        WalletAddress := params.Config.WalletAddress
        SessionKey := some sessionKey
        Status := AgentStatus.Active
        CreatedAt := now
        ExpiresAt := now.Add params.Config.Duration
        Permissions := params.Config.Permissions }
    (.ok a, { agents := (id, a) :: s.agents.filter (fun entry => entry.1 ≠ id) })

/-- Source: `AgentService.RevokeAgent`. -/
def AgentService.RevokeAgent (s : AgentService) (id : String) : Option String × AgentService :=
  match s.agents.lookup id with
  | none => (some "agent not found", s)
  | some _ =>
    (none, { agents := modify s.agents id (fun a => { a with Status := AgentStatus.Revoked }) })

/-- Source: `AgentService.GetAgent`; `now` is the clock reading. The agent
returned is the stored agent after the call. -/
def AgentService.GetAgent (s : AgentService) (id : String) (now : Time) :
    Except String Agent × AgentService :=
  match s.agents.lookup id with
  | none => (.error "agent not found", s)
  | some a => (.ok (refresh a now), { agents := modify s.agents id (fun a => refresh a now) })

/-- Source: `AgentService.ListAgents`; `now` is the clock reading. The agents
are returned in the order of the entries; Go leaves the order open. -/
def AgentService.ListAgents (s : AgentService) (walletAddr : X402.Address) (now : Time) :
    List Agent × AgentService :=
  ((s.agents.filter (fun entry => entry.2.WalletAddress = walletAddr)).map
      (fun entry => refresh entry.2 now),
    { agents := s.agents.map (fun entry =>
        if entry.2.WalletAddress = walletAddr then (entry.1, refresh entry.2 now) else entry) })

/-- A call of `GetAgent`, `ListAgents` or `RevokeAgent`, with its arguments and
its clock reading. -/
inductive Call where
  | get (id : String) (now : Time)
  | list (walletAddr : X402.Address) (now : Time)
  | revoke (id : String)
deriving DecidableEq, Repr

/-- The service after a call. -/
def AgentService.after (s : AgentService) : Call → AgentService
  | .get id now => (s.GetAgent id now).2
  | .list walletAddr now => (s.ListAgents walletAddr now).2
  | .revoke id => (s.RevokeAgent id).2

/-- The service after a sequence of calls. -/
def AgentService.afterAll (s : AgentService) (calls : List Call) : AgentService :=
  calls.foldl AgentService.after s

/-- The status that a call reports for the agent `id`, when it reports on it:
`GetAgent` of `id`, `ListAgents` of its wallet, and `RevokeAgent` of `id`
through the status it stores. -/
def AgentService.reported (s : AgentService) (id : String) : Call → Option AgentStatus
  | .get id2 now =>
    if id2 = id then
      match (s.GetAgent id2 now).1 with
      | .ok a => some a.Status
      | .error _ => none
    else none
  | .list walletAddr now =>
    match s.agents.lookup id with
    | some a =>
      if a.WalletAddress = walletAddr then
        ((s.ListAgents walletAddr now).2.agents.lookup id).map (fun a => a.Status)
      else none
    | none => none
  | .revoke id2 =>
    if id2 = id then ((s.RevokeAgent id2).2.agents.lookup id).map (fun a => a.Status)
    else none

/-- Library functions for the examples. -/
def exampleCrypto : Crypto :=
  { PublicKey := fun d => (d, d + 1)
    PubkeyToAddress := fun pk => pk.1 % 2 ^ 160
    Sign := fun hash d => .ok (hash ++ [d % 256])
    Keccak256 := fun bytes => bytes }

/-- The parameters of the agents of the examples: wallet 170, chain 8453, the
given duration. -/
def exampleParams (duration : Duration) : CreateAgentParams :=
  { Config := { Name := "test-agent", WalletAddress := 170, Duration := duration,
                Permissions := ["transfer", "swap"] }
    ChainID := some 8453 }

/-- One second, as a `time.Duration`. -/
def second : Duration := 1000000000

/-- A session key with the given fields, for the key 7 of the examples. -/
def keyOf (chainID validAfter validUntil : Option Int) : SessionKey :=
  { PrivateKey := some 7
    PublicKey := some (exampleCrypto.PublicKey 7)
    Address := exampleCrypto.PubkeyToAddress (exampleCrypto.PublicKey 7)
    ValidAfter := validAfter
    ValidUntil := validUntil
    ChainID := chainID }

/-- The registry after `CreateAgent` of the example parameters for one hour, at
the second 1700000000, and `RevokeAgent` of the agent created. -/
def revokedRegistry : AgentService :=
  let created := NewAgentService.CreateAgent exampleCrypto (.ok 7) (exampleParams (3600 * second))
    (1700000000 * second) (1700000000 * second)
  match created.1 with
  | .ok a => (created.2.RevokeAgent a.ID).2
  | .error _ => created.2

/-- The registry after `CreateAgent` of the example parameters for one hour, at
the second 1700000000. -/
def createdRegistry : AgentService :=
  (NewAgentService.CreateAgent exampleCrypto (.ok 7) (exampleParams (3600 * second))
    (1700000000 * second) (1700000000 * second)).2

/-- The agent of `createdRegistry`. -/
def createdAgent : Agent :=
  { ID := "00000000000000000000000000000000"
    Name := "test-agent"
    WalletAddress := 170
    SessionKey := some (keyOf (some 8453) (some 1700000000) (some 1700003600))
    Status := AgentStatus.Active
    CreatedAt := 1700000000 * second
    ExpiresAt := 1700003600 * second
    Permissions := ["transfer", "swap"] }

end agent

/-! # Package wallet -/

namespace wallet

/-! ## types.go -/

/-- Source: `Guardian`; `Threshold` is a `uint8`. -/
structure Guardian where
  Address : X402.Address
  AddedAt : Nat
  Threshold : Nat
deriving DecidableEq, Repr

structure WalletConfig where
  EntryPoint : X402.Address
  Factory : X402.Address
  ChainID : Option Int
  BundlerURL : String
  RPCURL : String
deriving DecidableEq, Repr

structure Wallet where
  Address : X402.Address
  Owner : X402.Address
  EntryPoint : X402.Address
  Factory : X402.Address
  Salt : Int
  ChainID : Option Int
  Guardians : List Guardian
  IsDeployed : Bool
  Nonce : Nat
deriving DecidableEq, Repr

structure CreateWalletParams where
  Owner : X402.Address
  Salt : Option Int
  Guardians : List X402.Address
  Config : WalletConfig
deriving DecidableEq, Repr

/-- Functions of go-ethereum that the wallet code calls; they are parameters
of the embedding. A public key is a pair of coordinates. -/
structure Crypto where
  /-- Go `crypto.Keccak256(data...)`, on the concatenation of its arguments. -/
  Keccak256 : List Nat → List Nat
  /-- Go `crypto.SigToPub(hash, sig)`. -/
  SigToPub : List Nat → List Nat → Except String (Nat × Nat)
  /-- Go `crypto.PubkeyToAddress`. -/
  PubkeyToAddress : Nat × Nat → X402.Address

/-- A Go map as the list of its entries, with distinct keys: the entries after
`m[k] = v`. -/
def put {α : Type} (m : List (X402.Address × α)) (k : X402.Address) (v : α) :
    List (X402.Address × α) :=
  (k, v) :: m.filter (fun entry => entry.1 ≠ k)

/-- The entries of a Go map after `delete(m, k)`. -/
def delete {α : Type} (m : List (X402.Address × α)) (k : X402.Address) :
    List (X402.Address × α) :=
  m.filter (fun entry => entry.1 ≠ k)

/-! ## wallet.go -/

/-- Source: `WalletService`; `wallets` is the map of the wallets by address. -/
structure WalletService where
  config : WalletConfig
  wallets : List (X402.Address × Wallet)
deriving DecidableEq, Repr

/-- Source: `NewWalletService`. -/
def NewWalletService (config : WalletConfig) : WalletService :=
  { config := config, wallets := [] }

/-- Go `common.BytesToAddress`: the last 20 bytes, as a number. -/
def BytesToAddress (b : List Nat) : X402.Address :=
  agent.SetBytes b % 2 ^ 160

/-- Source: `computeCounterfactualAddress`. -/
def computeCounterfactualAddress (lib : Crypto) (owner factory : X402.Address) (salt : Int) :
    X402.Address :=
  let initCodeHash := lib.Keccak256 (X402.addressBytes owner)
  let data := [0xff] ++ X402.addressBytes factory ++
    X402.LeftPadBytes (agent.bigIntBytes salt) 32 ++ initCodeHash
  let hash := lib.Keccak256 data
  BytesToAddress (hash.drop 12)

/-- Source: `WalletService.CreateWallet`; its error is always nil. The result
is the wallet returned and the service after the call. -/
def WalletService.CreateWallet (s : WalletService) (lib : Crypto) (params : CreateWalletParams) :
    Wallet × WalletService :=
  let salt := params.Salt.getD 0
  let address := computeCounterfactualAddress lib params.Owner params.Config.Factory salt
  let guardians := params.Guardians.map (fun g =>
    ({ Address := g, AddedAt := 0, Threshold := 1 } : Guardian))
  let w : Wallet :=
    { Address := address
      Owner := params.Owner
      EntryPoint := params.Config.EntryPoint
      Factory := params.Config.Factory
      Salt := salt
      ChainID := params.Config.ChainID
      Guardians := guardians
      IsDeployed := false
      Nonce := 0 }
  (w, { s with wallets := put s.wallets address w })

/-- Source: `WalletService.GetWallet`. -/
def WalletService.GetWallet (s : WalletService) (address : X402.Address) : Option Wallet :=
  s.wallets.lookup address

/-! ## recovery.go -/

structure RecoveryRequest where
  WalletAddress : X402.Address
  NewOwner : X402.Address
  Approvals : List (X402.Address × List Nat)
  Threshold : Nat
  Executed : Bool
deriving DecidableEq, Repr

/-- Source: `RecoveryService`; `requests` is the map of the requests by wallet
address. -/
structure RecoveryService where
  requests : List (X402.Address × RecoveryRequest)
deriving DecidableEq, Repr

/-- Source: `NewRecoveryService`. -/
def NewRecoveryService : RecoveryService :=
  { requests := [] }

/-- Source: `WalletService.AddGuardian`; `threshold` is a `uint8`. -/
def WalletService.AddGuardian (s : WalletService) (walletAddr guardian : X402.Address)
    (threshold : Nat) : Option String × WalletService :=
  match s.wallets.lookup walletAddr with
  | none => (some "wallet not found", s)
  | some w =>
    if w.Guardians.any (fun g => g.Address = guardian) then (some "guardian already exists", s)
    else
      (none,
        { s with
          wallets := put s.wallets walletAddr
            { w with
              Guardians := w.Guardians ++
                [{ Address := guardian, AddedAt := 0, Threshold := threshold }] } })

/-- The guardians without the first one of the given address:
`append(w.Guardians[:i], w.Guardians[i+1:]...)` at the first match. -/
def removeFirst (guardian : X402.Address) : List Guardian → List Guardian
  | [] => []
  | g :: rest => if g.Address = guardian then rest else g :: removeFirst guardian rest

/-- Source: `WalletService.RemoveGuardian`. -/
def WalletService.RemoveGuardian (s : WalletService) (walletAddr guardian : X402.Address) :
    Option String × WalletService :=
  match s.wallets.lookup walletAddr with
  | none => (some "wallet not found", s)
  | some w =>
    if w.Guardians.any (fun g => g.Address = guardian) then
      (none,
        { s with
          wallets := put s.wallets walletAddr
            { w with Guardians := removeFirst guardian w.Guardians } })
    else (some "guardian not found", s)

/-- Source: `RecoveryService.InitiateRecovery`. The result is the request
returned, or the error, and the service after the call. -/
def RecoveryService.InitiateRecovery (rs : RecoveryService) (wallet : Wallet)
    (newOwner : X402.Address) : Except String RecoveryRequest × RecoveryService :=
  match wallet.Guardians with
  | [] => (.error "no guardians configured", rs)
  | first :: _ =>
    let req : RecoveryRequest :=
      { WalletAddress := wallet.Address
        NewOwner := newOwner
        Approvals := []
        Threshold := first.Threshold
        Executed := false }
    (.ok req, { requests := put rs.requests wallet.Address req })

/-- Source: `RecoveryService.ApproveRecovery`. -/
def RecoveryService.ApproveRecovery (rs : RecoveryService) (lib : Crypto)
    (walletAddr guardian : X402.Address) (signature : List Nat) :
    Option String × RecoveryService :=
  match rs.requests.lookup walletAddr with
  | none => (some "no recovery request found", rs)
  | some req =>
    if req.Executed then (some "recovery already executed", rs)
    else
      let recoveryHash := lib.Keccak256
        (X402.addressBytes walletAddr ++ X402.addressBytes req.NewOwner)
      match lib.SigToPub recoveryHash signature with
      | .error _ => (some "invalid signature", rs)
      | .ok sigPublicKey =>
        let recoveredAddr := lib.PubkeyToAddress sigPublicKey
        if recoveredAddr ≠ guardian then (some "signature does not match guardian", rs)
        else
          (none,
            { requests := put rs.requests walletAddr
                { req with Approvals := put req.Approvals guardian signature } })

/-- Source: `RecoveryService.ExecuteRecovery`. The result is the error and the
two services after the call. -/
def RecoveryService.ExecuteRecovery (rs : RecoveryService) (walletAddr : X402.Address)
    (walletService : WalletService) : Option String × RecoveryService × WalletService :=
  match rs.requests.lookup walletAddr with
  | none => (some "no recovery request found", rs, walletService)
  | some req =>
    if req.Executed then (some "recovery already executed", rs, walletService)
    else if req.Approvals.length % 256 < req.Threshold then
      (some "insufficient approvals", rs, walletService)
    else
      match walletService.wallets.lookup walletAddr with
      | none => (some "wallet not found", rs, walletService)
      | some w =>
        (none, { requests := delete rs.requests walletAddr },
          { walletService with
            wallets := put walletService.wallets walletAddr { w with Owner := req.NewOwner } })

/-- What the calls `InitiateRecovery(wallet, newOwner)`,
`ApproveRecovery(wallet.Address, approver, signature)` and
`ExecuteRecovery(wallet.Address, walletService)` return and leave, made in this
order: the errors of the last two and the wallet service after them. -/
def recoverBy (lib : Crypto) (walletService : WalletService) (rs : RecoveryService)
    (wallet : Wallet) (newOwner approver : X402.Address) (signature : List Nat) :
    Option String × Option String × WalletService :=
  let initiated := rs.InitiateRecovery wallet newOwner
  let approved := initiated.2.ApproveRecovery lib wallet.Address approver signature
  let executed := approved.2.ExecuteRecovery wallet.Address walletService
  (approved.1, executed.1, executed.2.2)

/-- Library functions for the examples: a hash that returns its input, and
signatures that are the number of the key followed by the hash signed; the
address of a key is its number. -/
def exampleCrypto : Crypto :=
  { Keccak256 := fun bytes => bytes
    SigToPub := fun hash sig =>
      match sig with
      | key :: signed => if signed = hash then .ok (key, 0) else .error "recovery failed"
      | [] => .error "invalid signature length"
    PubkeyToAddress := fun pk => pk.1 }

/-- The wallet service of the tests: one wallet of owner 170 with the guardian
187. -/
def guardedService : WalletService :=
  ((NewWalletService
      { EntryPoint := 1, Factory := 2, ChainID := some 8453, BundlerURL := "", RPCURL := "" }).CreateWallet
    exampleCrypto
    { Owner := 170, Salt := some 0, Guardians := [187]
      Config := { EntryPoint := 1, Factory := 2, ChainID := some 8453, BundlerURL := "",
                  RPCURL := "" } }).2

/-- The wallet of `guardedService`. -/
def guardedWallet : Wallet :=
  ((NewWalletService
      { EntryPoint := 1, Factory := 2, ChainID := some 8453, BundlerURL := "", RPCURL := "" }).CreateWallet
    exampleCrypto
    { Owner := 170, Salt := some 0, Guardians := [187]
      Config := { EntryPoint := 1, Factory := 2, ChainID := some 8453, BundlerURL := "",
                  RPCURL := "" } }).1

/-- The signature of the key 204, which is no guardian, on the recovery of
`guardedWallet` to the new owner 204. -/
def strangerSignature : List Nat :=
  204 :: (X402.addressBytes guardedWallet.Address ++ X402.addressBytes 204)

end wallet

/-! # Package encoding -/

namespace encoding

/-! ## abi.go -/

/-- An argument of `EncodeFunctionCall`: a Go value passed as `interface{}`. -/
inductive Value where
  | address (a : X402.Address)
  | number (n : Int)
  | bytes (b : List Nat)
  | text (s : String)
deriving DecidableEq, Repr

/-- Functions of go-ethereum that the encoding code calls; they are parameters
of the embedding. An `abi.Type` is the string that names it. -/
structure Abi where
  /-- Go `crypto.Keccak256`. -/
  Keccak256 : List Nat → List Nat
  /-- Go `abi.NewType(p, "", nil)`. -/
  NewType : String → Except String String
  /-- Go `abi.Arguments.Pack(args...)`, on the types of the arguments. -/
  Pack : List String → List Value → Except String (List Nat)

/-- The first loop of `parseSignatureArgs`, from the character at index `i`:
`start` is the index after the last `(` seen and `finish` the index of the last
`)` seen; `none` is the -1 of the source. A Go string is indexed by bytes and
the model by characters; the substrings cut at these indices are the same. -/
def scanParens : List Char → Nat → Option Nat → Option Nat → Option Nat × Option Nat
  | [], _, start, finish => (start, finish)
  | c :: cs, i, start, finish =>
    let start := if c = '(' then some (i + 1) else start
    let finish := if c = ')' then some i else finish
    scanParens cs (i + 1) start finish

/-- The substring `s[start:finish]`. -/
def slice (s : List Char) (start finish : Nat) : String :=
  String.mk ((s.drop start).take (finish - start))

/-- The loop of `splitParams` over the characters of `s`, from the character
at index `i`: the result is `start` and `result` after the loop. -/
def splitLoop (s : List Char) : List Char → Nat → Int → Nat → List String → Nat × List String
  | [], _, _, start, result => (start, result)
  | c :: cs, i, depth, start, result =>
    if c = '(' then splitLoop s cs (i + 1) (depth + 1) start result
    else if c = ')' then splitLoop s cs (i + 1) (depth - 1) start result
    else if c = ',' then
      if depth = 0 then splitLoop s cs (i + 1) depth (i + 1) (result ++ [slice s start i])
      else splitLoop s cs (i + 1) depth start result
    else splitLoop s cs (i + 1) depth start result

/-- Source: `splitParams`. -/
def splitParams (s : List Char) : List String :=
  let looped := splitLoop s s 0 0 0 []
  if looped.1 < s.length then looped.2 ++ [String.mk (s.drop looped.1)] else looped.2

/-- The second loop of `parseSignatureArgs`: the type of each parameter, or the
first error of `abi.NewType`. -/
def newTypes (lib : Abi) : List String → Except String (List String)
  | [] => .ok []
  | p :: rest =>
    match lib.NewType p with
    | .error err => .error err
    | .ok typ =>
      match newTypes lib rest with
      | .error err => .error err
      | .ok types => .ok (typ :: types)

/-- Source: `parseSignatureArgs`. -/
def parseSignatureArgs (lib : Abi) (sig : String) : Except String (List String) :=
  match scanParens sig.toList 0 none none with
  | (some start, some finish) =>
    if start ≥ finish then .ok []
    else
      let paramStr := slice sig.toList start finish
      if paramStr = "" then .ok []
      else newTypes lib (splitParams paramStr.toList)
  | _ => .ok []

/-- Source: `EncodeFunctionCall`. -/
def EncodeFunctionCall (lib : Abi) (signature : String) (args : List Value) :
    Except String (List Nat) :=
  let selector := (lib.Keccak256 (X402.stringBytes signature)).take 4
  if args.length = 0 then .ok selector
  else
    match parseSignatureArgs lib signature with
    | .error err => .error err
    | .ok abiArgs =>
      match lib.Pack abiArgs args with
      | .error err => .error err
      | .ok packed => .ok (selector ++ packed)

/-- Library functions for the examples: a hash that returns its input, the
types `address`, `uint256` and `bool`, and a packing of 32 zero bytes for each
argument that fails when the number of arguments is not the number of types. -/
def exampleAbi : Abi :=
  { Keccak256 := fun bytes => bytes
    NewType := fun p =>
      if p = "address" ∨ p = "uint256" ∨ p = "bool" then .ok p else .error "unsupported arg type"
    Pack := fun types args =>
      if args.length ≠ types.length then .error "argument count mismatch"
      else .ok (List.replicate (32 * args.length) 0) }

end encoding

namespace X402

/-- Library functions for the examples of the nonce: a hash that returns its
input, and the hexadecimal encoding of bytes. -/
def tracingLib : Lib :=
  { Keccak256 := fun bytes => bytes
    Sign := fun _ _ => .ok (List.replicate 65 0)
    Bytes2Hex := policy.hexEncode
    AddressHex := fun a => policy.hexEncode (addressBytes a)
    Marshal := fun header => .ok header.payload.nonce
    UnmarshalArray := fun _ => none
    UnmarshalSingle := fun _ => none }

/-! ## Sequences of calls on a tracker -/

/-- The sum of the Amount fields of a list of records. -/
def recordsTotal (records : List PaymentRecord) : Int :=
  (records.map (fun r => r.Amount)).sum

/-- A tracker with a period ceiling of 100 and 5 spent, whose period started at
1000 and lasts `2 ^ 64 - 1` seconds. -/
def wrappingTracker : BudgetTracker :=
  { state := { TotalSpent := 5, PeriodSpent := 5, PeriodStart := 1000,
               PeriodDuration := 2 ^ 64 - 1, Records := [payment 5] }
    policy := { MaxPerRequest := none, MaxPerPeriod := some 100, AllowedPayees := none,
                AllowedDomains := none } }

/-- The transport of the examples with `Config.MaxAmount` 1 and
`Config.BudgetPeriod` 60, over a base that asks for 1000 and accepts the
payment. -/
def cappedTransport : X402Transport :=
  { exampleTransport "[requirement 1000]" 200 1 (some openBudget) with
    Config := { MaxAmount := some 1, AutoPay := true, AllowedSchemes := [], BudgetPeriod := 60 } }

/-- A requirement of 1000 whose deadline is not a number. -/
def undatedRequirement : PaymentRequirement :=
  { requirementOf "1000" with RequiredDeadline := "not-a-number" }

/-- Library functions for the examples of what is signed: a hash that returns
its input and a signer whose signature is the digest it is given, so that the
signature shows every number that was signed. -/
def echoLib : Lib :=
  { tracingLib with Sign := fun digest _ => .ok digest }

/-! ## Goroutines that call Track -/

/-- Source: the part of `BudgetTracker.Track` after `bt.resetPeriodIfNeeded()`:
the checks and the update. -/
def BudgetTracker.trackChecked (bt : BudgetTracker) (record : PaymentRecord) :
    Option String × BudgetTracker :=
  if bt.policy.AllowedPayees.notNil && decide (bt.policy.AllowedPayees.len > 0) &&
      !bt.policy.AllowedPayees.get record.PayTo then
    (some "payee not in allowlist", bt)
  else if exceeds record.Amount bt.policy.MaxPerRequest then
    (some "amount exceeds per-request limit", bt)
  else
    let newPeriodTotal := bt.state.PeriodSpent + record.Amount
    if exceeds newPeriodTotal bt.policy.MaxPerPeriod then
      (some "amount exceeds period budget", bt)
    else
      (none,
        { bt with
          state :=
            { bt.state with
              TotalSpent := bt.state.TotalSpent + record.Amount
              PeriodSpent := newPeriodTotal
              Records := bt.state.Records ++ [record] } })

/-- Where a goroutine stands in its call of `Track`: before `bt.mu.Lock()`,
after it, after `bt.resetPeriodIfNeeded()`, or returned with its error, the
deferred `bt.mu.Unlock()` done. -/
inductive Stage where
  | waiting
  | locked
  | reset
  | returned (err : Option String)
deriving DecidableEq, Repr

/-- A goroutine that calls `Track(record)`; `now` is the clock reading of its
`resetPeriodIfNeeded`. -/
structure Goroutine where
  now : Nat
  record : PaymentRecord
  stage : Stage
deriving DecidableEq, Repr

/-- Two goroutines that call `Track` on the same tracker. `mu` is the mutex
`bt.mu`: the goroutine that holds it (`false` the first, `true` the second), or
`none` when it is free. -/
structure World where
  bt : BudgetTracker
  mu : Option Bool
  first : Goroutine
  second : Goroutine
deriving DecidableEq, Repr

/-- The goroutine `g` of the world. -/
def World.goroutine (w : World) (g : Bool) : Goroutine :=
  if g then w.second else w.first

/-- The world with the goroutine `g` replaced. -/
def World.withGoroutine (w : World) (g : Bool) (me : Goroutine) : World :=
  if g then { w with second := me } else { w with first := me }

/-- One step of the goroutine `g`. `Lock` is taken only when the mutex is free,
and the goroutine stays where it is otherwise; a goroutine that has returned
stays where it is. -/
def World.step (w : World) (g : Bool) : World :=
  let me := w.goroutine g
  match me.stage with
  | .waiting =>
    match w.mu with
    | none => { w.withGoroutine g { me with stage := .locked } with mu := some g }
    | some _ => w
  | .locked =>
    { w.withGoroutine g { me with stage := .reset } with
      bt := w.bt.resetPeriodIfNeeded me.now }
  | .reset =>
    let result := w.bt.trackChecked me.record
    { w.withGoroutine g { me with stage := .returned result.1 } with
      bt := result.2, mu := none }
  | .returned _ => w

/-- The world before the two calls. -/
def World.init (bt : BudgetTracker) (nowA : Nat) (a : PaymentRecord) (nowB : Nat)
    (b : PaymentRecord) : World :=
  { bt := bt
    mu := none
    first := { now := nowA, record := a, stage := .waiting }
    second := { now := nowB, record := b, stage := .waiting } }

/-- The world after a schedule: the goroutines step in the order given. -/
def World.run (w : World) (schedule : List Bool) : World :=
  schedule.foldl World.step w

/-- The worlds in which the first goroutine runs its call before the second
one: the worlds of the schedule in which the first steps three times and the
second then steps three times. -/
def firstThenSecond (bt : BudgetTracker) (nowA : Nat) (a : PaymentRecord) (nowB : Nat)
    (b : PaymentRecord) : List World :=
  let resetA := bt.resetPeriodIfNeeded nowA
  let doneA := resetA.trackChecked a
  let resetB := doneA.2.resetPeriodIfNeeded nowB
  let doneB := resetB.trackChecked b
  [ { bt := bt, mu := some false, first := ⟨nowA, a, .locked⟩, second := ⟨nowB, b, .waiting⟩ },
    { bt := resetA, mu := some false, first := ⟨nowA, a, .reset⟩, second := ⟨nowB, b, .waiting⟩ },
    { bt := doneA.2, mu := none, first := ⟨nowA, a, .returned doneA.1⟩,
      second := ⟨nowB, b, .waiting⟩ },
    { bt := doneA.2, mu := some true, first := ⟨nowA, a, .returned doneA.1⟩,
      second := ⟨nowB, b, .locked⟩ },
    { bt := resetB, mu := some true, first := ⟨nowA, a, .returned doneA.1⟩,
      second := ⟨nowB, b, .reset⟩ },
    { bt := doneB.2, mu := none, first := ⟨nowA, a, .returned doneA.1⟩,
      second := ⟨nowB, b, .returned doneB.1⟩ } ]

/-- The worlds in which the second goroutine runs its call before the first
one. -/
def secondThenFirst (bt : BudgetTracker) (nowA : Nat) (a : PaymentRecord) (nowB : Nat)
    (b : PaymentRecord) : List World :=
  let resetB := bt.resetPeriodIfNeeded nowB
  let doneB := resetB.trackChecked b
  let resetA := doneB.2.resetPeriodIfNeeded nowA
  let doneA := resetA.trackChecked a
  [ { bt := bt, mu := some true, first := ⟨nowA, a, .waiting⟩, second := ⟨nowB, b, .locked⟩ },
    { bt := resetB, mu := some true, first := ⟨nowA, a, .waiting⟩, second := ⟨nowB, b, .reset⟩ },
    { bt := doneB.2, mu := none, first := ⟨nowA, a, .waiting⟩,
      second := ⟨nowB, b, .returned doneB.1⟩ },
    { bt := doneB.2, mu := some false, first := ⟨nowA, a, .locked⟩,
      second := ⟨nowB, b, .returned doneB.1⟩ },
    { bt := resetA, mu := some false, first := ⟨nowA, a, .reset⟩,
      second := ⟨nowB, b, .returned doneB.1⟩ },
    { bt := doneA.2, mu := none, first := ⟨nowA, a, .returned doneA.1⟩,
      second := ⟨nowB, b, .returned doneB.1⟩ } ]

/-- A tracker with a period ceiling of 100, made at time 0 with a period of 10
seconds. -/
def hundredBudget : BudgetTracker :=
  NewBudgetTracker
    { MaxPerRequest := none, MaxPerPeriod := some 100, AllowedPayees := none,
      AllowedDomains := none } 10 0

/-- The schedule in which the first goroutine runs its call, then the second. -/
def firstFirst : List Bool := [false, false, false, true, true, true]

/-- A schedule in which the second goroutine takes the mutex while the first
one waits for it. -/
def secondFirst : List Bool := [true, false, true, false, true, false, false, false]

/-! ## Lemmas on the tracker -/

theorem resetPeriodIfNeeded_policy (bt : BudgetTracker) (now : Nat) :
    (bt.resetPeriodIfNeeded now).policy = bt.policy := by
  unfold BudgetTracker.resetPeriodIfNeeded
  split <;> rfl

theorem resetPeriodIfNeeded_frame (bt : BudgetTracker) (now : Nat) :
    (bt.resetPeriodIfNeeded now).state.TotalSpent = bt.state.TotalSpent ∧
    (bt.resetPeriodIfNeeded now).state.Records = bt.state.Records ∧
    (bt.resetPeriodIfNeeded now).state.PeriodDuration = bt.state.PeriodDuration := by
  unfold BudgetTracker.resetPeriodIfNeeded
  split <;> exact ⟨rfl, rfl, rfl⟩

theorem resetPeriodIfNeeded_of_elapsed (bt : BudgetTracker) (now : Nat)
    (h : bt.periodElapsed now = true) :
    (bt.resetPeriodIfNeeded now).state.PeriodSpent = 0 ∧
    (bt.resetPeriodIfNeeded now).state.PeriodStart = now := by
  unfold BudgetTracker.resetPeriodIfNeeded
  rw [if_pos h]
  exact ⟨rfl, rfl⟩

theorem resetPeriodIfNeeded_of_not_elapsed (bt : BudgetTracker) (now : Nat)
    (h : bt.periodElapsed now = false) :
    bt.resetPeriodIfNeeded now = bt := by
  unfold BudgetTracker.resetPeriodIfNeeded
  simp [h]

theorem resetPeriodIfNeeded_idem (bt : BudgetTracker) (now : Nat) :
    (bt.resetPeriodIfNeeded now).resetPeriodIfNeeded now = bt.resetPeriodIfNeeded now := by
  by_cases h : bt.periodElapsed now = true
  · obtain ⟨h1, h2⟩ := resetPeriodIfNeeded_of_elapsed bt now h
    generalize bt.resetPeriodIfNeeded now = r at h1 h2
    unfold BudgetTracker.resetPeriodIfNeeded
    split
    · obtain ⟨⟨a, b, c, d, e⟩, p⟩ := r
      simp only at h1 h2
      subst h1 h2
      rfl
    · rfl
  · have e := resetPeriodIfNeeded_of_not_elapsed bt now (by simpa using h)
    rw [e, e]

theorem check_state (bt : BudgetTracker) (now : Nat) (amount : Int) (payTo : Address) :
    (bt.Check now amount payTo).2 = bt.resetPeriodIfNeeded now := by
  unfold BudgetTracker.Check
  simp only
  split_ifs <;> rfl

theorem remaining_state (bt : BudgetTracker) (now : Nat) :
    (bt.Remaining now).2 = bt.resetPeriodIfNeeded now := by
  unfold BudgetTracker.Remaining
  simp only
  split
  · rfl
  · split_ifs <;> rfl

theorem isExhausted_state (bt : BudgetTracker) (now : Nat) :
    (bt.IsExhausted now).2 = bt.resetPeriodIfNeeded now := by
  unfold BudgetTracker.IsExhausted
  simp only
  split <;> rfl

theorem track_error_eq_check (bt : BudgetTracker) (now : Nat) (record : PaymentRecord) :
    (bt.Track now record).1 = (bt.Check now record.Amount record.PayTo).1 := by
  unfold BudgetTracker.Track BudgetTracker.Check
  simp only
  split_ifs <;> rfl

theorem exceeds_iff (x : Int) (limit : Option Int) :
    exceeds x limit = true ↔ ∃ m, limit = some m ∧ x > m := by
  cases limit <;> simp [exceeds]

theorem payee_gate_iff (m : BoolMap Address) (payTo : Address) :
    (m.notNil && decide (m.len > 0) && !m.get payTo) = true ↔
      (m.len > 0 ∧ m.get payTo ≠ true) := by
  cases m <;> simp [BoolMap.notNil, BoolMap.len]

theorem check_error_cases (bt : BudgetTracker) (now : Nat) (amount : Int) (payTo : Address) :
    (bt.Check now amount payTo).1 =
      if (bt.policy.AllowedPayees.len > 0 ∧ bt.policy.AllowedPayees.get payTo ≠ true) then
        some "payee not in allowlist"
      else if (∃ m, bt.policy.MaxPerRequest = some m ∧ amount > m) then
        some "amount exceeds per-request limit"
      else if (∃ c, bt.policy.MaxPerPeriod = some c ∧
          (bt.resetPeriodIfNeeded now).state.PeriodSpent + amount > c) then
        some "amount exceeds period budget"
      else none := by
  have hp := resetPeriodIfNeeded_policy bt now
  unfold BudgetTracker.Check
  simp only [hp]
  by_cases h1 : (bt.policy.AllowedPayees.len > 0 ∧ bt.policy.AllowedPayees.get payTo ≠ true)
  · rw [if_pos ((payee_gate_iff _ _).2 h1), if_pos h1]
  · rw [if_neg (fun h => h1 ((payee_gate_iff _ _).1 h)), if_neg h1]
    by_cases h2 : ∃ m, bt.policy.MaxPerRequest = some m ∧ amount > m
    · rw [if_pos ((exceeds_iff _ _).2 h2), if_pos h2]
    · rw [if_neg (fun h => h2 ((exceeds_iff _ _).1 h)), if_neg h2]
      by_cases h3 : ∃ c, bt.policy.MaxPerPeriod = some c ∧
          (bt.resetPeriodIfNeeded now).state.PeriodSpent + amount > c
      · rw [if_pos ((exceeds_iff _ _).2 h3), if_pos h3]
      · rw [if_neg (fun h => h3 ((exceeds_iff _ _).1 h)), if_neg h3]

theorem track_policy (bt : BudgetTracker) (now : Nat) (record : PaymentRecord) :
    (bt.Track now record).2.policy = bt.policy := by
  have hp := resetPeriodIfNeeded_policy bt now
  unfold BudgetTracker.Track
  simp only
  split_ifs <;> simp [hp]

theorem track_state_of_error (bt : BudgetTracker) (now : Nat) (record : PaymentRecord)
    (h : (bt.Track now record).1 ≠ none) :
    (bt.Track now record).2 = bt.resetPeriodIfNeeded now := by
  revert h
  unfold BudgetTracker.Track
  simp only
  split_ifs <;> simp

theorem track_periodStart (bt : BudgetTracker) (now : Nat) (record : PaymentRecord) :
    (bt.Track now record).2.state.PeriodStart = (bt.resetPeriodIfNeeded now).state.PeriodStart := by
  unfold BudgetTracker.Track
  simp only
  split_ifs <;> rfl

theorem resetPeriodIfNeeded_periodSpent_le (bt : BudgetTracker) (now : Nat) (c : Int)
    (hc : 0 ≤ c) (h : bt.state.PeriodSpent ≤ c) :
    (bt.resetPeriodIfNeeded now).state.PeriodSpent ≤ c := by
  unfold BudgetTracker.resetPeriodIfNeeded
  split
  · exact hc
  · exact h

theorem track_periodSpent_le (bt : BudgetTracker) (now : Nat) (record : PaymentRecord)
    (c : Int) (hm : bt.policy.MaxPerPeriod = some c) (hc : 0 ≤ c)
    (h : bt.state.PeriodSpent ≤ c) :
    (bt.Track now record).2.state.PeriodSpent ≤ c := by
  have hp := resetPeriodIfNeeded_policy bt now
  have hr := resetPeriodIfNeeded_periodSpent_le bt now c hc h
  unfold BudgetTracker.Track
  simp only [hp, hm]
  split_ifs with h1 h2 h3
  · exact hr
  · exact hr
  · exact hr
  · simp only [exceeds, decide_eq_true_eq] at h3
    simpa using h3

theorem trackAll_policy (calls : List (Nat × PaymentRecord)) (bt : BudgetTracker) :
    (bt.trackAll calls).policy = bt.policy := by
  induction calls generalizing bt with
  | nil => rfl
  | cons call rest ih =>
    obtain ⟨now, record⟩ := call
    simp only [BudgetTracker.trackAll]
    rw [ih, track_policy]

theorem trackAll_periodSpent_le (calls : List (Nat × PaymentRecord)) (bt : BudgetTracker)
    (c : Int) (hm : bt.policy.MaxPerPeriod = some c) (hc : 0 ≤ c)
    (h : bt.state.PeriodSpent ≤ c) :
    (bt.trackAll calls).state.PeriodSpent ≤ c := by
  induction calls generalizing bt with
  | nil => exact h
  | cons call rest ih =>
    obtain ⟨now, record⟩ := call
    simp only [BudgetTracker.trackAll]
    apply ih
    · rw [track_policy]
      exact hm
    · exact track_periodSpent_le bt now record c hm hc h

theorem isExhausted_value (bt : BudgetTracker) (now : Nat) :
    (bt.IsExhausted now).1 = true ↔
      ∃ c, bt.policy.MaxPerPeriod = some c ∧ (bt.resetPeriodIfNeeded now).state.PeriodSpent ≥ c := by
  have hp := resetPeriodIfNeeded_policy bt now
  unfold BudgetTracker.IsExhausted
  simp only [hp]
  cases hm : bt.policy.MaxPerPeriod <;> simp

theorem track_state_of_success (bt : BudgetTracker) (now : Nat) (record : PaymentRecord)
    (h : (bt.Track now record).1 = none) :
    (bt.Track now record).2.state.TotalSpent = bt.state.TotalSpent + record.Amount ∧
    (bt.Track now record).2.state.Records = bt.state.Records ++ [record] := by
  obtain ⟨hT, hR, -⟩ := resetPeriodIfNeeded_frame bt now
  revert h
  unfold BudgetTracker.Track
  simp only
  split_ifs <;> simp [hT, hR]

/-! ## Lemmas on the transport -/

theorem check_frame (b : BudgetTracker) (now : Nat) (amount : Int) (payTo : Address) :
    (b.Check now amount payTo).2.state.TotalSpent = b.state.TotalSpent ∧
    (b.Check now amount payTo).2.state.Records = b.state.Records := by
  rw [check_state]
  exact ⟨(resetPeriodIfNeeded_frame b now).1, (resetPeriodIfNeeded_frame b now).2.1⟩

/-- The ways through `RoundTrip` once the first dispatch has returned a
response: it returns that response with the budget as it was, or with the budget
as a failed `Budget.Check` left it, or every gate has passed and it goes on to
build the payment. -/
theorem roundTrip_cases (t : X402Transport) (lib : Lib) (clock : Clock) (req : Request)
    (resp : Response) (hfirst : t.Base 0 req = .ok resp) :
    t.RoundTrip lib clock req = passThrough req resp t.Budget ∨
    (∃ b amount payTo, t.Budget = some b ∧
      t.RoundTrip lib clock req =
        passThrough req resp (some (b.Check clock.check amount payTo).2)) ∨
    (∃ body requirements payReq amount,
      resp.StatusCode = 402 ∧ t.Config.AutoPay = true ∧ resp.Body = some body ∧
      ParsePaymentRequirements lib body = .ok requirements ∧ requirements ≠ [] ∧
      t.selectRequirement requirements = some payReq ∧
      SetString payReq.MaxAmountRequired = some amount ∧
      t.policyDeclines req payReq amount = false ∧
      ((t.Budget = none ∧
          t.RoundTrip lib clock req =
            t.payAndRetry lib clock req payReq amount none (passThrough req resp none)) ∨
        ∃ b, t.Budget = some b ∧ (b.Check clock.check amount payReq.PayTo).1 = none ∧
          t.RoundTrip lib clock req =
            t.payAndRetry lib clock req payReq amount
              (some (b.Check clock.check amount payReq.PayTo).2)
              (passThrough req resp (some (b.Check clock.check amount payReq.PayTo).2)))) := by
  unfold X402Transport.RoundTrip
  rw [hfirst]
  simp only
  by_cases h1 : resp.StatusCode ≠ 402
  · rw [if_pos h1]; exact Or.inl rfl
  rw [if_neg h1]
  by_cases h2 : (!t.Config.AutoPay) = true
  · rw [if_pos h2]; exact Or.inl rfl
  rw [if_neg h2]
  cases h3 : resp.Body with
  | none => exact Or.inl rfl
  | some body =>
    simp only
    cases h4 : ParsePaymentRequirements lib body with
    | error e => exact Or.inl rfl
    | ok requirements =>
      simp only
      by_cases h5 : requirements.length = 0
      · rw [if_pos h5]; exact Or.inl rfl
      rw [if_neg h5]
      cases h6 : t.selectRequirement requirements with
      | none => exact Or.inl rfl
      | some payReq =>
        simp only
        cases h7 : SetString payReq.MaxAmountRequired with
        | none => exact Or.inl rfl
        | some amount =>
          simp only
          by_cases h8 : t.policyDeclines req payReq amount = true
          · rw [if_pos h8]; exact Or.inl rfl
          rw [if_neg h8]
          have gates : resp.StatusCode = 402 ∧ t.Config.AutoPay = true ∧
              requirements ≠ [] ∧ t.policyDeclines req payReq amount = false := by
            refine ⟨by simpa using h1, by simpa using h2, ?_, by simpa using h8⟩
            intro h
            exact h5 (by simp [h])
          cases h9 : t.Budget with
          | none =>
            exact Or.inr (Or.inr ⟨body, requirements, payReq, amount, gates.1, gates.2.1, rfl,
              h4, gates.2.2.1, h6, h7, gates.2.2.2, Or.inl ⟨rfl, rfl⟩⟩)
          | some b =>
            simp only
            by_cases h10 : (b.Check clock.check amount payReq.PayTo).1 ≠ none
            · rw [if_pos h10]
              exact Or.inr (Or.inl ⟨b, amount, payReq.PayTo, rfl, rfl⟩)
            · rw [if_neg h10]
              exact Or.inr (Or.inr ⟨body, requirements, payReq, amount, gates.1, gates.2.1, rfl,
                h4, gates.2.2.1, h6, h7, gates.2.2.2,
                Or.inr ⟨b, rfl, by simpa using h10, rfl⟩⟩)

theorem check_none_iff (bt : BudgetTracker) (now : Nat) (amount : Int) (payTo : Address) :
    (bt.Check now amount payTo).1 = none ↔
      (¬ (bt.policy.AllowedPayees.len > 0 ∧ bt.policy.AllowedPayees.get payTo ≠ true) ∧
        (¬ ∃ m, bt.policy.MaxPerRequest = some m ∧ amount > m) ∧
        ¬ ∃ c, bt.policy.MaxPerPeriod = some c ∧
          (bt.resetPeriodIfNeeded now).state.PeriodSpent + amount > c) := by
  rw [check_error_cases]
  split_ifs <;> simp_all

theorem resetPeriodIfNeeded_periodSpent (bt : BudgetTracker) (now : Nat) :
    (bt.resetPeriodIfNeeded now).state.PeriodSpent = bt.state.PeriodSpent ∨
    (bt.resetPeriodIfNeeded now).state.PeriodSpent = 0 := by
  unfold BudgetTracker.resetPeriodIfNeeded
  split
  · exact Or.inr rfl
  · exact Or.inl rfl

/-- A record that `Check` has accepted is accepted by a later `Track` on the
tracker `Check` left, when the PeriodSpent before `Check` was not negative. -/
theorem track_after_check (b : BudgetTracker) (checkTime trackTime : Nat)
    (record : PaymentRecord) (hcheck : (b.Check checkTime record.Amount record.PayTo).1 = none)
    (hspent : 0 ≤ b.state.PeriodSpent) :
    ((b.Check checkTime record.Amount record.PayTo).2.Track trackTime record).1 = none := by
  rw [track_error_eq_check, check_state, check_none_iff]
  rw [check_none_iff] at hcheck
  obtain ⟨h1, h2, h3⟩ := hcheck
  rw [resetPeriodIfNeeded_policy]
  refine ⟨h1, h2, ?_⟩
  rintro ⟨c, hc, hgt⟩
  apply h3
  refine ⟨c, hc, ?_⟩
  rcases resetPeriodIfNeeded_periodSpent (b.resetPeriodIfNeeded checkTime) trackTime with h | h
  · rw [h] at hgt
    exact hgt
  · rw [h] at hgt
    rcases resetPeriodIfNeeded_periodSpent b checkTime with h0 | h0
    · rw [h0]
      omega
    · rw [h0]
      exact hgt

/-- A record that `Check` has accepted is accepted by a later `Track` on the
tracker `Check` left, when the period does not elapse in between. -/
theorem track_after_check_same_period (b : BudgetTracker) (checkTime trackTime : Nat)
    (record : PaymentRecord) (hcheck : (b.Check checkTime record.Amount record.PayTo).1 = none)
    (hsame : (b.Check checkTime record.Amount record.PayTo).2.periodElapsed trackTime = false) :
    ((b.Check checkTime record.Amount record.PayTo).2.Track trackTime record).1 = none := by
  rw [check_state] at hsame
  rw [track_error_eq_check, check_state, check_none_iff,
    resetPeriodIfNeeded_of_not_elapsed _ trackTime hsame]
  rw [check_none_iff] at hcheck
  rw [resetPeriodIfNeeded_policy]
  exact hcheck

/-- When every gate of `RoundTrip` has passed, what it returns is what its last
part returns, on the budget `Budget.Check` left. -/
theorem roundTrip_of_gates (t : X402Transport) (lib : Lib) (clock : Clock) (req : Request)
    (resp : Response) (body : String) (requirements : List PaymentRequirement)
    (payReq : PaymentRequirement) (amount : Int)
    (hfirst : t.Base 0 req = .ok resp) (h402 : resp.StatusCode = 402)
    (hauto : t.Config.AutoPay = true) (hbody : resp.Body = some body)
    (hparse : ParsePaymentRequirements lib body = .ok requirements)
    (hne : requirements ≠ []) (hsel : t.selectRequirement requirements = some payReq)
    (hamount : SetString payReq.MaxAmountRequired = some amount)
    (hpolicy : t.policyDeclines req payReq amount = false)
    (hcheck : ∀ b, t.Budget = some b → (b.Check clock.check amount payReq.PayTo).1 = none) :
    t.RoundTrip lib clock req =
      t.payAndRetry lib clock req payReq amount
        (t.Budget.map (fun b => (b.Check clock.check amount payReq.PayTo).2))
        (passThrough req resp
          (t.Budget.map (fun b => (b.Check clock.check amount payReq.PayTo).2))) := by
  have hlen : ¬ requirements.length = 0 := by
    intro h
    exact hne (List.length_eq_zero.1 h)
  unfold X402Transport.RoundTrip
  rw [hfirst]
  simp only [h402, hauto, hbody, hparse, hsel, hamount, hpolicy, hlen]
  cases hb : t.Budget with
  | none => simp
  | some b =>
    have := hcheck b hb
    simp [this]

/-! ## The tracker: postconditions -/

/-- C1. Postcondition of `Track`: when it returns nil, TotalSpent has grown by
exactly the record's amount, PeriodSpent is the PeriodSpent left by the lazy
period reset plus the amount, and Records is the old Records with the record
appended last; when it returns an error, TotalSpent and Records are what they
were before the call. -/
theorem track_postcondition (bt : BudgetTracker) (now : Nat) (record : PaymentRecord) :
    ((bt.Track now record).1 = none →
      (bt.Track now record).2.state.TotalSpent = bt.state.TotalSpent + record.Amount ∧
      (bt.Track now record).2.state.PeriodSpent =
        (bt.resetPeriodIfNeeded now).state.PeriodSpent + record.Amount ∧
      (bt.Track now record).2.state.Records = bt.state.Records ++ [record]) ∧
    ((bt.Track now record).1 ≠ none →
      (bt.Track now record).2.state.TotalSpent = bt.state.TotalSpent ∧
      (bt.Track now record).2.state.Records = bt.state.Records) := by
  obtain ⟨hT, hR, -⟩ := resetPeriodIfNeeded_frame bt now
  unfold BudgetTracker.Track
  simp only
  split_ifs <;> simp [hT, hR]

/-- A witness of C1 on the tracker of the test `cumulative tracking`: a payment
of 50 is accepted, a payment of 101 is refused. -/
theorem track_postcondition_witness :
    ((cumulativeTracker.Track 1001 (payment 50)).2.state.TotalSpent =
        cumulativeTracker.state.TotalSpent + (payment 50).Amount ∧
      (cumulativeTracker.Track 1001 (payment 50)).2.state.PeriodSpent =
        (cumulativeTracker.resetPeriodIfNeeded 1001).state.PeriodSpent + (payment 50).Amount ∧
      (cumulativeTracker.Track 1001 (payment 50)).2.state.Records =
        cumulativeTracker.state.Records ++ [payment 50]) ∧
    ((cumulativeTracker.Track 1001 (payment 101)).2.state.TotalSpent =
        cumulativeTracker.state.TotalSpent ∧
      (cumulativeTracker.Track 1001 (payment 101)).2.state.Records =
        cumulativeTracker.state.Records) :=
  ⟨(track_postcondition cumulativeTracker 1001 (payment 50)).1 (by decide),
    (track_postcondition cumulativeTracker 1001 (payment 101)).2 (by decide)⟩

/-- C3. `Track` runs the checks of `Check`: on the same tracker at the same
time, `Track(record)` and `Check(record.Amount, record.PayTo)` return the same
error or both return nil. -/
theorem track_runs_the_checks_of_check (bt : BudgetTracker) (now : Nat)
    (record : PaymentRecord) :
    (bt.Track now record).1 = (bt.Check now record.Amount record.PayTo).1 ∧
    ((bt.Track now record).1 ≠ none ↔ (bt.Check now record.Amount record.PayTo).1 ≠ none) := by
  have h := track_error_eq_check bt now record
  exact ⟨h, by rw [h]⟩

/-- C5, as the claim states it, fails: a `Check` made once the period has
elapsed leaves a BudgetState that differs from the one before the call. -/
theorem check_mutates_elapsed_period :
    (elapsedTracker.Check 10 1 187).2.state ≠ elapsedTracker.state ∧
    (elapsedTracker.Check 10 1 187).1 = none ∧
    elapsedTracker.state.PeriodSpent = 5 ∧
    (elapsedTracker.Check 10 1 187).2.state.PeriodSpent = 0 ∧
    elapsedTracker.state.PeriodStart = 0 ∧
    (elapsedTracker.Check 10 1 187).2.state.PeriodStart = 10 := by
  decide

/-- C5, amended. `Check` changes nothing but what the lazy period reset
changes: the tracker after `Check` is the tracker after `resetPeriodIfNeeded`,
whether `Check` succeeds or fails; TotalSpent, PeriodDuration, Records and the
policy are never changed; and when the period has not elapsed the whole
BudgetState is the one before the call. -/
theorem check_changes_only_the_period (bt : BudgetTracker) (now : Nat) (amount : Int)
    (payTo : Address) :
    (bt.Check now amount payTo).2 = bt.resetPeriodIfNeeded now ∧
    (bt.Check now amount payTo).2.state.TotalSpent = bt.state.TotalSpent ∧
    (bt.Check now amount payTo).2.state.PeriodDuration = bt.state.PeriodDuration ∧
    (bt.Check now amount payTo).2.state.Records = bt.state.Records ∧
    (bt.Check now amount payTo).2.policy = bt.policy ∧
    (¬ (bt.state.PeriodDuration > 0 ∧
          now ≥ (bt.state.PeriodStart + bt.state.PeriodDuration) % 2 ^ 64) →
      (bt.Check now amount payTo).2.state = bt.state) ∧
    ((bt.state.PeriodDuration > 0 ∧
          now ≥ (bt.state.PeriodStart + bt.state.PeriodDuration) % 2 ^ 64) →
      (bt.Check now amount payTo).2.state.PeriodSpent = 0 ∧
      (bt.Check now amount payTo).2.state.PeriodStart = now) := by
  obtain ⟨hT, hR, hD⟩ := resetPeriodIfNeeded_frame bt now
  rw [check_state]
  refine ⟨rfl, hT, hD, hR, resetPeriodIfNeeded_policy bt now, ?_, ?_⟩
  · intro h
    rw [resetPeriodIfNeeded_of_not_elapsed]
    simpa [BudgetTracker.periodElapsed, uint64Size] using h
  · intro h
    apply resetPeriodIfNeeded_of_elapsed
    simpa [BudgetTracker.periodElapsed, uint64Size] using h

/-- A witness of the amended C5: on a fresh tracker inside its period the state
is untouched, on a tracker whose period has elapsed the period is renewed. -/
theorem check_changes_only_the_period_witness :
    (cumulativeTracker.Check 1001 50 187).2.state = cumulativeTracker.state ∧
    ((elapsedTracker.Check 10 1 187).2.state.PeriodSpent = 0 ∧
      (elapsedTracker.Check 10 1 187).2.state.PeriodStart = 10) :=
  ⟨(check_changes_only_the_period cumulativeTracker 1001 50 187).2.2.2.2.2.1 (by decide),
    (check_changes_only_the_period elapsedTracker 10 1 187).2.2.2.2.2.2 (by decide)⟩

/-! ## The tracker: decisions -/

/-- C2. Decision and order of `Check`, on the state left by the lazy period
reset: the error is 'payee not in allowlist' iff AllowedPayees is non-empty and
does not map the payee to true; otherwise 'amount exceeds per-request limit'
iff MaxPerRequest is set and the amount is above it; otherwise 'amount exceeds
period budget' iff MaxPerPeriod is set and PeriodSpent + amount is above it;
otherwise nil. A nil or empty AllowedPayees refuses no payee, and an amount
equal to a ceiling is not refused by that ceiling. -/
theorem check_decision (bt : BudgetTracker) (now : Nat) (amount : Int) (payTo : Address) :
    ((bt.Check now amount payTo).1 = some "payee not in allowlist" ↔
      (bt.policy.AllowedPayees.len > 0 ∧ bt.policy.AllowedPayees.get payTo ≠ true)) ∧
    ((bt.Check now amount payTo).1 = some "amount exceeds per-request limit" ↔
      (¬ (bt.policy.AllowedPayees.len > 0 ∧ bt.policy.AllowedPayees.get payTo ≠ true) ∧
        ∃ m, bt.policy.MaxPerRequest = some m ∧ amount > m)) ∧
    ((bt.Check now amount payTo).1 = some "amount exceeds period budget" ↔
      (¬ (bt.policy.AllowedPayees.len > 0 ∧ bt.policy.AllowedPayees.get payTo ≠ true) ∧
        (¬ ∃ m, bt.policy.MaxPerRequest = some m ∧ amount > m) ∧
        ∃ c, bt.policy.MaxPerPeriod = some c ∧
          (bt.resetPeriodIfNeeded now).state.PeriodSpent + amount > c)) ∧
    ((bt.Check now amount payTo).1 = none ↔
      (¬ (bt.policy.AllowedPayees.len > 0 ∧ bt.policy.AllowedPayees.get payTo ≠ true) ∧
        (¬ ∃ m, bt.policy.MaxPerRequest = some m ∧ amount > m) ∧
        ¬ ∃ c, bt.policy.MaxPerPeriod = some c ∧
          (bt.resetPeriodIfNeeded now).state.PeriodSpent + amount > c)) ∧
    ((bt.policy.AllowedPayees = none ∨ bt.policy.AllowedPayees = some []) →
      (bt.Check now amount payTo).1 ≠ some "payee not in allowlist") ∧
    (bt.policy.MaxPerRequest = some amount →
      (bt.Check now amount payTo).1 ≠ some "amount exceeds per-request limit") ∧
    (bt.policy.MaxPerPeriod = some ((bt.resetPeriodIfNeeded now).state.PeriodSpent + amount) →
      (bt.Check now amount payTo).1 ≠ some "amount exceeds period budget") := by
  rw [check_error_cases]
  refine ⟨?_, ?_, ?_, ?_, ?_, ?_, ?_⟩
  · split_ifs <;> simp_all
  · split_ifs <;> simp_all
  · split_ifs <;> simp_all
  · split_ifs <;> simp_all
  · intro h
    have : ¬ (bt.policy.AllowedPayees.len > 0 ∧ bt.policy.AllowedPayees.get payTo ≠ true) := by
      rcases h with h | h <;> simp [h, BoolMap.len]
    rw [if_neg this]
    split_ifs <;> simp
  · intro h
    have : ¬ ∃ m, bt.policy.MaxPerRequest = some m ∧ amount > m := by
      simp [h]
    split_ifs <;> simp
  · intro h
    have : ¬ ∃ c, bt.policy.MaxPerPeriod = some c ∧
        (bt.resetPeriodIfNeeded now).state.PeriodSpent + amount > c := by
      simp [h]
    split_ifs <;> simp

/-- A witness of C2 on the tracker of the test `cumulative tracking`, which has
no allowlist and ceilings 100 and 200: amounts 100 and 200 meet a ceiling
exactly. -/
theorem check_decision_witness :
    (cumulativeTracker.Check 1001 100 187).1 ≠ some "payee not in allowlist" ∧
    (cumulativeTracker.Check 1001 100 187).1 ≠ some "amount exceeds per-request limit" ∧
    (cumulativeTracker.Check 1001 200 187).1 ≠ some "amount exceeds period budget" :=
  ⟨(check_decision cumulativeTracker 1001 100 187).2.2.2.2.1 (Or.inl rfl),
    (check_decision cumulativeTracker 1001 100 187).2.2.2.2.2.1 rfl,
    (check_decision cumulativeTracker 1001 200 187).2.2.2.2.2.2 (by decide)⟩

/-- C7. `Remaining` returns max(0, MaxPerPeriod - PeriodSpent), with the
PeriodSpent left by the lazy period reset, when MaxPerPeriod is configured: so
0, not a negative number, when PeriodSpent is above MaxPerPeriod; and it
returns -1 when MaxPerPeriod is not configured. -/
theorem remaining_value (bt : BudgetTracker) (now : Nat) :
    (∀ c, bt.policy.MaxPerPeriod = some c →
      (bt.Remaining now).1 = max 0 (c - (bt.resetPeriodIfNeeded now).state.PeriodSpent) ∧
      0 ≤ (bt.Remaining now).1 ∧
      ((bt.resetPeriodIfNeeded now).state.PeriodSpent > c → (bt.Remaining now).1 = 0)) ∧
    (bt.policy.MaxPerPeriod = none → (bt.Remaining now).1 = -1) := by
  have hp := resetPeriodIfNeeded_policy bt now
  constructor
  · intro c hc
    have hv : (bt.Remaining now).1 =
        max 0 (c - (bt.resetPeriodIfNeeded now).state.PeriodSpent) := by
      unfold BudgetTracker.Remaining
      simp only [hp, hc]
      split_ifs with h
      · simp only
        omega
      · simp only
        omega
    refine ⟨hv, ?_, ?_⟩
    · rw [hv]
      exact le_max_left _ _
    · intro h
      rw [hv]
      omega
  · intro hn
    unfold BudgetTracker.Remaining
    simp only [hp, hn]

/-- A witness of C7 on the trackers of the tests `overspent returns zero` and
`no period limit`. -/
theorem remaining_value_witness :
    (overspentTracker.Remaining 1001).1 = 0 ∧ (unlimitedTracker.Remaining 1001).1 = -1 :=
  ⟨((remaining_value overspentTracker 1001).1 100 rfl).2.2 (by decide),
    (remaining_value unlimitedTracker 1001).2 rfl⟩

/-! ## The tracker: the period -/

/-- C6. Renew-on-touch reset. `Track`, `Check`, `Remaining` and `IsExhausted`
begin with the period reset: what they return and leave is what they return and
leave on the tracker the reset produces, and that tracker is the state after
`Check`, `Remaining`, `IsExhausted` and a refused `Track`. The reset compares
now with PeriodStart + PeriodDuration, a sum of two uint64: if PeriodDuration >
0 and now >= that sum, PeriodSpent becomes 0 and PeriodStart becomes now;
otherwise both stay as they were. TotalSpent and Records are never changed by
the reset, and with PeriodDuration = 0 nothing is. -/
theorem renew_on_touch (bt : BudgetTracker) (now : Nat) :
    (∀ record, bt.Track now record = (bt.resetPeriodIfNeeded now).Track now record ∧
      (bt.Track now record).2.state.PeriodStart =
        (bt.resetPeriodIfNeeded now).state.PeriodStart ∧
      ((bt.Track now record).1 ≠ none → (bt.Track now record).2 = bt.resetPeriodIfNeeded now)) ∧
    (∀ amount payTo,
      bt.Check now amount payTo = (bt.resetPeriodIfNeeded now).Check now amount payTo ∧
      (bt.Check now amount payTo).2 = bt.resetPeriodIfNeeded now) ∧
    (bt.Remaining now = (bt.resetPeriodIfNeeded now).Remaining now ∧
      (bt.Remaining now).2 = bt.resetPeriodIfNeeded now) ∧
    (bt.IsExhausted now = (bt.resetPeriodIfNeeded now).IsExhausted now ∧
      (bt.IsExhausted now).2 = bt.resetPeriodIfNeeded now) ∧
    ((bt.state.PeriodDuration > 0 ∧
        now ≥ (bt.state.PeriodStart + bt.state.PeriodDuration) % 2 ^ 64) →
      (bt.resetPeriodIfNeeded now).state.PeriodSpent = 0 ∧
      (bt.resetPeriodIfNeeded now).state.PeriodStart = now) ∧
    (¬ (bt.state.PeriodDuration > 0 ∧
        now ≥ (bt.state.PeriodStart + bt.state.PeriodDuration) % 2 ^ 64) →
      (bt.resetPeriodIfNeeded now).state.PeriodSpent = bt.state.PeriodSpent ∧
      (bt.resetPeriodIfNeeded now).state.PeriodStart = bt.state.PeriodStart) ∧
    (bt.resetPeriodIfNeeded now).state.TotalSpent = bt.state.TotalSpent ∧
    (bt.resetPeriodIfNeeded now).state.Records = bt.state.Records ∧
    (bt.state.PeriodDuration = 0 → bt.resetPeriodIfNeeded now = bt) := by
  obtain ⟨hT, hR, -⟩ := resetPeriodIfNeeded_frame bt now
  have hi := resetPeriodIfNeeded_idem bt now
  refine ⟨?_, ?_, ?_, ?_, ?_, ?_, hT, hR, ?_⟩
  · intro record
    refine ⟨?_, track_periodStart bt now record, track_state_of_error bt now record⟩
    unfold BudgetTracker.Track
    rw [hi]
  · intro amount payTo
    refine ⟨?_, check_state bt now amount payTo⟩
    unfold BudgetTracker.Check
    rw [hi]
  · refine ⟨?_, remaining_state bt now⟩
    unfold BudgetTracker.Remaining
    rw [hi]
  · refine ⟨?_, isExhausted_state bt now⟩
    unfold BudgetTracker.IsExhausted
    rw [hi]
  · intro h
    apply resetPeriodIfNeeded_of_elapsed
    simpa [BudgetTracker.periodElapsed, uint64Size] using h
  · intro h
    rw [resetPeriodIfNeeded_of_not_elapsed]
    · exact ⟨rfl, rfl⟩
    · simpa [BudgetTracker.periodElapsed, uint64Size] using h
  · intro h
    apply resetPeriodIfNeeded_of_not_elapsed
    simp [BudgetTracker.periodElapsed, h]

/-- A witness of C6: a period of 10 that started at 0 is renewed at time 10 and
left alone at time 9, and a tracker with PeriodDuration 0 is never renewed. -/
theorem renew_on_touch_witness :
    ((elapsedTracker.resetPeriodIfNeeded 10).state.PeriodSpent = 0 ∧
      (elapsedTracker.resetPeriodIfNeeded 10).state.PeriodStart = 10) ∧
    ((elapsedTracker.resetPeriodIfNeeded 9).state.PeriodSpent = elapsedTracker.state.PeriodSpent ∧
      (elapsedTracker.resetPeriodIfNeeded 9).state.PeriodStart =
        elapsedTracker.state.PeriodStart) ∧
    (undatedTracker.resetPeriodIfNeeded 5000 = undatedTracker) :=
  ⟨(renew_on_touch elapsedTracker 10).2.2.2.2.1 (by decide),
    (renew_on_touch elapsedTracker 9).2.2.2.2.2.1 (by decide),
    (renew_on_touch undatedTracker 5000).2.2.2.2.2.2.2.2 rfl⟩

/-- C4. The period ceiling is never exceeded and an exhausted budget refuses
everything. For a tracker made by `NewBudgetTracker` with MaxPerPeriod = c >= 0,
after any sequence of `Track` calls PeriodSpent <= c. `IsExhausted` is true iff
a ceiling is configured and the PeriodSpent it leaves is at or above it (when
the period has not elapsed, that is the PeriodSpent before the call). When
`IsExhausted` has returned true and the period has not elapsed since, `Check`
and `Track` return an error for every amount > 0 and every payee. With ceiling
200, four `Track` of 50 succeed and a fifth of 1 fails with 'amount exceeds
period budget'. -/
theorem period_ceiling_holds (bt : BudgetTracker) (now : Nat) :
    (∀ (policy : X402Policy) (periodDuration start : Nat) (c : Int)
        (calls : List (Nat × PaymentRecord)),
      policy.MaxPerPeriod = some c → 0 ≤ c →
      ((NewBudgetTracker policy periodDuration start).trackAll calls).state.PeriodSpent ≤ c) ∧
    ((bt.IsExhausted now).1 = true ↔
      ∃ c, bt.policy.MaxPerPeriod = some c ∧ (bt.IsExhausted now).2.state.PeriodSpent ≥ c) ∧
    (bt.periodElapsed now = false →
      ((bt.IsExhausted now).1 = true ↔
        ∃ c, bt.policy.MaxPerPeriod = some c ∧ bt.state.PeriodSpent ≥ c)) ∧
    ((bt.IsExhausted now).1 = true →
      ∀ (later : Nat), (bt.IsExhausted now).2.periodElapsed later = false →
      ∀ (amount : Int) (payTo : Address), amount > 0 →
        ((bt.IsExhausted now).2.Check later amount payTo).1 ≠ none ∧
        ∀ record : PaymentRecord, record.Amount = amount → record.PayTo = payTo →
          ((bt.IsExhausted now).2.Track later record).1 ≠ none) ∧
    ((cumulativeTracker.Track 1001 (payment 50)).1 = none ∧
      ((cumulativeTracker.trackAll [(1001, payment 50)]).Track 1002 (payment 50)).1 = none ∧
      ((cumulativeTracker.trackAll [(1001, payment 50), (1002, payment 50)]).Track 1003
        (payment 50)).1 = none ∧
      ((cumulativeTracker.trackAll
        [(1001, payment 50), (1002, payment 50), (1003, payment 50)]).Track 1004
        (payment 50)).1 = none ∧
      ((cumulativeTracker.trackAll
        [(1001, payment 50), (1002, payment 50), (1003, payment 50), (1004, payment 50)]).Track
        1005 (payment 1)).1 = some "amount exceeds period budget") := by
  refine ⟨?_, ?_, ?_, ?_, ?_⟩
  · intro policy periodDuration start c calls hm hc
    exact trackAll_periodSpent_le calls _ c hm hc hc
  · rw [isExhausted_state]
    exact isExhausted_value bt now
  · intro h
    rw [isExhausted_value, resetPeriodIfNeeded_of_not_elapsed bt now h]
  · intro hx later hl amount payTo hpos
    rw [isExhausted_value] at hx
    rw [isExhausted_state] at hl ⊢
    obtain ⟨c, hc, hge⟩ := hx
    have hc2 : (bt.resetPeriodIfNeeded now).policy.MaxPerPeriod = some c := by
      rw [resetPeriodIfNeeded_policy]
      exact hc
    have hcheck : ((bt.resetPeriodIfNeeded now).Check later amount payTo).1 ≠ none := by
      rw [check_error_cases, resetPeriodIfNeeded_of_not_elapsed _ later hl]
      have h3 : ∃ c, (bt.resetPeriodIfNeeded now).policy.MaxPerPeriod = some c ∧
          (bt.resetPeriodIfNeeded now).state.PeriodSpent + amount > c :=
        ⟨c, hc2, by omega⟩
      split_ifs <;> simp
    refine ⟨hcheck, ?_⟩
    intro record ha hp
    rw [track_error_eq_check, ha, hp]
    exact hcheck
  · decide

/-- A witness of C4: the test `cumulative tracking` keeps PeriodSpent at most
200, and the tracker of the test `exhausted`, which `IsExhausted` reports
exhausted, refuses a payment of 1. -/
theorem period_ceiling_holds_witness :
    ((NewBudgetTracker cumulativeTracker.policy 3600 1000).trackAll
        [(1001, payment 50), (1002, payment 50), (1003, payment 50), (1004, payment 50),
          (1005, payment 1)]).state.PeriodSpent ≤ 200 ∧
    ((exhaustedTracker.IsExhausted 1001).1 = true ↔
      ∃ c, exhaustedTracker.policy.MaxPerPeriod = some c ∧
        exhaustedTracker.state.PeriodSpent ≥ c) ∧
    (((exhaustedTracker.IsExhausted 1001).2.Check 1002 1 187).1 ≠ none ∧
      ∀ record : PaymentRecord, record.Amount = 1 → record.PayTo = 187 →
        ((exhaustedTracker.IsExhausted 1001).2.Track 1002 record).1 ≠ none) :=
  ⟨(period_ceiling_holds exhaustedTracker 1001).1 cumulativeTracker.policy 3600 1000 200
      [(1001, payment 50), (1002, payment 50), (1003, payment 50), (1004, payment 50),
        (1005, payment 1)] rfl (by decide),
    (period_ceiling_holds exhaustedTracker 1001).2.2.1 (by decide),
    (period_ceiling_holds exhaustedTracker 1001).2.2.2.1 (by decide) 1002 (by decide) 1 187
      (by decide)⟩

/-! ## The transport -/

theorem schemeSet_get (schemes : List String) (scheme : String) :
    BoolMap.get (some (schemes.map (fun s => (s, true)))) scheme = true ↔ scheme ∈ schemes := by
  induction schemes with
  | nil => simp [BoolMap.get, List.lookup]
  | cons s rest ih =>
    simp only [BoolMap.get, List.map_cons, List.lookup, List.mem_cons] at ih ⊢
    by_cases h : scheme = s
    · subst h
      simp
    · have hb : (scheme == s) = false := by simpa using h
      simp only [hb, h, false_or]
      exact ih

theorem selectRequirement_none (t : X402Transport) (requirements : List PaymentRequirement)
    (hfilter : t.Config.AllowedSchemes ≠ [])
    (hnone : ∀ r ∈ requirements, r.Scheme ∉ t.Config.AllowedSchemes) :
    t.selectRequirement requirements = none := by
  have hlen : ¬ t.Config.AllowedSchemes.length = 0 := by
    intro h
    exact hfilter (List.length_eq_zero.1 h)
  unfold X402Transport.selectRequirement
  rw [if_neg hlen]
  simp only [List.find?_eq_none]
  intro r hr hget
  exact hnone r hr ((schemeSet_get _ _).1 hget)

/-- C9. Declines are silent pass-throughs. When the first dispatch returns a
response, `RoundTrip` returns that response with a nil error, dispatches
nothing else and leaves the budget's TotalSpent and Records as they were,
whenever: the status is not 402; or AutoPay is false; or the body parses
neither as an array nor as a single requirement; or the requirement list is
empty; or AllowedSchemes is non-empty and holds no requirement's scheme; or the
selected requirement's maxAmountRequired is not a base-10 integer; or its
amount is above Policy.MaxPerRequest; or Policy.AllowedPayees is non-empty and
does not hold the payee; or Policy.AllowedDomains is non-empty and does not
hold the request host; or Budget.Check fails. -/
theorem declines_pass_through (t : X402Transport) (lib : Lib) (clock : Clock) (req : Request)
    (resp : Response) (hfirst : t.Base 0 req = .ok resp)
    (hdecline :
      resp.StatusCode ≠ 402 ∨
      t.Config.AutoPay = false ∨
      (∃ body, resp.Body = some body ∧
        lib.UnmarshalArray body = none ∧ lib.UnmarshalSingle body = none) ∨
      (∃ body, resp.Body = some body ∧ ParsePaymentRequirements lib body = .ok []) ∨
      (∃ body requirements, resp.Body = some body ∧
        ParsePaymentRequirements lib body = .ok requirements ∧
        t.Config.AllowedSchemes ≠ [] ∧
        ∀ r ∈ requirements, r.Scheme ∉ t.Config.AllowedSchemes) ∨
      (∃ body requirements payReq, resp.Body = some body ∧
        ParsePaymentRequirements lib body = .ok requirements ∧
        t.selectRequirement requirements = some payReq ∧
        (SetString payReq.MaxAmountRequired = none ∨
          ∃ amount, SetString payReq.MaxAmountRequired = some amount ∧
            ((∃ policy m, t.Policy = some policy ∧ policy.MaxPerRequest = some m ∧ amount > m) ∨
              (∃ policy, t.Policy = some policy ∧ policy.AllowedPayees.len > 0 ∧
                policy.AllowedPayees.get payReq.PayTo = false) ∨
              (∃ policy, t.Policy = some policy ∧ policy.AllowedDomains.len > 0 ∧
                policy.AllowedDomains.get req.Host = false) ∨
              (∃ b, t.Budget = some b ∧
                (b.Check clock.check amount payReq.PayTo).1 ≠ none))))) :
    (t.RoundTrip lib clock req).resp = some resp ∧
    (t.RoundTrip lib clock req).err = none ∧
    (t.RoundTrip lib clock req).dispatched = [req] ∧
    (∀ b, t.Budget = some b →
      ∃ after, (t.RoundTrip lib clock req).budget = some after ∧
        after.state.TotalSpent = b.state.TotalSpent ∧
        after.state.Records = b.state.Records) ∧
    (t.Budget = none → (t.RoundTrip lib clock req).budget = none) := by
  rcases roundTrip_cases t lib clock req resp hfirst with h | h | h
  · rw [h]
    refine ⟨rfl, rfl, rfl, ?_, ?_⟩
    · intro b hb
      exact ⟨b, hb, rfl, rfl⟩
    · intro hb
      exact hb
  · obtain ⟨b, amount, payTo, hb, h⟩ := h
    rw [h]
    refine ⟨rfl, rfl, rfl, ?_, ?_⟩
    · intro b2 hb2
      rw [hb] at hb2
      cases hb2
      exact ⟨_, rfl, (check_frame b clock.check amount payTo).1,
        (check_frame b clock.check amount payTo).2⟩
    · intro hn
      rw [hb] at hn
      cases hn
  · exfalso
    obtain ⟨body, requirements, payReq, amount, h402, hauto, hbody, hparse, hne, hsel, hamount,
      hpolicy, hbudget⟩ := h
    rcases hdecline with d | d | d | d | d | d
    · exact d h402
    · rw [hauto] at d
      cases d
    · obtain ⟨body2, hb2, ha, hs⟩ := d
      rw [hbody] at hb2
      cases hb2
      simp [ParsePaymentRequirements, ha, hs] at hparse
    · obtain ⟨body2, hb2, hp⟩ := d
      rw [hbody] at hb2
      cases hb2
      rw [hparse] at hp
      cases hp
      exact hne rfl
    · obtain ⟨body2, requirements2, hb2, hp, hfilter, hnone⟩ := d
      rw [hbody] at hb2
      cases hb2
      rw [hparse] at hp
      cases hp
      rw [selectRequirement_none t requirements hfilter hnone] at hsel
      cases hsel
    · obtain ⟨body2, requirements2, payReq2, hb2, hp, hs2, d⟩ := d
      rw [hbody] at hb2
      cases hb2
      rw [hparse] at hp
      cases hp
      rw [hsel] at hs2
      cases hs2
      rcases d with d | ⟨amount2, ha2, d⟩
      · rw [hamount] at d
        cases d
      · rw [hamount] at ha2
        cases ha2
        rcases d with ⟨policy, m, hpo, hm, hgt⟩ | ⟨policy, hpo, hlen, hget⟩ |
          ⟨policy, hpo, hlen, hget⟩ | ⟨b, hb, hcheck⟩
        · simp [X402Transport.policyDeclines, hpo, hm, exceeds, hgt] at hpolicy
        · have hnn : policy.AllowedPayees.notNil = true := by
            cases hap : policy.AllowedPayees with
            | none => simp [hap, BoolMap.len] at hlen
            | some es => rfl
          simp [X402Transport.policyDeclines, hpo, hnn, hlen, hget] at hpolicy
        · have hnn : policy.AllowedDomains.notNil = true := by
            cases hap : policy.AllowedDomains with
            | none => simp [hap, BoolMap.len] at hlen
            | some es => rfl
          simp [X402Transport.policyDeclines, hpo, hnn, hlen, hget] at hpolicy
        · rcases hbudget with ⟨hn, -⟩ | ⟨b2, hb2, hok, -⟩
          · rw [hb] at hn
            cases hn
          · rw [hb] at hb2
            cases hb2
            exact hcheck hok

/-- A witness of C9: a 402 whose body does not parse comes back as it is, and
the budget of the test `cumulative tracking` keeps its totals. -/
theorem declines_pass_through_witness :
    (X402Transport.RoundTrip (exampleTransport "not a requirement" 200 1 (some cumulativeTracker))
        exampleLib { check := 1001, track := 1002, between := [] } exampleRequest).resp =
      some { StatusCode := 402, Body := some "not a requirement" } ∧
    (X402Transport.RoundTrip (exampleTransport "not a requirement" 200 1 (some cumulativeTracker))
        exampleLib { check := 1001, track := 1002, between := [] } exampleRequest).err = none ∧
    (X402Transport.RoundTrip (exampleTransport "not a requirement" 200 1 (some cumulativeTracker))
        exampleLib { check := 1001, track := 1002, between := [] } exampleRequest).dispatched =
      [exampleRequest] :=
  have h := declines_pass_through
    (exampleTransport "not a requirement" 200 1 (some cumulativeTracker)) exampleLib
    { check := 1001, track := 1002, between := [] } exampleRequest
    { StatusCode := 402, Body := some "not a requirement" } rfl
    (Or.inr (Or.inr (Or.inl ⟨"not a requirement", rfl, by decide, rfl⟩)))
  ⟨h.1, h.2.1, h.2.2.1⟩

/-- C10, as the claim states it, fails: with a key that the signer refuses,
`BuildPaymentHeader` returns an error, and `RoundTrip` returns the 402 response
with a nil error. -/
theorem signing_failure_is_silent :
    BuildPaymentHeader exampleLib 0 (some (requirementOf "1000")) 170 8453 =
      .error "invalid private key" ∧
    (X402Transport.RoundTrip (exampleTransport "[requirement 1000]" 200 0 (some openBudget))
        exampleLib { check := 1001, track := 1002, between := [] } exampleRequest).err = none ∧
    (X402Transport.RoundTrip (exampleTransport "[requirement 1000]" 200 0 (some openBudget))
        exampleLib { check := 1001, track := 1002, between := [] } exampleRequest).resp =
      some { StatusCode := 402, Body := some "[requirement 1000]" } :=
  ⟨rfl, by decide, by decide⟩

/-- C10, amended. When a request has reached the construction of the
authorization (402 received, auto-pay on, a requirement selected, its amount
parsed, the policy gate and `Budget.Check` passed) and `BuildPaymentHeader`
returns an error, `RoundTrip` returns the 402 response with a nil error,
dispatches no retry, and leaves the budget as `Budget.Check` left it, with its
TotalSpent and Records unchanged. -/
theorem signing_failure_passes_through (t : X402Transport) (lib : Lib) (clock : Clock)
    (req : Request) (resp : Response) (body : String) (requirements : List PaymentRequirement)
    (payReq : PaymentRequirement) (amount : Int) (e : String)
    (hfirst : t.Base 0 req = .ok resp) (h402 : resp.StatusCode = 402)
    (hauto : t.Config.AutoPay = true) (hbody : resp.Body = some body)
    (hparse : ParsePaymentRequirements lib body = .ok requirements)
    (hne : requirements ≠ []) (hsel : t.selectRequirement requirements = some payReq)
    (hamount : SetString payReq.MaxAmountRequired = some amount)
    (hpolicy : t.policyDeclines req payReq amount = false)
    (hcheck : ∀ b, t.Budget = some b → (b.Check clock.check amount payReq.PayTo).1 = none)
    (hsign : BuildPaymentHeader lib t.PrivateKey (some payReq) t.From t.ChainID = .error e) :
    (t.RoundTrip lib clock req).resp = some resp ∧
    (t.RoundTrip lib clock req).err = none ∧
    (t.RoundTrip lib clock req).dispatched = [req] ∧
    (t.RoundTrip lib clock req).budget =
      t.Budget.map (fun b => (b.Check clock.check amount payReq.PayTo).2) ∧
    (∀ b, t.Budget = some b →
      ∃ after, (t.RoundTrip lib clock req).budget = some after ∧
        after.state.TotalSpent = b.state.TotalSpent ∧
        after.state.Records = b.state.Records) := by
  have hout := roundTrip_of_gates t lib clock req resp body requirements payReq amount hfirst
    h402 hauto hbody hparse hne hsel hamount hpolicy hcheck
  have hpass : t.RoundTrip lib clock req =
      passThrough req resp (t.Budget.map (fun b => (b.Check clock.check amount payReq.PayTo).2)) := by
    rw [hout]
    unfold X402Transport.payAndRetry
    rw [hsign]
  rw [hpass]
  refine ⟨rfl, rfl, rfl, rfl, ?_⟩
  intro b hb
  refine ⟨(b.Check clock.check amount payReq.PayTo).2, ?_, ?_⟩
  · simp [passThrough, hb]
  · exact check_frame b clock.check amount payReq.PayTo

/-- A witness of the amended C10: the signer refuses the key 0, and the 402
comes back with a nil error after a single dispatch. -/
theorem signing_failure_passes_through_witness :
    (X402Transport.RoundTrip (exampleTransport "[requirement 1000]" 200 0 (some openBudget))
        exampleLib { check := 1001, track := 1002, between := [] } exampleRequest).resp =
      some { StatusCode := 402, Body := some "[requirement 1000]" } ∧
    (X402Transport.RoundTrip (exampleTransport "[requirement 1000]" 200 0 (some openBudget))
        exampleLib { check := 1001, track := 1002, between := [] } exampleRequest).err = none ∧
    (X402Transport.RoundTrip (exampleTransport "[requirement 1000]" 200 0 (some openBudget))
        exampleLib { check := 1001, track := 1002, between := [] } exampleRequest).dispatched =
      [exampleRequest] :=
  have h := signing_failure_passes_through
    (exampleTransport "[requirement 1000]" 200 0 (some openBudget)) exampleLib
    { check := 1001, track := 1002, between := [] } exampleRequest
    { StatusCode := 402, Body := some "[requirement 1000]" } "[requirement 1000]"
    [requirementOf "1000"] (requirementOf "1000") 1000 "invalid private key"
    rfl rfl rfl rfl rfl (by decide) rfl rfl rfl
    (fun b hb => by
      have hb2 : openBudget = b := Option.some.inj hb
      subst hb2
      decide)
    rfl
  ⟨h.1, h.2.1, h.2.2.1⟩

/-- C8, as the claim states it, fails. The budget has a period ceiling of 50
and a PeriodSpent of -100; the requirement asks for 100. `Budget.Check` passes
at time 5, the retry returns 200, the period elapses at time 10, so the
`Budget.Track` made at time 10 refuses the record: `RoundTrip` returns the
retry response and no record is appended. On the tracker with a ceiling of 100
and nothing spent, `Budget.Check` of 100 passes at time 5, another goroutine
has its own payment of 100 recorded at time 6, and the `Budget.Track` made at
time 7 is refused: the retry was paid and answered with 200, and the only
record is the one of the other goroutine. -/
theorem paid_retry_not_recorded :
    (refundedBudget.Check 5 100 187).1 = none ∧
    (X402Transport.RoundTrip (exampleTransport "[requirement 100]" 200 1 (some refundedBudget))
        exampleLib { check := 5, track := 10, between := [] } exampleRequest).resp =
      some { StatusCode := 200, Body := some "paid" } ∧
    (X402Transport.RoundTrip (exampleTransport "[requirement 100]" 200 1 (some refundedBudget))
        exampleLib { check := 5, track := 10, between := [] } exampleRequest).err = none ∧
    ((X402Transport.RoundTrip (exampleTransport "[requirement 100]" 200 1 (some refundedBudget))
        exampleLib { check := 5, track := 10, between := [] } exampleRequest).budget.map
          (fun b => b.state.Records)) = some refundedBudget.state.Records ∧
    refundedBudget.state.Records = [payment (-100)] ∧
    refundedBudget.state.PeriodSpent = -100 ∧
    (hundredBudget.Check 5 100 187).1 = none ∧
    (X402Transport.RoundTrip (exampleTransport "[requirement 100]" 200 1 (some hundredBudget))
        exampleLib { check := 5, track := 7, between := [.track 6 (payment 100)] }
        exampleRequest).resp =
      some { StatusCode := 200, Body := some "paid" } ∧
    ((X402Transport.RoundTrip (exampleTransport "[requirement 100]" 200 1 (some hundredBudget))
        exampleLib { check := 5, track := 7, between := [.track 6 (payment 100)] }
        exampleRequest).budget.map (fun b => (b.state.Records, b.state.TotalSpent))) =
      some ([payment 100], 100) := by
  decide

/-- C8, amended. For a request whose first response is 402 with a parseable
requirement list, with auto-pay on, no scheme filter, the policy gate and
`Budget.Check` passing, and whose retry is dispatched and answered:
`RoundTrip` returns the retry response. If the retry status is in 200..299,
`Budget.Track` is called once, on the tracker as `Budget.Check` and then the
calls of other goroutines left it, with the record of Amount the parsed amount,
PayTo the requirement's payee, Resource the request URL and Network the
requirement's network. At most one record is appended, and exactly that one
is iff this `Budget.Track` returns nil; it does, with TotalSpent raised by the
amount, when no other call falls between `Budget.Check` and `Budget.Track` and
the budget's PeriodSpent was not negative before the call or the period does
not elapse between the two. If the retry status is outside 200..299 no record
is written. -/
theorem payment_recorded_once (t : X402Transport) (lib : Lib) (clock : Clock) (req : Request)
    (resp : Response) (body : String) (payReq : PaymentRequirement)
    (rest : List PaymentRequirement) (amount : Int) (b : BudgetTracker) (header : String)
    (retryReq : Request) (retryResp : Response)
    (hfirst : t.Base 0 req = .ok resp) (h402 : resp.StatusCode = 402)
    (hauto : t.Config.AutoPay = true) (hbody : resp.Body = some body)
    (hparse : ParsePaymentRequirements lib body = .ok (payReq :: rest))
    (hfilter : t.Config.AllowedSchemes = [])
    (hamount : SetString payReq.MaxAmountRequired = some amount)
    (hpolicy : t.policyDeclines req payReq amount = false)
    (hbudget : t.Budget = some b)
    (hcheck : (b.Check clock.check amount payReq.PayTo).1 = none)
    (hheader : BuildPaymentHeader lib t.PrivateKey (some payReq) t.From t.ChainID = .ok header)
    (hretry : retryRequest req header = some retryReq)
    (hdispatch : t.Base 1 retryReq = .ok retryResp) :
    (t.RoundTrip lib clock req).resp = some retryResp ∧
    (t.RoundTrip lib clock req).err = none ∧
    (t.RoundTrip lib clock req).dispatched = [req, retryReq] ∧
    ((200 ≤ retryResp.StatusCode ∧ retryResp.StatusCode < 300) →
      (t.RoundTrip lib clock req).budget =
        some (((b.Check clock.check amount payReq.PayTo).2.afterAll clock.between).Track
          clock.track (paidRecord req payReq amount)).2 ∧
      (paidRecord req payReq amount).Amount = amount ∧
      (paidRecord req payReq amount).PayTo = payReq.PayTo ∧
      (paidRecord req payReq amount).Resource = req.URL ∧
      (paidRecord req payReq amount).Network = payReq.Network ∧
      (∃ after, (t.RoundTrip lib clock req).budget = some after ∧
        (after.state.Records =
            ((b.Check clock.check amount payReq.PayTo).2.afterAll clock.between).state.Records ++
              [paidRecord req payReq amount] ∨
          after.state.Records =
            ((b.Check clock.check amount payReq.PayTo).2.afterAll
              clock.between).state.Records)) ∧
      ((((b.Check clock.check amount payReq.PayTo).2.afterAll clock.between).Track clock.track
            (paidRecord req payReq amount)).1 = none ↔
        ∃ after, (t.RoundTrip lib clock req).budget = some after ∧
          after.state.Records =
            ((b.Check clock.check amount payReq.PayTo).2.afterAll clock.between).state.Records ++
              [paidRecord req payReq amount]) ∧
      (clock.between = [] →
        (0 ≤ b.state.PeriodSpent ∨
          (b.Check clock.check amount payReq.PayTo).2.periodElapsed clock.track = false) →
        ∃ after, (t.RoundTrip lib clock req).budget = some after ∧
          after.state.Records = b.state.Records ++ [paidRecord req payReq amount] ∧
          after.state.TotalSpent = b.state.TotalSpent + amount)) ∧
    (¬ (200 ≤ retryResp.StatusCode ∧ retryResp.StatusCode < 300) →
      ∃ after, (t.RoundTrip lib clock req).budget = some after ∧
        after.state.Records = b.state.Records ∧
        after.state.TotalSpent = b.state.TotalSpent) := by
  have hsel : t.selectRequirement (payReq :: rest) = some payReq := by
    simp [X402Transport.selectRequirement, hfilter]
  have hout := roundTrip_of_gates t lib clock req resp body (payReq :: rest) payReq amount hfirst
    h402 hauto hbody hparse (by simp) hsel hamount hpolicy
    (fun b2 hb2 => by
      rw [hbudget] at hb2
      cases hb2
      exact hcheck)
  obtain ⟨hfT, hfR⟩ := check_frame b clock.check amount payReq.PayTo
  have hpay : t.RoundTrip lib clock req =
      { resp := some retryResp
        err := none
        budget :=
          if retryResp.StatusCode ≥ 200 ∧ retryResp.StatusCode < 300 then
            some (((b.Check clock.check amount payReq.PayTo).2.afterAll clock.between).Track
              clock.track (paidRecord req payReq amount)).2
          else some (b.Check clock.check amount payReq.PayTo).2
        dispatched := [req, retryReq] } := by
    rw [hout]
    unfold X402Transport.payAndRetry
    simp only [hheader, hretry, hdispatch, hbudget, Option.map_some']
  rw [hpay]
  refine ⟨rfl, rfl, rfl, ?_, ?_⟩
  · intro hok
    have hok2 : retryResp.StatusCode ≥ 200 ∧ retryResp.StatusCode < 300 := hok
    rw [if_pos hok2]
    refine ⟨rfl, rfl, rfl, rfl, rfl, ?_, ?_, ?_⟩
    · refine ⟨_, rfl, ?_⟩
      by_cases htrack : (((b.Check clock.check amount payReq.PayTo).2.afterAll
          clock.between).Track clock.track (paidRecord req payReq amount)).1 = none
      · left
        rw [(track_state_of_success _ _ _ htrack).2]
      · right
        rw [track_state_of_error _ _ _ htrack]
        rw [(resetPeriodIfNeeded_frame _ _).2.1]
    · constructor
      · intro htrack
        exact ⟨_, rfl, (track_state_of_success _ _ _ htrack).2⟩
      · rintro ⟨after, hafter, hrec⟩
        by_contra htrack
        have e := Option.some.inj hafter
        rw [← e, track_state_of_error _ _ _ htrack, (resetPeriodIfNeeded_frame _ _).2.1] at hrec
        have hlen := congrArg List.length hrec
        simp at hlen
    · intro hnone hfit
      rw [hnone]
      have htrack : ((b.Check clock.check amount payReq.PayTo).2.Track clock.track
          (paidRecord req payReq amount)).1 = none := by
        rcases hfit with hfit | hfit
        · exact track_after_check b clock.check clock.track (paidRecord req payReq amount)
            hcheck hfit
        · exact track_after_check_same_period b clock.check clock.track
            (paidRecord req payReq amount) hcheck hfit
      refine ⟨_, rfl, ?_, ?_⟩
      · show ((b.Check clock.check amount payReq.PayTo).2.Track clock.track
          (paidRecord req payReq amount)).2.state.Records = _
        rw [(track_state_of_success _ _ _ htrack).2, hfR]
      · show ((b.Check clock.check amount payReq.PayTo).2.Track clock.track
          (paidRecord req payReq amount)).2.state.TotalSpent = _
        rw [(track_state_of_success _ _ _ htrack).1, hfT]
        rfl
  · intro hno
    have hno2 : ¬ (retryResp.StatusCode ≥ 200 ∧ retryResp.StatusCode < 300) := hno
    rw [if_neg hno2]
    exact ⟨_, rfl, hfR, hfT⟩

/-- A witness of the amended C8: the end-to-end example of the specification.
A 402 with one requirement of 1000, auto-pay on, no scheme filter and a budget
without ceilings that no other goroutine touches: one record of amount 1000 to
the requirement's payee is appended and the retry response, of status 200, is
returned. -/
theorem payment_recorded_once_witness :
    (X402Transport.RoundTrip (exampleTransport "[requirement 1000]" 200 1 (some openBudget))
        exampleLib { check := 1001, track := 1002, between := [] } exampleRequest).resp =
      some { StatusCode := 200, Body := some "paid" } ∧
    ∃ after,
      (X402Transport.RoundTrip (exampleTransport "[requirement 1000]" 200 1 (some openBudget))
        exampleLib { check := 1001, track := 1002, between := [] } exampleRequest).budget =
          some after ∧
      after.state.Records =
        openBudget.state.Records ++
          [paidRecord exampleRequest (requirementOf "1000") 1000] ∧
      after.state.TotalSpent = openBudget.state.TotalSpent + 1000 :=
  have h := payment_recorded_once
    (exampleTransport "[requirement 1000]" 200 1 (some openBudget)) exampleLib
    { check := 1001, track := 1002, between := [] } exampleRequest
    { StatusCode := 402, Body := some "[requirement 1000]" } "[requirement 1000]"
    (requirementOf "1000") [] 1000 openBudget "1000"
    { exampleRequest with Header := [("X-PAYMENT", "1000")] }
    { StatusCode := 200, Body := some "paid" }
    rfl rfl rfl rfl rfl rfl rfl rfl rfl (by decide) rfl rfl rfl
  ⟨h.1, (h.2.2.2.1 (by decide)).2.2.2.2.2.2.2 rfl (Or.inl (by decide))⟩

/-! ## The transport: failures of the base transport, scheme selection, nonce -/

theorem find?_eq_some_iff_index {α : Type} (p : α → Bool) (xs : List α) (b : α) :
    xs.find? p = some b ↔
      ∃ i : Nat, xs[i]? = some b ∧ p b = true ∧
        ∀ j : Nat, j < i → ∀ a : α, xs[j]? = some a → p a = false := by
  induction xs with
  | nil => simp
  | cons x xs ih =>
    by_cases hx : p x = true
    · rw [List.find?_cons_of_pos _ hx]
      constructor
      · intro h
        cases h
        exact ⟨0, by simp, hx, fun j hj => absurd hj (Nat.not_lt_zero j)⟩
      · rintro ⟨i, hi, -, hlt⟩
        cases i with
        | zero => simpa using hi
        | succ i =>
          have := hlt 0 (Nat.succ_pos i) x (by simp)
          rw [hx] at this
          cases this
    · rw [List.find?_cons_of_neg _ hx, ih]
      have hxf : p x = false := by simpa using hx
      constructor
      · rintro ⟨i, hi, hb, hlt⟩
        refine ⟨i + 1, by simpa using hi, hb, ?_⟩
        intro j hj a ha
        cases j with
        | zero =>
          have : x = a := by simpa using ha
          rw [← this]
          exact hxf
        | succ j => exact hlt j (Nat.lt_of_succ_lt_succ hj) a (by simpa using ha)
      · rintro ⟨i, hi, hb, hlt⟩
        cases i with
        | zero =>
          have : x = b := by simpa using hi
          rw [this] at hxf
          rw [hxf] at hb
          cases hb
        | succ i =>
          refine ⟨i, by simpa using hi, hb, ?_⟩
          intro j hj a ha
          exact hlt (j + 1) (Nat.succ_lt_succ hj) a (by simpa using ha)

theorem buildPaymentHeader_eq_marshal (lib : Lib) (privateKey : PrivateKey)
    (req : Option PaymentRequirement) (sender : Address) (chainID : Int) :
    BuildPaymentHeader lib privateKey req sender chainID =
      match paymentPayload lib privateKey req sender chainID with
      | .error err => .error err
      | .ok payload => lib.Marshal payload := by
  unfold BuildPaymentHeader paymentPayload paymentNonce usdcAddress
  cases req with
  | none => rfl
  | some req =>
    simp only
    cases SetString req.MaxAmountRequired with
    | none => rfl
    | some amount =>
      simp only
      split
      · rfl
      · simp only
        split <;> simp_all

/-- C11. Transport failures. If the first dispatch through the base transport
returns an error, `RoundTrip` returns that error with no response, and the
budget is the budget before the call. If the first dispatch returns a 402, the
request passes every gate, and the retry dispatch returns an error, `RoundTrip`
returns the 402 response with a nil error, and the budget's Records and
TotalSpent are unchanged: no PaymentRecord is written. -/
theorem transport_failures (t : X402Transport) (lib : Lib) (clock : Clock) (req : Request) :
    (∀ e, t.Base 0 req = .error e →
      (t.RoundTrip lib clock req).resp = none ∧
      (t.RoundTrip lib clock req).err = some e ∧
      (t.RoundTrip lib clock req).budget = t.Budget ∧
      (t.RoundTrip lib clock req).dispatched = [req]) ∧
    (∀ (resp : Response) (body : String) (requirements : List PaymentRequirement)
        (payReq : PaymentRequirement) (amount : Int) (header : String) (retryReq : Request)
        (e : String),
      t.Base 0 req = .ok resp → resp.StatusCode = 402 → t.Config.AutoPay = true →
      resp.Body = some body → ParsePaymentRequirements lib body = .ok requirements →
      requirements ≠ [] → t.selectRequirement requirements = some payReq →
      SetString payReq.MaxAmountRequired = some amount →
      t.policyDeclines req payReq amount = false →
      (∀ b, t.Budget = some b → (b.Check clock.check amount payReq.PayTo).1 = none) →
      BuildPaymentHeader lib t.PrivateKey (some payReq) t.From t.ChainID = .ok header →
      retryRequest req header = some retryReq →
      t.Base 1 retryReq = .error e →
      (t.RoundTrip lib clock req).resp = some resp ∧
      (t.RoundTrip lib clock req).err = none ∧
      (t.RoundTrip lib clock req).dispatched = [req, retryReq] ∧
      (∀ b, t.Budget = some b →
        ∃ after, (t.RoundTrip lib clock req).budget = some after ∧
          after.state.Records = b.state.Records ∧
          after.state.TotalSpent = b.state.TotalSpent) ∧
      (t.Budget = none → (t.RoundTrip lib clock req).budget = none)) := by
  constructor
  · intro e he
    unfold X402Transport.RoundTrip
    rw [he]
    exact ⟨rfl, rfl, rfl, rfl⟩
  · intro resp body requirements payReq amount header retryReq e hfirst h402 hauto hbody hparse
      hne hsel hamount hpolicy hcheck hheader hretry hdispatch
    have hout := roundTrip_of_gates t lib clock req resp body requirements payReq amount hfirst
      h402 hauto hbody hparse hne hsel hamount hpolicy hcheck
    have hpay : t.RoundTrip lib clock req =
        { passThrough req resp
            (t.Budget.map (fun b => (b.Check clock.check amount payReq.PayTo).2)) with
          dispatched := [req, retryReq] } := by
      rw [hout]
      unfold X402Transport.payAndRetry
      simp only [hheader, hretry, hdispatch]
    rw [hpay]
    refine ⟨rfl, rfl, rfl, ?_, ?_⟩
    · intro b hb
      refine ⟨(b.Check clock.check amount payReq.PayTo).2, ?_, ?_, ?_⟩
      · simp [passThrough, hb]
      · exact (check_frame b clock.check amount payReq.PayTo).2
      · exact (check_frame b clock.check amount payReq.PayTo).1
    · intro hb
      simp [passThrough, hb]

/-- A witness of C11: a base transport that refuses the connection, and one
that answers 402 and then fails on the retry. -/
theorem transport_failures_witness :
    ((X402Transport.RoundTrip (transportOver deadBase (some openBudget)) exampleLib
        { check := 1001, track := 1002, between := [] } exampleRequest).resp = none ∧
      (X402Transport.RoundTrip (transportOver deadBase (some openBudget)) exampleLib
        { check := 1001, track := 1002, between := [] } exampleRequest).err = some "connection refused" ∧
      (X402Transport.RoundTrip (transportOver deadBase (some openBudget)) exampleLib
        { check := 1001, track := 1002, between := [] } exampleRequest).budget = some openBudget) ∧
    ((X402Transport.RoundTrip (transportOver flakyBase (some openBudget)) exampleLib
        { check := 1001, track := 1002, between := [] } exampleRequest).resp =
        some { StatusCode := 402, Body := some "[requirement 1000]" } ∧
      (X402Transport.RoundTrip (transportOver flakyBase (some openBudget)) exampleLib
        { check := 1001, track := 1002, between := [] } exampleRequest).err = none) :=
  have h1 := (transport_failures (transportOver deadBase (some openBudget)) exampleLib
    { check := 1001, track := 1002, between := [] } exampleRequest).1 "connection refused" rfl
  have h2 := (transport_failures (transportOver flakyBase (some openBudget)) exampleLib
    { check := 1001, track := 1002, between := [] } exampleRequest).2
    { StatusCode := 402, Body := some "[requirement 1000]" } "[requirement 1000]"
    [requirementOf "1000"] (requirementOf "1000") 1000 "1000"
    { exampleRequest with Header := [("X-PAYMENT", "1000")] } "connection reset"
    rfl rfl rfl rfl rfl (by decide) rfl rfl rfl
    (fun b hb => by
      have hb2 : openBudget = b := Option.some.inj hb
      subst hb2
      decide)
    rfl rfl rfl
  ⟨⟨h1.1, h1.2.1, h1.2.2.1⟩, h2.1, h2.2.1⟩

/-- C12. Scheme selection, for a non-empty requirement list. When
AllowedSchemes is empty, `selectRequirement` returns the element at index 0.
When AllowedSchemes is non-empty, it returns a requirement exactly when that
requirement stands at the smallest index whose Scheme is a member of
AllowedSchemes, so the order of the requirements decides; and it returns nil
iff no requirement's Scheme is a member. -/
theorem selectRequirement_first_match (t : X402Transport)
    (requirements : List PaymentRequirement) (hne : requirements ≠ []) :
    (t.Config.AllowedSchemes = [] →
      ∃ first, requirements[0]? = some first ∧ t.selectRequirement requirements = some first) ∧
    (t.Config.AllowedSchemes ≠ [] →
      (∀ payReq, t.selectRequirement requirements = some payReq ↔
        ∃ i : Nat, requirements[i]? = some payReq ∧ payReq.Scheme ∈ t.Config.AllowedSchemes ∧
          ∀ j : Nat, j < i → ∀ r : PaymentRequirement, requirements[j]? = some r →
            r.Scheme ∉ t.Config.AllowedSchemes) ∧
      (t.selectRequirement requirements = none ↔
        ∀ r ∈ requirements, r.Scheme ∉ t.Config.AllowedSchemes)) := by
  constructor
  · intro hempty
    cases requirements with
    | nil => exact absurd rfl hne
    | cons first rest =>
      exact ⟨first, by simp, by simp [X402Transport.selectRequirement, hempty]⟩
  · intro hfilter
    have hlen : ¬ t.Config.AllowedSchemes.length = 0 := by
      intro h
      exact hfilter (List.length_eq_zero.1 h)
    have hsel : t.selectRequirement requirements =
        requirements.find? (fun r =>
          BoolMap.get (some (t.Config.AllowedSchemes.map (fun s => (s, true)))) r.Scheme) := by
      unfold X402Transport.selectRequirement
      rw [if_neg hlen]
    constructor
    · intro payReq
      rw [hsel, find?_eq_some_iff_index]
      constructor
      · rintro ⟨i, hi, hb, hlt⟩
        refine ⟨i, hi, (schemeSet_get _ _).1 hb, ?_⟩
        intro j hj r hr hmem
        have := hlt j hj r hr
        rw [(schemeSet_get _ _).2 hmem] at this
        cases this
      · rintro ⟨i, hi, hb, hlt⟩
        refine ⟨i, hi, (schemeSet_get _ _).2 hb, ?_⟩
        intro j hj r hr
        have := hlt j hj r hr
        cases hg : BoolMap.get (some (t.Config.AllowedSchemes.map (fun s => (s, true)))) r.Scheme
        · rfl
        · exact absurd ((schemeSet_get _ _).1 hg) this
    · rw [hsel, List.find?_eq_none]
      constructor
      · intro h r hr hmem
        exact h r hr ((schemeSet_get _ _).2 hmem)
      · intro h r hr hget
        exact h r hr ((schemeSet_get _ _).1 hget)

/-- A witness of C12 on the requirements of `TestSelectRequirement`: without a
filter the first is selected; with the filter `upto` the second. -/
theorem selectRequirement_first_match_witness :
    (∃ first, testRequirements[0]? = some first ∧
      (filteringTransport []).selectRequirement testRequirements = some first) ∧
    (∀ payReq, (filteringTransport ["upto"]).selectRequirement testRequirements = some payReq ↔
      ∃ i : Nat, testRequirements[i]? = some payReq ∧
        payReq.Scheme ∈ (filteringTransport ["upto"]).Config.AllowedSchemes ∧
        ∀ j : Nat, j < i → ∀ r : PaymentRequirement, testRequirements[j]? = some r →
          r.Scheme ∉ (filteringTransport ["upto"]).Config.AllowedSchemes) :=
  ⟨(selectRequirement_first_match (filteringTransport []) testRequirements (by decide)).1 rfl,
    ((selectRequirement_first_match (filteringTransport ["upto"]) testRequirements
      (by decide)).2 (by decide)).1⟩

/-- C13. The payment nonce is a function of payer, payee and amount only. Two
calls of `BuildPaymentHeader` with the same payer, the same PayTo and
MaxAmountRequired strings that denote the same number put the same nonce in
the header they marshal, whatever the key, scheme, network, resource, deadline
and chain id; that nonce is the hexadecimal of the hash of payer, payee and
amount. -/
theorem nonce_of_payer_payee_amount (lib : Lib) (key1 key2 : PrivateKey)
    (req1 req2 : PaymentRequirement) (sender : Address) (chain1 chain2 : Int)
    (header1 header2 : PaymentHeader)
    (hpayee : req1.PayTo = req2.PayTo)
    (hamount : SetString req1.MaxAmountRequired = SetString req2.MaxAmountRequired)
    (h1 : paymentPayload lib key1 (some req1) sender chain1 = .ok header1)
    (h2 : paymentPayload lib key2 (some req2) sender chain2 = .ok header2) :
    header1.payload.nonce = header2.payload.nonce ∧
    (∃ amount, SetString req1.MaxAmountRequired = some amount ∧
      header1.payload.nonce = lib.Bytes2Hex (paymentNonce lib sender req1.PayTo amount)) ∧
    BuildPaymentHeader lib key1 (some req1) sender chain1 = lib.Marshal header1 ∧
    BuildPaymentHeader lib key2 (some req2) sender chain2 = lib.Marshal header2 := by
  have key : ∀ (k : PrivateKey) (r : PaymentRequirement) (c : Int) (h : PaymentHeader),
      paymentPayload lib k (some r) sender c = .ok h →
      ∃ amount, SetString r.MaxAmountRequired = some amount ∧
        h.payload.nonce = lib.Bytes2Hex (paymentNonce lib sender r.PayTo amount) := by
    intro k r c h hk
    unfold paymentPayload at hk
    simp only at hk
    cases ha : SetString r.MaxAmountRequired with
    | none =>
      rw [ha] at hk
      cases hk
    | some amount =>
      rw [ha] at hk
      simp only at hk
      refine ⟨amount, rfl, ?_⟩
      split at hk
      · cases hk
      · cases hk
        rfl
  obtain ⟨a1, ha1, hn1⟩ := key key1 req1 chain1 header1 h1
  obtain ⟨a2, ha2, hn2⟩ := key key2 req2 chain2 header2 h2
  have ha : a1 = a2 := by
    rw [ha1, ha2] at hamount
    exact Option.some.inj hamount
  refine ⟨?_, ⟨a1, ha1, hn1⟩, ?_, ?_⟩
  · rw [hn1, hn2, hpayee, ha]
  · rw [buildPaymentHeader_eq_marshal, h1]
  · rw [buildPaymentHeader_eq_marshal, h2]

/-- A witness of C13: the amounts `1000` and `+1000`, with different keys,
chains, schemes and deadlines, under a hash that keeps its input. -/
theorem nonce_of_payer_payee_amount_witness :
    ∃ header1 header2 : PaymentHeader,
      paymentPayload tracingLib 1 (some (requirementOf "1000")) 170 8453 = .ok header1 ∧
      paymentPayload tracingLib 2
        (some { requirementOf "+1000" with Scheme := "upto", RequiredDeadline := "5" }) 170 1 =
          .ok header2 ∧
      header1.payload.nonce = header2.payload.nonce :=
  ⟨_, _, rfl, rfl,
    (nonce_of_payer_payee_amount tracingLib 1 2 (requirementOf "1000")
      { requirementOf "+1000" with Scheme := "upto", RequiredDeadline := "5" } 170 8453 1
      _ _ rfl rfl rfl rfl).1⟩

/-! ## Lemmas on the goroutines -/

theorem track_eq_trackChecked (bt : BudgetTracker) (now : Nat) (record : PaymentRecord) :
    bt.Track now record = (bt.resetPeriodIfNeeded now).trackChecked record := rfl

theorem step_closed (bt : BudgetTracker) (nowA : Nat) (a : PaymentRecord) (nowB : Nat)
    (b : PaymentRecord) (w : World) (g : Bool)
    (h : w = World.init bt nowA a nowB b ∨ w ∈ firstThenSecond bt nowA a nowB b ∨
      w ∈ secondThenFirst bt nowA a nowB b) :
    w.step g = World.init bt nowA a nowB b ∨ w.step g ∈ firstThenSecond bt nowA a nowB b ∨
      w.step g ∈ secondThenFirst bt nowA a nowB b := by
  simp only [firstThenSecond, secondThenFirst, List.mem_cons, List.mem_singleton,
    List.not_mem_nil, or_false] at h ⊢
  rcases h with rfl | (rfl | rfl | rfl | rfl | rfl | rfl) | (rfl | rfl | rfl | rfl | rfl | rfl) <;>
    cases g <;> simp [World.step, World.goroutine, World.withGoroutine, World.init]

theorem run_closed (bt : BudgetTracker) (nowA : Nat) (a : PaymentRecord) (nowB : Nat)
    (b : PaymentRecord) (schedule : List Bool) :
    ∀ w : World,
      (w = World.init bt nowA a nowB b ∨ w ∈ firstThenSecond bt nowA a nowB b ∨
        w ∈ secondThenFirst bt nowA a nowB b) →
      (w.run schedule = World.init bt nowA a nowB b ∨
        w.run schedule ∈ firstThenSecond bt nowA a nowB b ∨
        w.run schedule ∈ secondThenFirst bt nowA a nowB b) := by
  induction schedule with
  | nil => exact fun w h => h
  | cons g rest ih => exact fun w h => ih (w.step g) (step_closed bt nowA a nowB b w g h)

theorem returned_worlds (bt : BudgetTracker) (nowA : Nat) (a : PaymentRecord) (nowB : Nat)
    (b : PaymentRecord) (w : World) (errA errB : Option String)
    (h : w = World.init bt nowA a nowB b ∨ w ∈ firstThenSecond bt nowA a nowB b ∨
      w ∈ secondThenFirst bt nowA a nowB b)
    (hfirst : w.first.stage = .returned errA) (hsecond : w.second.stage = .returned errB) :
    w.mu = none ∧
    ((errA = (bt.Track nowA a).1 ∧ errB = ((bt.Track nowA a).2.Track nowB b).1 ∧
        w.bt = ((bt.Track nowA a).2.Track nowB b).2) ∨
      (errB = (bt.Track nowB b).1 ∧ errA = ((bt.Track nowB b).2.Track nowA a).1 ∧
        w.bt = ((bt.Track nowB b).2.Track nowA a).2)) := by
  simp only [track_eq_trackChecked]
  simp only [firstThenSecond, secondThenFirst, List.mem_cons, List.mem_singleton,
    List.not_mem_nil, or_false] at h
  rcases h with rfl | (rfl | rfl | rfl | rfl | rfl | rfl) | (rfl | rfl | rfl | rfl | rfl | rfl) <;>
    simp only [World.init, reduceCtorEq, Stage.returned.injEq] at hfirst hsecond
  · exact ⟨rfl, Or.inl ⟨hfirst.symm, hsecond.symm, rfl⟩⟩
  · exact ⟨rfl, Or.inr ⟨hsecond.symm, hfirst.symm, rfl⟩⟩

theorem track_pair (bt : BudgetTracker) (nowA : Nat) (a : PaymentRecord) (nowB : Nat)
    (b : PaymentRecord) (m : Int)
    (hA : bt.periodElapsed nowA = false) (hB : bt.periodElapsed nowB = false)
    (fitA : (bt.Track nowA a).1 = none) (fitB : (bt.Track nowB b).1 = none)
    (hm : bt.policy.MaxPerPeriod = some m)
    (joint : bt.state.PeriodSpent + a.Amount + b.Amount > m) :
    ((bt.Track nowA a).2.Track nowB b).1 = some "amount exceeds period budget" ∧
    ((bt.Track nowA a).2.Track nowB b).2.state.PeriodSpent =
      bt.state.PeriodSpent + a.Amount := by
  have rA : bt.resetPeriodIfNeeded nowA = bt := resetPeriodIfNeeded_of_not_elapsed bt nowA hA
  rw [track_error_eq_check, check_none_iff, rA] at fitA
  rw [track_error_eq_check, check_none_iff, resetPeriodIfNeeded_of_not_elapsed bt nowB hB]
    at fitB
  obtain ⟨pA, qA, cA⟩ := fitA
  obtain ⟨pB, qB, -⟩ := fitB
  have g1 : ¬ ((bt.policy.AllowedPayees.notNil && decide (bt.policy.AllowedPayees.len > 0) &&
      !bt.policy.AllowedPayees.get a.PayTo) = true) := fun h => pA ((payee_gate_iff _ _).1 h)
  have g2 : ¬ (exceeds a.Amount bt.policy.MaxPerRequest = true) :=
    fun h => qA ((exceeds_iff _ _).1 h)
  have g3 : ¬ (exceeds (bt.state.PeriodSpent + a.Amount) bt.policy.MaxPerPeriod = true) :=
    fun h => cA ((exceeds_iff _ _).1 h)
  have hTA : bt.Track nowA a =
      (none,
        { bt with
          state :=
            { bt.state with
              TotalSpent := bt.state.TotalSpent + a.Amount
              PeriodSpent := bt.state.PeriodSpent + a.Amount
              Records := bt.state.Records ++ [a] } }) := by
    rw [track_eq_trackChecked, rA]
    unfold BudgetTracker.trackChecked
    simp only [g1, g2, g3, if_false, Bool.false_eq_true]
  rw [hTA]
  simp only
  have hB2 : BudgetTracker.periodElapsed
      { bt with
        state :=
          { bt.state with
            TotalSpent := bt.state.TotalSpent + a.Amount
            PeriodSpent := bt.state.PeriodSpent + a.Amount
            Records := bt.state.Records ++ [a] } } nowB = false := hB
  rw [track_eq_trackChecked, resetPeriodIfNeeded_of_not_elapsed _ nowB hB2]
  have k1 : ¬ ((bt.policy.AllowedPayees.notNil && decide (bt.policy.AllowedPayees.len > 0) &&
      !bt.policy.AllowedPayees.get b.PayTo) = true) := fun h => pB ((payee_gate_iff _ _).1 h)
  have k2 : ¬ (exceeds b.Amount bt.policy.MaxPerRequest = true) :=
    fun h => qB ((exceeds_iff _ _).1 h)
  have k3 : exceeds (bt.state.PeriodSpent + a.Amount + b.Amount) bt.policy.MaxPerPeriod = true :=
    (exceeds_iff _ _).2 ⟨m, hm, joint⟩
  unfold BudgetTracker.trackChecked
  simp only [k1, k2, k3, if_false, if_true, and_self, Bool.false_eq_true]

theorem run_completes (bt : BudgetTracker) (nowA : Nat) (a : PaymentRecord) (nowB : Nat)
    (b : PaymentRecord) (w : World)
    (h : w = World.init bt nowA a nowB b ∨ w ∈ firstThenSecond bt nowA a nowB b ∨
      w ∈ secondThenFirst bt nowA a nowB b) :
    ∃ errA errB, (w.run (firstFirst ++ [false, false, false])).first.stage = .returned errA ∧
      (w.run (firstFirst ++ [false, false, false])).second.stage = .returned errB := by
  simp only [firstThenSecond, secondThenFirst, List.mem_cons, List.mem_singleton,
    List.not_mem_nil, or_false] at h
  rcases h with rfl | (rfl | rfl | rfl | rfl | rfl | rfl) | (rfl | rfl | rfl | rfl | rfl | rfl) <;>
    exact ⟨_, _, rfl, rfl⟩

/-- C30, as the claim states it, fails. On a tracker with a period ceiling of
100 whose period of 10 seconds started at 0, two goroutines call `Track` with
60 each: each call alone returns nil, and 60 + 60 exceeds the ceiling. The
first goroutine reads the clock at second 9 and the second one, which takes the
mutex after it, at second 10: its `resetPeriodIfNeeded` starts a new period,
both calls return nil, and PeriodSpent is 60 in the end. -/
theorem concurrent_tracks_across_period_end :
    (hundredBudget.Track 9 (payment 60)).1 = none ∧
    (hundredBudget.Track 10 (payment 60)).1 = none ∧
    ((World.init hundredBudget 9 (payment 60) 10 (payment 60)).run firstFirst).first.stage =
      .returned none ∧
    ((World.init hundredBudget 9 (payment 60) 10 (payment 60)).run firstFirst).second.stage =
      .returned none ∧
    ((World.init hundredBudget 9 (payment 60) 10 (payment 60)).run firstFirst).bt.state.PeriodSpent =
      60 := by
  decide

/-- C30, amended. Two goroutines call `Track` on the same tracker, each
stepping through `Lock`, `resetPeriodIfNeeded` and the checks with the update
and `Unlock`, in any interleaving. When neither clock reading is past the end
of the current period, each call alone returns nil, and the period total with
both amounts exceeds MaxPerPeriod, then in every schedule after which both
calls have returned, exactly one has returned nil and the other 'amount exceeds
period budget', and PeriodSpent is its value before the calls plus the amount
of the call that returned nil. Both calls return once every goroutine has been
given enough steps, and which call returns nil depends on the schedule. -/
theorem concurrent_tracks_one_succeeds (bt : BudgetTracker) (nowA : Nat) (a : PaymentRecord)
    (nowB : Nat) (b : PaymentRecord) (m : Int)
    (hA : bt.periodElapsed nowA = false) (hB : bt.periodElapsed nowB = false)
    (fitA : (bt.Track nowA a).1 = none) (fitB : (bt.Track nowB b).1 = none)
    (hm : bt.policy.MaxPerPeriod = some m)
    (joint : bt.state.PeriodSpent + a.Amount + b.Amount > m) :
    (∀ (schedule : List Bool) (errA errB : Option String),
      ((World.init bt nowA a nowB b).run schedule).first.stage = .returned errA →
      ((World.init bt nowA a nowB b).run schedule).second.stage = .returned errB →
      ((errA = none ∧ errB = some "amount exceeds period budget" ∧
          ((World.init bt nowA a nowB b).run schedule).bt.state.PeriodSpent =
            bt.state.PeriodSpent + a.Amount) ∨
        (errB = none ∧ errA = some "amount exceeds period budget" ∧
          ((World.init bt nowA a nowB b).run schedule).bt.state.PeriodSpent =
            bt.state.PeriodSpent + b.Amount))) ∧
    (∀ schedule : List Bool, ∃ errA errB,
      ((World.init bt nowA a nowB b).run
          (schedule ++ (firstFirst ++ [false, false, false]))).first.stage = .returned errA ∧
      ((World.init bt nowA a nowB b).run
          (schedule ++ (firstFirst ++ [false, false, false]))).second.stage = .returned errB) ∧
    ((World.init bt nowA a nowB b).run firstFirst).first.stage = .returned none ∧
    ((World.init bt nowA a nowB b).run secondFirst).second.stage = .returned none := by
  have hAB := track_pair bt nowA a nowB b m hA hB fitA fitB hm joint
  have hBA := track_pair bt nowB b nowA a m hB hA fitB fitA hm (by linarith)
  refine ⟨?_, ?_, ?_, ?_⟩
  · intro schedule errA errB hfirst hsecond
    obtain ⟨-, h⟩ := returned_worlds bt nowA a nowB b _ errA errB
      (run_closed bt nowA a nowB b schedule _ (Or.inl rfl)) hfirst hsecond
    rcases h with ⟨h1, h2, h3⟩ | ⟨h1, h2, h3⟩
    · exact Or.inl ⟨h1.trans fitA, h2.trans hAB.1, by rw [h3]; exact hAB.2⟩
    · exact Or.inr ⟨h1.trans fitB, h2.trans hBA.1, by rw [h3]; exact hBA.2⟩
  · intro schedule
    have e : (World.init bt nowA a nowB b).run (schedule ++ (firstFirst ++ [false, false, false])) =
        ((World.init bt nowA a nowB b).run schedule).run (firstFirst ++ [false, false, false]) :=
      List.foldl_append _ _ _ _
    rw [e]
    exact run_completes bt nowA a nowB b _ (run_closed bt nowA a nowB b schedule _ (Or.inl rfl))
  · exact congrArg Stage.returned fitA
  · exact congrArg Stage.returned fitB

/-- A witness of the amended C30: two calls of 60 at the seconds 3 and 4, on
the tracker with a ceiling of 100. -/
theorem concurrent_tracks_one_succeeds_witness :
    ((World.init hundredBudget 3 (payment 60) 4 (payment 60)).run firstFirst).first.stage =
        .returned none ∧
      ((World.init hundredBudget 3 (payment 60) 4 (payment 60)).run secondFirst).second.stage =
        .returned none ∧
      ((World.init hundredBudget 3 (payment 60) 4 (payment 60)).run secondFirst).first.stage =
        .returned (some "amount exceeds period budget") :=
  ⟨(concurrent_tracks_one_succeeds hundredBudget 3 (payment 60) 4 (payment 60) 100
      (by decide) (by decide) (by decide) (by decide) rfl (by decide)).2.2.1,
    (concurrent_tracks_one_succeeds hundredBudget 3 (payment 60) 4 (payment 60) 100
      (by decide) (by decide) (by decide) (by decide) rfl (by decide)).2.2.2,
    by decide⟩

/-! ## Lemmas on sequences of calls -/

theorem track_cases (bt : BudgetTracker) (now : Nat) (record : PaymentRecord) :
    ((bt.Track now record).1 ≠ none ∧ (bt.Track now record).2 = bt.resetPeriodIfNeeded now) ∨
    ((bt.Track now record).1 = none ∧
      (bt.Track now record).2.state.TotalSpent = bt.state.TotalSpent + record.Amount ∧
      (bt.Track now record).2.state.PeriodSpent =
        (bt.resetPeriodIfNeeded now).state.PeriodSpent + record.Amount ∧
      (bt.Track now record).2.state.Records = bt.state.Records ++ [record]) := by
  by_cases h : (bt.Track now record).1 = none
  · refine Or.inr ⟨h, (track_state_of_success bt now record h).1, ?_,
      (track_state_of_success bt now record h).2⟩
    revert h
    unfold BudgetTracker.Track
    simp only
    split_ifs <;> simp
  · exact Or.inl ⟨h, track_state_of_error bt now record h⟩

theorem after_cases (bt : BudgetTracker) (op : Op) :
    (bt.accepted [op] = 0 ∧ ∃ now, bt.after op = bt.resetPeriodIfNeeded now) ∨
    (bt.accepted [op] = 1 ∧ ∃ now record, op = .track now record ∧
      (bt.Track now record).1 = none ∧
      (bt.after op).state.TotalSpent = bt.state.TotalSpent + record.Amount ∧
      (bt.after op).state.Records = bt.state.Records ++ [record]) := by
  cases op with
  | track now record =>
    rcases track_cases bt now record with ⟨h1, h2⟩ | ⟨h1, h2, -, h4⟩
    · exact Or.inl ⟨by simp [BudgetTracker.accepted, h1], now, h2⟩
    · exact Or.inr ⟨by simp [BudgetTracker.accepted, h1], now, record, rfl, h1, h2, h4⟩
  | check now amount payTo => exact Or.inl ⟨rfl, now, check_state bt now amount payTo⟩
  | remaining now => exact Or.inl ⟨rfl, now, remaining_state bt now⟩
  | isExhausted now => exact Or.inl ⟨rfl, now, isExhausted_state bt now⟩

theorem accepted_cons (bt : BudgetTracker) (op : Op) (rest : List Op) :
    bt.accepted (op :: rest) = bt.accepted [op] + (bt.after op).accepted rest := by
  simp [BudgetTracker.accepted]

theorem afterAll_ledger (ops : List Op) :
    ∀ bt : BudgetTracker,
      ∃ added : List PaymentRecord,
        (bt.afterAll ops).state.Records = bt.state.Records ++ added ∧
        (bt.afterAll ops).state.TotalSpent = bt.state.TotalSpent + recordsTotal added ∧
        added.length = bt.accepted ops := by
  induction ops with
  | nil => exact fun bt => ⟨[], by simp [BudgetTracker.afterAll], by simp [BudgetTracker.afterAll,
      recordsTotal], rfl⟩
  | cons op rest ih =>
    intro bt
    obtain ⟨added, h1, h2, h3⟩ := ih (bt.after op)
    have e : bt.afterAll (op :: rest) = (bt.after op).afterAll rest := rfl
    rw [e, accepted_cons]
    rcases after_cases bt op with ⟨hc, now, hs⟩ | ⟨hc, now, record, -, -, ht, hr⟩
    · obtain ⟨fT, fR, -⟩ := resetPeriodIfNeeded_frame bt now
      refine ⟨added, ?_, ?_, ?_⟩
      · rw [h1, hs, fR]
      · rw [h2, hs, fT]
      · rw [h3, hc, Nat.zero_add]
    · refine ⟨record :: added, ?_, ?_, ?_⟩
      · rw [h1, hr, List.append_assoc]
        rfl
      · rw [h2, ht]
        simp only [recordsTotal, List.map_cons, List.sum_cons]
        ring
      · rw [List.length_cons, h3, hc, Nat.add_comm]

theorem trackAll_totalSpent_mono (calls : List (Nat × PaymentRecord)) :
    ∀ bt : BudgetTracker, (∀ call ∈ calls, 0 ≤ call.2.Amount) →
      bt.state.TotalSpent ≤ (bt.trackAll calls).state.TotalSpent := by
  induction calls with
  | nil => exact fun bt _ => le_refl _
  | cons call rest ih =>
    intro bt h
    obtain ⟨now, record⟩ := call
    have h0 : 0 ≤ record.Amount := h (now, record) (List.mem_cons_self _ _)
    have hrest := ih (bt.Track now record).2 (fun c hc => h c (List.mem_cons_of_mem _ hc))
    have hstep : bt.state.TotalSpent ≤ (bt.Track now record).2.state.TotalSpent := by
      rcases track_cases bt now record with ⟨-, h2⟩ | ⟨-, h2, -, -⟩
      · rw [h2, (resetPeriodIfNeeded_frame bt now).1]
      · rw [h2]
        linarith
    exact le_trans hstep hrest

/-- C31, what the code does instead. `Track` has no check of the sign of the
amount: when the payee passes the allowlist, MaxPerRequest is nil or not
negative and the period total is within MaxPerPeriod, `Track` of a record with
Amount <= 0 returns nil, adds the amount to TotalSpent and to PeriodSpent, and
so leaves TotalSpent no greater than before. TotalSpent is non-decreasing
along sequences of `Track` calls whose amounts are all >= 0. -/
theorem track_accepts_non_positive (bt : BudgetTracker) (now : Nat) (record : PaymentRecord)
    (hamount : record.Amount ≤ 0)
    (hpayee : ¬ (bt.policy.AllowedPayees.len > 0 ∧ bt.policy.AllowedPayees.get record.PayTo ≠ true))
    (hrequest : ∀ m, bt.policy.MaxPerRequest = some m → 0 ≤ m)
    (hperiod : ∀ c, bt.policy.MaxPerPeriod = some c →
      (bt.resetPeriodIfNeeded now).state.PeriodSpent ≤ c) :
    (bt.Track now record).1 = none ∧
    (bt.Track now record).2.state.TotalSpent = bt.state.TotalSpent + record.Amount ∧
    (bt.Track now record).2.state.TotalSpent ≤ bt.state.TotalSpent ∧
    (bt.Track now record).2.state.PeriodSpent =
      (bt.resetPeriodIfNeeded now).state.PeriodSpent + record.Amount ∧
    (∀ calls : List (Nat × PaymentRecord), (∀ call ∈ calls, 0 ≤ call.2.Amount) →
      bt.state.TotalSpent ≤ (bt.trackAll calls).state.TotalSpent) := by
  have hnone : (bt.Track now record).1 = none := by
    rw [track_error_eq_check, check_none_iff]
    refine ⟨hpayee, ?_, ?_⟩
    · rintro ⟨m, hm, hgt⟩
      have := hrequest m hm
      linarith
    · rintro ⟨c, hc, hgt⟩
      have := hperiod c hc
      linarith
  rcases track_cases bt now record with ⟨h1, -⟩ | ⟨-, h2, h3, -⟩
  · exact absurd hnone h1
  · refine ⟨hnone, h2, ?_, h3, fun calls h => trackAll_totalSpent_mono calls bt h⟩
    rw [h2]
    linarith

/-- The failing input of C31: on the tracker of the test `cumulative tracking`,
`Track` of the amount -100 at time 1000 returns nil and leaves TotalSpent and
PeriodSpent at -100. -/
theorem track_accepts_non_positive_witness :
    (cumulativeTracker.Track 1000 (payment (-100))).1 = none ∧
    (cumulativeTracker.Track 1000 (payment (-100))).2.state.TotalSpent = -100 ∧
    (cumulativeTracker.Track 1000 (payment (-100))).2.state.PeriodSpent = -100 ∧
    (cumulativeTracker.Track 1000 (payment 0)).1 = none :=
  ⟨(track_accepts_non_positive cumulativeTracker 1000 (payment (-100)) (by decide) (by decide)
      (by decide) (by decide)).1,
    by decide, by decide, by decide⟩

/-- C32. Ledger consistency. For every tracker made by `NewBudgetTracker` and
every sequence of `Track`, `Check`, `Remaining` and `IsExhausted` calls at any
clock readings, TotalSpent is the sum of the Amount fields of Records, the
number of Records is the number of `Track` calls that returned nil, and the
Records after the sequence are a prefix of the Records after any longer
sequence. -/
theorem ledger_consistency (policy : X402Policy) (periodDuration start : Nat)
    (ops extra : List Op) :
    ((NewBudgetTracker policy periodDuration start).afterAll ops).state.TotalSpent =
      recordsTotal ((NewBudgetTracker policy periodDuration start).afterAll ops).state.Records ∧
    ((NewBudgetTracker policy periodDuration start).afterAll ops).state.Records.length =
      (NewBudgetTracker policy periodDuration start).accepted ops ∧
    ((NewBudgetTracker policy periodDuration start).afterAll ops).state.Records <+:
      ((NewBudgetTracker policy periodDuration start).afterAll (ops ++ extra)).state.Records := by
  obtain ⟨added, h1, h2, h3⟩ := afterAll_ledger ops (NewBudgetTracker policy periodDuration start)
  refine ⟨?_, ?_, ?_⟩
  · rw [h2, h1]
    simp [NewBudgetTracker]
  · rw [h1, ← h3]
    simp [NewBudgetTracker]
  · have e : (NewBudgetTracker policy periodDuration start).afterAll (ops ++ extra) =
        ((NewBudgetTracker policy periodDuration start).afterAll ops).afterAll extra :=
      List.foldl_append _ _ _ _
    obtain ⟨more, h4, -, -⟩ :=
      afterAll_ledger extra ((NewBudgetTracker policy periodDuration start).afterAll ops)
    rw [e, h4]
    exact List.prefix_append _ _

/-- C33, what the code does instead. With PeriodStart, PeriodDuration > 0 and
now in the range of a `uint64` and now >= PeriodStart: when PeriodStart +
PeriodDuration is below 2^64 the period is reset iff now - PeriodStart >=
PeriodDuration; when the sum reaches 2^64 it wraps around to a value below
PeriodStart, and the period is reset, with PeriodSpent set to 0 and PeriodStart
to now, although now - PeriodStart < PeriodDuration. -/
theorem reset_early_on_overflow (bt : BudgetTracker) (now : Nat)
    (hstart : bt.state.PeriodStart < 2 ^ 64)
    (hduration : 0 < bt.state.PeriodDuration ∧ bt.state.PeriodDuration < 2 ^ 64)
    (hnow : bt.state.PeriodStart ≤ now ∧ now < 2 ^ 64) :
    (bt.state.PeriodStart + bt.state.PeriodDuration < 2 ^ 64 →
      (bt.periodElapsed now = true ↔ now - bt.state.PeriodStart ≥ bt.state.PeriodDuration) ∧
      (bt.periodElapsed now = false → bt.resetPeriodIfNeeded now = bt)) ∧
    (bt.state.PeriodStart + bt.state.PeriodDuration ≥ 2 ^ 64 →
      now - bt.state.PeriodStart < bt.state.PeriodDuration ∧
      bt.periodElapsed now = true ∧
      (bt.resetPeriodIfNeeded now).state.PeriodSpent = 0 ∧
      (bt.resetPeriodIfNeeded now).state.PeriodStart = now) := by
  constructor
  · intro hsum
    refine ⟨?_, resetPeriodIfNeeded_of_not_elapsed bt now⟩
    simp only [BudgetTracker.periodElapsed, uint64Size, Bool.and_eq_true, decide_eq_true_eq]
    rw [Nat.mod_eq_of_lt hsum]
    omega
  · intro hsum
    have helapsed : bt.periodElapsed now = true := by
      simp only [BudgetTracker.periodElapsed, uint64Size, Bool.and_eq_true, decide_eq_true_eq]
      refine ⟨hduration.1, ?_⟩
      have e : (bt.state.PeriodStart + bt.state.PeriodDuration) % 2 ^ 64 =
          bt.state.PeriodStart + bt.state.PeriodDuration - 2 ^ 64 := by
        rw [Nat.mod_eq_sub_mod hsum]
        exact Nat.mod_eq_of_lt (by omega)
      rw [e]
      omega
    exact ⟨by omega, helapsed, resetPeriodIfNeeded_of_elapsed bt now helapsed⟩

/-- The failing input of C33: the period started at 1000 and lasts 2^64 - 1
seconds; at now = 1000, when no time has passed, the period is reset and the 5
spent are forgotten. -/
theorem reset_early_on_overflow_witness :
    1000 - wrappingTracker.state.PeriodStart < wrappingTracker.state.PeriodDuration ∧
    wrappingTracker.periodElapsed 1000 = true ∧
    (wrappingTracker.resetPeriodIfNeeded 1000).state.PeriodSpent = 0 ∧
    (wrappingTracker.resetPeriodIfNeeded 1000).state.PeriodStart = 1000 :=
  (reset_early_on_overflow wrappingTracker 1000 (by decide) (by decide) (by decide)).2
    (by decide)

/-- C37. `Config.MaxAmount` and `Config.BudgetPeriod` have no effect on
`RoundTrip`: a transport and the same transport with any other MaxAmount and
BudgetPeriod return the same response and error, leave the same budget and
dispatch the same requests, for every request and clock reading. The transport
with MaxAmount 1 pays the requirement of 1000: it returns the response of the
retry and records the 1000 in the budget. -/
theorem config_ceiling_not_read (t : X402Transport) (lib : Lib) (clock : Clock) (req : Request)
    (maxAmount : Option Int) (budgetPeriod : Nat) :
    X402Transport.RoundTrip
        { t with Config := { t.Config with MaxAmount := maxAmount, BudgetPeriod := budgetPeriod } }
        lib clock req =
      t.RoundTrip lib clock req ∧
    (cappedTransport.RoundTrip exampleLib ⟨1000, 1000, []⟩ exampleRequest).resp =
      some { StatusCode := 200, Body := some "paid" } ∧
    (cappedTransport.RoundTrip exampleLib ⟨1000, 1000, []⟩ exampleRequest).err = none ∧
    (cappedTransport.RoundTrip exampleLib ⟨1000, 1000, []⟩ exampleRequest).budget.map
        (fun b => (b.state.TotalSpent, b.state.Records.map (fun r => r.Amount))) =
      some (1000, [1000]) ∧
    cappedTransport.Config.MaxAmount = some 1 := by
  refine ⟨rfl, ?_, ?_, ?_, rfl⟩ <;> decide

end X402

namespace policy

/-! ## IsAllowed -/

/-- C14. `IsAllowed` is the conjunction of two gates: it is true iff the policy
is not nil, its ContractAllowlist is absent or maps the contract to true, and
its FunctionAllowlist is absent or maps to true the hexadecimal of the first 4
bytes of the hash of the signature. So it is false for the nil policy, true for
a policy without allowlists, and false under a present, empty allowlist. -/
theorem isAllowed_two_gates (keccak : List Nat → List Nat) (contract : X402.Address)
    (functionSig : String) :
    (∀ p : Option Policy,
      IsAllowed keccak p contract functionSig = true ↔
        ∃ q, p = some q ∧
          (q.ContractAllowlist = none ∨
            ∃ al, q.ContractAllowlist = some al ∧ al.Contracts.get contract = true) ∧
          (q.FunctionAllowlist = none ∨
            ∃ al, q.FunctionAllowlist = some al ∧
              al.Functions.get (hexEncode ((keccak (X402.stringBytes functionSig)).take 4)) =
                true)) ∧
    IsAllowed keccak none contract functionSig = false ∧
    (∀ q : Policy, q.ContractAllowlist = none → q.FunctionAllowlist = none →
      IsAllowed keccak (some q) contract functionSig = true) ∧
    (∀ q : Policy,
      (q.ContractAllowlist = some { Contracts := some [] } ∨
        q.ContractAllowlist = some { Contracts := none } ∨
        q.FunctionAllowlist = some { Functions := some [] } ∨
        q.FunctionAllowlist = some { Functions := none }) →
      IsAllowed keccak (some q) contract functionSig = false) := by
  refine ⟨?_, rfl, ?_, ?_⟩
  · intro p
    cases p with
    | none => simp [IsAllowed]
    | some q =>
      unfold IsAllowed selectorHex
      cases hc : q.ContractAllowlist <;> cases hf : q.FunctionAllowlist <;> simp [hc, hf]
  · intro q hc hf
    simp [IsAllowed, hc, hf]
  · intro q h
    rcases h with h | h | h | h
    · simp [IsAllowed, h, X402.BoolMap.get]
    · simp [IsAllowed, h, X402.BoolMap.get]
    · cases hc : q.ContractAllowlist <;> simp [IsAllowed, h, hc, X402.BoolMap.get]
    · cases hc : q.ContractAllowlist <;> simp [IsAllowed, h, hc, X402.BoolMap.get]

/-- A witness of C14: the policy without allowlists allows, the policy with a
present and empty contract allowlist denies. -/
theorem isAllowed_two_gates_witness :
    IsAllowed plainKeccak (some emptyPolicy) 17 "transfer(address,uint256)" = true ∧
    IsAllowed plainKeccak (some denyAllPolicy) 17 "transfer(address,uint256)" = false :=
  ⟨(isAllowed_two_gates plainKeccak 17 "transfer(address,uint256)").2.2.1 emptyPolicy rfl rfl,
    (isAllowed_two_gates plainKeccak 17 "transfer(address,uint256)").2.2.2 denyAllPolicy
      (Or.inl rfl)⟩

/-- C15, at the failing input: the policy whose contract allowlist is present
and empty denies every contract, its composition alone has no contract
allowlist and allows every contract. -/
theorem compose_drops_empty_allowlist (contract : X402.Address) (functionSig : String) :
    denyAllPolicy.ContractAllowlist = some { Contracts := some [] } ∧
    (ComposePolicy [some denyAllPolicy]).ContractAllowlist = none ∧
    IsAllowed plainKeccak (some denyAllPolicy) contract functionSig = false ∧
    IsAllowed plainKeccak (some (ComposePolicy [some denyAllPolicy])) contract functionSig =
      true := by
  refine ⟨rfl, rfl, ?_, ?_⟩
  · simp [IsAllowed, denyAllPolicy, NewContractAllowlist, X402.BoolMap.get]
  · have h : ComposePolicy [some denyAllPolicy] = emptyPolicy := by decide
    rw [h]
    simp [IsAllowed, emptyPolicy]

/-! ## ComposePolicy: spending limits -/

theorem foldl_composeStep_limits (ps : List (Option Policy)) (c : Composition) :
    (ps.foldl composeStep c).composed.SpendingLimits =
      c.composed.SpendingLimits ++ ps.reduceOption.flatMap (fun p => p.SpendingLimits) := by
  induction ps generalizing c with
  | nil => simp
  | cons p ps ih =>
    cases p with
    | none => simp [composeStep, ih, List.reduceOption_cons_of_none]
    | some p => simp [composeStep, ih, List.reduceOption_cons_of_some, List.append_assoc]

theorem foldl_composeStep_of_nil (ps : List (Option Policy)) (c : Composition)
    (h : ∀ p ∈ ps, p = none) : ps.foldl composeStep c = c := by
  induction ps generalizing c with
  | nil => rfl
  | cons p ps ih =>
    have hp : p = none := h p (List.mem_cons_self _ _)
    subst hp
    simp only [List.foldl_cons, composeStep]
    exact ih c (fun q hq => h q (List.mem_cons_of_mem _ hq))

theorem composePolicy_limits (ps : List (Option Policy)) :
    (ComposePolicy ps).SpendingLimits = ps.reduceOption.flatMap (fun p => p.SpendingLimits) := by
  simp [ComposePolicy, foldl_composeStep_limits, Composition.init]

/-- C19. Spending limits are concatenated: the SpendingLimits of
`ComposePolicy` is the concatenation, in input order, of the SpendingLimits of
the inputs that are not nil, and its length is the sum of their lengths. For
no policies, or only nil policies, the result has empty spending limits and no
allowlist, time window or rate limit. -/
theorem compose_concatenates_limits (policies : List (Option Policy)) :
    (ComposePolicy policies).SpendingLimits =
      policies.reduceOption.flatMap (fun p => p.SpendingLimits) ∧
    (ComposePolicy policies).SpendingLimits.length =
      (policies.reduceOption.map (fun p => p.SpendingLimits.length)).sum ∧
    ((∀ p ∈ policies, p = none) →
      (ComposePolicy policies).SpendingLimits = [] ∧
      (ComposePolicy policies).ContractAllowlist = none ∧
      (ComposePolicy policies).FunctionAllowlist = none ∧
      (ComposePolicy policies).TimeWindow = none ∧
      (ComposePolicy policies).RateLimit = none) ∧
    ((ComposePolicy []).SpendingLimits = [] ∧
      (ComposePolicy []).ContractAllowlist = none ∧
      (ComposePolicy []).FunctionAllowlist = none ∧
      (ComposePolicy []).TimeWindow = none ∧
      (ComposePolicy []).RateLimit = none) := by
  refine ⟨composePolicy_limits policies, ?_, ?_, ⟨rfl, rfl, rfl, rfl, rfl⟩⟩
  · rw [composePolicy_limits]
    simp [List.length_flatMap, Function.comp_def]
  · intro h
    have hc : ComposePolicy policies = Composition.init.composed := by
      unfold ComposePolicy
      rw [foldl_composeStep_of_nil policies _ h]
      rfl
    rw [hc]
    exact ⟨rfl, rfl, rfl, rfl, rfl⟩

/-- A witness of C19: the test `nil policies skipped`. -/
theorem compose_concatenates_limits_witness :
    (ComposePolicy [none, none]).SpendingLimits = [] ∧
    (ComposePolicy [none, none]).ContractAllowlist = none ∧
    (ComposePolicy [none, none]).FunctionAllowlist = none ∧
    (ComposePolicy [none, none]).TimeWindow = none ∧
    (ComposePolicy [none, none]).RateLimit = none :=
  (compose_concatenates_limits [none, none]).2.2.1 (by decide)

/-! ## ValidatePolicy -/

theorem validateSpendingLimits_eq (limits : List SpendingLimit) (tail : List (Bool × String)) :
    ((limits.flatMap (fun sl =>
        [ (decide (¬ ∃ m, sl.MaxAmount = some m ∧ m > 0), "invalid spending limit amount"),
          (decide (¬ sl.Period > 0), "invalid spending limit period") ]) ++ tail).find?
        (fun check => check.1)).map (fun check => check.2) =
      match validateSpendingLimits limits with
      | some err => some err
      | none => (tail.find? (fun check => check.1)).map (fun check => check.2) := by
  induction limits with
  | nil => simp [validateSpendingLimits]
  | cons sl rest ih =>
    simp only [List.flatMap_cons, List.cons_append, List.nil_append, validateSpendingLimits]
    cases hm : sl.MaxAmount with
    | none => simp
    | some m =>
      by_cases hpos : m ≤ 0
      · have : ¬ m > 0 := by omega
        simp [hpos, this]
      · have hgt : m > 0 := by omega
        simp only [hpos, decide_False, Bool.false_eq_true, if_false]
        by_cases hper : sl.Period ≤ 0
        · have : ¬ sl.Period > 0 := not_lt.2 hper
          simp [hgt, hper, this]
        · have hpgt : sl.Period > 0 := not_le.1 hper
          simp only [hper, if_false]
          rw [← ih]
          simp [hgt, hpgt]

theorem validatePolicy_eq_spec (p : Policy) :
    ValidatePolicy (some p) = specFirstViolation p := by
  unfold specFirstViolation specViolations ValidatePolicy
  simp only
  rw [List.append_assoc, validateSpendingLimits_eq]
  cases hsl : validateSpendingLimits p.SpendingLimits with
  | some err => rfl
  | none =>
    simp only
    cases htw : p.TimeWindow with
    | none =>
      simp only [List.nil_append]
      cases hrl : p.RateLimit with
      | none => simp
      | some rl =>
        by_cases h1 : rl.MaxCalls = 0
        · simp [h1]
        · have h1b : rl.MaxCalls > 0 := Nat.pos_of_ne_zero h1
          by_cases h2 : rl.Period ≤ 0
          · have : ¬ rl.Period > 0 := not_lt.2 h2
            simp [h1, h1b, h2, this]
          · have : rl.Period > 0 := not_le.1 h2
            simp [h1, h1b, h2, this]
    | some tw =>
      simp only [Time.IsZero, Time.After]
      by_cases ha : tw.End ≠ 0 ∧ tw.Start > tw.End
      · simp [ha.1, ha.2]
      · have ha2 : ¬ ((!decide (tw.End = 0) && decide (tw.Start > tw.End)) = true) := by
          simpa using ha
        rw [if_neg ha2]
        by_cases hb : tw.Hours.1 < 0 ∨ tw.Hours.1 > 23
        · have hb2 : ¬ (0 ≤ tw.Hours.1 ∧ tw.Hours.1 ≤ 23) := by omega
          simp [ha, hb, hb2]
        · have hb2 : 0 ≤ tw.Hours.1 ∧ tw.Hours.1 ≤ 23 := by omega
          rw [if_neg hb]
          by_cases hc : tw.Hours.2 < 0 ∨ tw.Hours.2 > 23
          · have hc2 : ¬ (0 ≤ tw.Hours.2 ∧ tw.Hours.2 ≤ 23) := by omega
            simp [ha, hb2, hc, hc2]
          · have hc2 : 0 ≤ tw.Hours.2 ∧ tw.Hours.2 ≤ 23 := by omega
            rw [if_neg hc]
            simp only
            cases hrl : p.RateLimit with
            | none => simp [ha, hb2, hc2]
            | some rl =>
              by_cases h1 : rl.MaxCalls = 0
              · simp [ha, hb2, hc2, h1]
              · have h1b : rl.MaxCalls > 0 := Nat.pos_of_ne_zero h1
                by_cases h2 : rl.Period ≤ 0
                · have : ¬ rl.Period > 0 := not_lt.2 h2
                  simp [ha, hb2, hc2, h1, h1b, h2, this]
                · have : rl.Period > 0 := not_le.1 h2
                  simp [ha, hb2, hc2, h1, h1b, h2, this]

/-- C20. `ValidatePolicy` accepts exactly the well-formed policies and reports
the first violation. A nil policy is rejected with 'nil policy'. For a policy
that is not nil, the result is nil iff every SpendingLimit has a MaxAmount that
is not nil and above 0 and a Period above 0; the TimeWindow is absent, or its
End is zero or its Start is not after its End, and both Hours lie in [0,23];
and the RateLimit is absent, or its MaxCalls and Period are above 0. The error
returned is that of the first violated check in the order: the spending
limits in list order, amount before period; the time window: start after end,
start hour, end hour; the rate limit: max calls, period. -/
theorem validatePolicy_first_violation (p : Policy) :
    ValidatePolicy none = some "nil policy" ∧
    (ValidatePolicy (some p) = none ↔
      (∀ sl ∈ p.SpendingLimits, (∃ m, sl.MaxAmount = some m ∧ m > 0) ∧ sl.Period > 0) ∧
      (∀ tw, p.TimeWindow = some tw →
        (tw.End = 0 ∨ ¬ tw.Start > tw.End) ∧
        (0 ≤ tw.Hours.1 ∧ tw.Hours.1 ≤ 23) ∧ (0 ≤ tw.Hours.2 ∧ tw.Hours.2 ≤ 23)) ∧
      (∀ rl, p.RateLimit = some rl → rl.MaxCalls > 0 ∧ rl.Period > 0)) ∧
    ValidatePolicy (some p) = specFirstViolation p := by
  refine ⟨rfl, ?_, validatePolicy_eq_spec p⟩
  rw [validatePolicy_eq_spec]
  unfold specFirstViolation specViolations
  rw [Option.map_eq_none', List.find?_eq_none]
  constructor
  · intro h
    refine ⟨?_, ?_, ?_⟩
    · intro sl hsl
      have h1 := h (decide (¬ ∃ m, sl.MaxAmount = some m ∧ m > 0),
        "invalid spending limit amount") (by
          simp only [List.mem_append, List.mem_flatMap]
          exact Or.inl (Or.inl ⟨sl, hsl, by simp⟩))
      have h2 := h (decide (¬ sl.Period > 0), "invalid spending limit period") (by
          simp only [List.mem_append, List.mem_flatMap]
          exact Or.inl (Or.inl ⟨sl, hsl, by simp⟩))
      simp only [decide_eq_true_eq, not_not] at h1 h2
      exact ⟨h1, h2⟩
    · intro tw htw
      have hmem : ∀ check ∈
          [ (decide (tw.End ≠ 0 ∧ tw.Start > tw.End), "time window start after end"),
            (decide (¬ (0 ≤ tw.Hours.1 ∧ tw.Hours.1 ≤ 23)), "invalid start hour"),
            (decide (¬ (0 ≤ tw.Hours.2 ∧ tw.Hours.2 ≤ 23)), "invalid end hour") ],
          ¬ check.1 = true := by
        intro check hcheck
        apply h
        simp only [List.mem_append, htw]
        exact Or.inl (Or.inr hcheck)
      have h1 := hmem _ (List.mem_cons_self _ _)
      have h2 := hmem _ (List.mem_cons_of_mem _ (List.mem_cons_self _ _))
      have h3 := hmem _ (List.mem_cons_of_mem _ (List.mem_cons_of_mem _ (List.mem_cons_self _ _)))
      simp only [decide_eq_true_eq, not_not] at h1 h2 h3
      refine ⟨?_, h2, h3⟩
      by_cases he : tw.End = 0
      · exact Or.inl he
      · exact Or.inr (fun hgt => h1 ⟨he, hgt⟩)
    · intro rl hrl
      have hmem : ∀ check ∈
          [ (decide (¬ rl.MaxCalls > 0), "rate limit max calls must be positive"),
            (decide (¬ rl.Period > 0), "invalid rate limit period") ],
          ¬ check.1 = true := by
        intro check hcheck
        apply h
        simp only [List.mem_append, hrl]
        exact Or.inr hcheck
      have h1 := hmem _ (List.mem_cons_self _ _)
      have h2 := hmem _ (List.mem_cons_of_mem _ (List.mem_cons_self _ _))
      simp only [decide_eq_true_eq, not_not] at h1 h2
      exact ⟨h1, h2⟩
  · rintro ⟨hsl, htw, hrl⟩ check hcheck
    simp only [List.mem_append, List.mem_flatMap] at hcheck
    rcases hcheck with (⟨sl, hmem, hc⟩ | hc) | hc
    · obtain ⟨h1, h2⟩ := hsl sl hmem
      simp only [List.mem_cons, List.mem_singleton, List.not_mem_nil, or_false] at hc
      rcases hc with hc | hc <;> simp [hc, h1, h2]
    · cases hw : p.TimeWindow with
      | none => simp [hw] at hc
      | some tw =>
        obtain ⟨h1, h2, h3⟩ := htw tw hw
        simp only [hw, List.mem_cons, List.mem_singleton, List.not_mem_nil, or_false] at hc
        rcases hc with hc | hc | hc
        · rw [hc]
          simp only [decide_eq_true_eq]
          rintro ⟨hne, hgt⟩
          rcases h1 with h1 | h1
          · exact hne h1
          · exact h1 hgt
        · simp [hc, h2]
        · simp [hc, h3]
    · cases hr : p.RateLimit with
      | none => simp [hr] at hc
      | some rl =>
        obtain ⟨h1, h2⟩ := hrl rl hr
        simp only [hr, List.mem_cons, List.mem_singleton, List.not_mem_nil, or_false] at hc
        rcases hc with hc | hc <;> simp [hc, h1, h2]

/-- A witness of C20 on cases of `TestValidatePolicy`: a limit of 1000 per
hour is valid; a nil amount before a period of 0 reports the amount. -/
theorem validatePolicy_first_violation_witness :
    ValidatePolicy (some (limitsPolicy [limitOf (some 1000) hour])) = none ∧
    ValidatePolicy (some (limitsPolicy [limitOf (some 1000) hour, limitOf none 0])) =
      some "invalid spending limit amount" :=
  ⟨(validatePolicy_first_violation (limitsPolicy [limitOf (some 1000) hour])).2.1.2
      (by decide),
    ((validatePolicy_first_violation
      (limitsPolicy [limitOf (some 1000) hour, limitOf none 0])).2.2).trans (by decide)⟩

/-! ## ComposePolicy: allowlists -/

theorem get_cons {κ : Type} [DecidableEq κ] (k c : κ) (v : Bool) (acc : List (κ × Bool)) :
    X402.BoolMap.get (some ((k, v) :: acc)) c =
      if c = k then v else X402.BoolMap.get (some acc) c := by
  simp only [X402.BoolMap.get, List.lookup_cons]
  by_cases h : c = k
  · subst h
    simp
  · have hb : (c == k) = false := by simpa using h
    simp [hb, h]

theorem get_true_mem_keys {κ : Type} [DecidableEq κ] (m : X402.BoolMap κ) (c : κ)
    (h : m.get c = true) : c ∈ keys m := by
  cases m with
  | none => simp [X402.BoolMap.get] at h
  | some es =>
    induction es with
    | nil => simp [X402.BoolMap.get] at h
    | cons e es ih =>
      obtain ⟨k, v⟩ := e
      rw [get_cons] at h
      by_cases hc : c = k
      · subst hc
        simp [keys]
      · rw [if_neg hc] at h
        have := ih h
        simp only [keys, List.map_cons, List.mem_cons] at this ⊢
        exact Or.inr this

theorem foldl_insert_get {κ : Type} [DecidableEq κ] (m : X402.BoolMap κ) (ks : List κ)
    (acc : List (κ × Bool)) (c : κ) :
    X402.BoolMap.get
        (some (ks.foldl (fun acc k => if m.get k then (k, true) :: acc else acc) acc)) c = true ↔
      X402.BoolMap.get (some acc) c = true ∨ (c ∈ ks ∧ m.get c = true) := by
  induction ks generalizing acc with
  | nil => simp
  | cons k ks ih =>
    simp only [List.foldl_cons, List.mem_cons]
    rw [ih]
    by_cases hk : m.get k = true
    · rw [if_pos hk, get_cons]
      by_cases hc : c = k
      · subst hc
        simp [hk]
      · simp [hc]
    · rw [if_neg hk]
      constructor
      · rintro (h | ⟨h1, h2⟩)
        · exact Or.inl h
        · exact Or.inr ⟨Or.inr h1, h2⟩
      · rintro (h | ⟨h1 | h1, h2⟩)
        · exact Or.inl h
        · subst h1
          exact absurd h2 hk
        · exact Or.inr ⟨h1, h2⟩

theorem collectAllowed_get {κ : Type} [DecidableEq κ] (acc : List (κ × Bool))
    (m : X402.BoolMap κ) (c : κ) :
    X402.BoolMap.get (some (collectAllowed acc m)) c = true ↔
      X402.BoolMap.get (some acc) c = true ∨ m.get c = true := by
  unfold collectAllowed
  rw [foldl_insert_get]
  constructor
  · rintro (h | ⟨-, h⟩)
    · exact Or.inl h
    · exact Or.inr h
  · rintro (h | h)
    · exact Or.inl h
    · exact Or.inr ⟨get_true_mem_keys m c h, h⟩

theorem foldl_composeStep_contracts (ps : List (Option Policy)) (c : Composition)
    (a : X402.Address) :
    X402.BoolMap.get (some (ps.foldl composeStep c).contracts) a = true ↔
      X402.BoolMap.get (some c.contracts) a = true ∨
        ∃ p al, some p ∈ ps ∧ p.ContractAllowlist = some al ∧ al.Contracts.get a = true := by
  induction ps generalizing c with
  | nil => simp
  | cons q ps ih =>
    simp only [List.foldl_cons]
    rw [ih]
    cases q with
    | none => simp [composeStep]
    | some q =>
      cases hq : q.ContractAllowlist with
      | none =>
        simp only [composeStep, hq, List.mem_cons]
        constructor
        · rintro (h | ⟨p, al, hp, hal, hget⟩)
          · exact Or.inl h
          · exact Or.inr ⟨p, al, Or.inr hp, hal, hget⟩
        · rintro (h | ⟨p, al, hp | hp, hal, hget⟩)
          · exact Or.inl h
          · cases hp
            rw [hq] at hal
            cases hal
          · exact Or.inr ⟨p, al, hp, hal, hget⟩
      | some qal =>
        simp only [composeStep, hq, List.mem_cons, collectAllowed_get]
        constructor
        · rintro ((h | h) | ⟨p, al, hp, hal, hget⟩)
          · exact Or.inl h
          · exact Or.inr ⟨q, qal, Or.inl rfl, hq, h⟩
          · exact Or.inr ⟨p, al, Or.inr hp, hal, hget⟩
        · rintro (h | ⟨p, al, hp | hp, hal, hget⟩)
          · exact Or.inl (Or.inl h)
          · cases hp
            rw [hq] at hal
            cases hal
            exact Or.inl (Or.inr hget)
          · exact Or.inr ⟨p, al, hp, hal, hget⟩

theorem foldl_composeStep_functions (ps : List (Option Policy)) (c : Composition)
    (a : String) :
    X402.BoolMap.get (some (ps.foldl composeStep c).functions) a = true ↔
      X402.BoolMap.get (some c.functions) a = true ∨
        ∃ p al, some p ∈ ps ∧ p.FunctionAllowlist = some al ∧ al.Functions.get a = true := by
  induction ps generalizing c with
  | nil => simp
  | cons q ps ih =>
    simp only [List.foldl_cons]
    rw [ih]
    cases q with
    | none => simp [composeStep]
    | some q =>
      cases hq : q.FunctionAllowlist with
      | none =>
        simp only [composeStep, hq, List.mem_cons]
        constructor
        · rintro (h | ⟨p, al, hp, hal, hget⟩)
          · exact Or.inl h
          · exact Or.inr ⟨p, al, Or.inr hp, hal, hget⟩
        · rintro (h | ⟨p, al, hp | hp, hal, hget⟩)
          · exact Or.inl h
          · cases hp
            rw [hq] at hal
            cases hal
          · exact Or.inr ⟨p, al, hp, hal, hget⟩
      | some qal =>
        simp only [composeStep, hq, List.mem_cons, collectAllowed_get]
        constructor
        · rintro ((h | h) | ⟨p, al, hp, hal, hget⟩)
          · exact Or.inl h
          · exact Or.inr ⟨q, qal, Or.inl rfl, hq, h⟩
          · exact Or.inr ⟨p, al, Or.inr hp, hal, hget⟩
        · rintro (h | ⟨p, al, hp | hp, hal, hget⟩)
          · exact Or.inl (Or.inl h)
          · cases hp
            rw [hq] at hal
            cases hal
            exact Or.inl (Or.inr hget)
          · exact Or.inr ⟨p, al, hp, hal, hget⟩

theorem foldl_composeStep_allowlists (ps : List (Option Policy)) (c : Composition) :
    (ps.foldl composeStep c).composed.ContractAllowlist = c.composed.ContractAllowlist ∧
    (ps.foldl composeStep c).composed.FunctionAllowlist = c.composed.FunctionAllowlist := by
  induction ps generalizing c with
  | nil => exact ⟨rfl, rfl⟩
  | cons q ps ih =>
    simp only [List.foldl_cons]
    rw [(ih _).1, (ih _).2]
    cases q <;> exact ⟨rfl, rfl⟩

theorem foldl_composeStep_no_allowlist (ps : List (Option Policy)) (c : Composition) :
    ((∀ p, some p ∈ ps → p.ContractAllowlist = none) →
      (ps.foldl composeStep c).contracts = c.contracts) ∧
    ((∀ p, some p ∈ ps → p.FunctionAllowlist = none) →
      (ps.foldl composeStep c).functions = c.functions) := by
  induction ps generalizing c with
  | nil => exact ⟨fun _ => rfl, fun _ => rfl⟩
  | cons q ps ih =>
    simp only [List.foldl_cons]
    constructor
    · intro h
      rw [(ih _).1 (fun p hp => h p (List.mem_cons_of_mem _ hp))]
      cases q with
      | none => rfl
      | some q => simp [composeStep, h q (List.mem_cons_self _ _)]
    · intro h
      rw [(ih _).2 (fun p hp => h p (List.mem_cons_of_mem _ hp))]
      cases q with
      | none => rfl
      | some q => simp [composeStep, h q (List.mem_cons_self _ _)]

/-- C16. Allowlists are unioned by composition. The composed ContractAllowlist
maps an address to true iff some input policy that is not nil has a
ContractAllowlist that maps it to true; the composed FunctionAllowlist maps a
selector to true iff some input's FunctionAllowlist does; and a composed
allowlist is absent when no input has that allowlist. -/
theorem compose_unions_allowlists (policies : List (Option Policy)) :
    (∀ a : X402.Address,
      (∃ al, (ComposePolicy policies).ContractAllowlist = some al ∧
          al.Contracts.get a = true) ↔
        ∃ p al, some p ∈ policies ∧ p.ContractAllowlist = some al ∧
          al.Contracts.get a = true) ∧
    (∀ selector : String,
      (∃ al, (ComposePolicy policies).FunctionAllowlist = some al ∧
          al.Functions.get selector = true) ↔
        ∃ p al, some p ∈ policies ∧ p.FunctionAllowlist = some al ∧
          al.Functions.get selector = true) ∧
    ((∀ p, some p ∈ policies → p.ContractAllowlist = none) →
      (ComposePolicy policies).ContractAllowlist = none) ∧
    ((∀ p, some p ∈ policies → p.FunctionAllowlist = none) →
      (ComposePolicy policies).FunctionAllowlist = none) := by
  have hkeep := foldl_composeStep_allowlists policies Composition.init
  have hc : (ComposePolicy policies).ContractAllowlist =
      if (policies.foldl composeStep Composition.init).contracts.length > 0 then
        some { Contracts := some (policies.foldl composeStep Composition.init).contracts }
      else none := by
    simp only [ComposePolicy, hkeep.1]
    rfl
  have hf : (ComposePolicy policies).FunctionAllowlist =
      if (policies.foldl composeStep Composition.init).functions.length > 0 then
        some { Functions := some (policies.foldl composeStep Composition.init).functions }
      else none := by
    simp only [ComposePolicy, hkeep.2]
    rfl
  refine ⟨?_, ?_, ?_, ?_⟩
  · intro a
    have hget := foldl_composeStep_contracts policies Composition.init a
    have hinit : X402.BoolMap.get (some Composition.init.contracts) a = false := rfl
    rw [hinit] at hget
    simp only [Bool.false_eq_true, false_or] at hget
    rw [← hget, hc]
    by_cases hlen : (policies.foldl composeStep Composition.init).contracts.length > 0
    · rw [if_pos hlen]
      constructor
      · rintro ⟨al, hal, hg⟩
        cases hal
        exact hg
      · intro hg
        exact ⟨_, rfl, hg⟩
    · rw [if_neg hlen]
      have hnil : (policies.foldl composeStep Composition.init).contracts = [] :=
        List.length_eq_zero.1 (by omega)
      rw [hnil]
      constructor
      · rintro ⟨al, hal, -⟩
        cases hal
      · intro hg
        simp [X402.BoolMap.get] at hg
  · intro a
    have hget := foldl_composeStep_functions policies Composition.init a
    have hinit : X402.BoolMap.get (some Composition.init.functions) a = false := rfl
    rw [hinit] at hget
    simp only [Bool.false_eq_true, false_or] at hget
    rw [← hget, hf]
    by_cases hlen : (policies.foldl composeStep Composition.init).functions.length > 0
    · rw [if_pos hlen]
      constructor
      · rintro ⟨al, hal, hg⟩
        cases hal
        exact hg
      · intro hg
        exact ⟨_, rfl, hg⟩
    · rw [if_neg hlen]
      have hnil : (policies.foldl composeStep Composition.init).functions = [] :=
        List.length_eq_zero.1 (by omega)
      rw [hnil]
      constructor
      · rintro ⟨al, hal, -⟩
        cases hal
      · intro hg
        simp [X402.BoolMap.get] at hg
  · intro h
    rw [hc, (foldl_composeStep_no_allowlist policies Composition.init).1 h]
    rfl
  · intro h
    rw [hf, (foldl_composeStep_no_allowlist policies Composition.init).2 h]
    rfl

/-- A witness of C16: two policies without allowlists compose to a policy
without allowlists. -/
theorem compose_unions_allowlists_witness :
    (ComposePolicy [some emptyPolicy, some (ratePolicy 100 hour)]).ContractAllowlist = none ∧
    (ComposePolicy [some emptyPolicy, some (ratePolicy 100 hour)]).FunctionAllowlist = none :=
  ⟨(compose_unions_allowlists [some emptyPolicy, some (ratePolicy 100 hour)]).2.2.1 (by
      intro p hp
      simp only [List.mem_cons, Option.some.injEq, List.mem_singleton, List.not_mem_nil,
        or_false] at hp
      rcases hp with h | h <;> (subst h; rfl)),
    (compose_unions_allowlists [some emptyPolicy, some (ratePolicy 100 hour)]).2.2.2 (by
      intro p hp
      simp only [List.mem_cons, Option.some.injEq, List.mem_singleton, List.not_mem_nil,
        or_false] at hp
      rcases hp with h | h <;> (subst h; rfl))⟩

/-! ## ComposePolicy: rate limits -/

theorem mem_inputs_iff {β : Type} (f : Policy → Option β) (ps : List (Option Policy)) (x : β) :
    x ∈ ps.reduceOption.filterMap f ↔ ∃ p, some p ∈ ps ∧ f p = some x := by
  simp [List.mem_filterMap, List.reduceOption_mem_iff]

theorem foldl_composeStep_rateLimit (ps : List (Option Policy)) (c : Composition) :
    (ps.foldl composeStep c).composed.RateLimit =
      (ps.reduceOption.filterMap (fun p => p.RateLimit)).foldl
        (fun cur rl => mergeRateLimit cur rl) c.composed.RateLimit := by
  induction ps generalizing c with
  | nil => rfl
  | cons q ps ih =>
    simp only [List.foldl_cons]
    rw [ih]
    cases q with
    | none => simp [composeStep, List.reduceOption_cons_of_none]
    | some q =>
      cases hq : q.RateLimit <;>
        simp [composeStep, hq, List.reduceOption_cons_of_some, List.filterMap_cons]

theorem composePolicy_rateLimit (ps : List (Option Policy)) :
    (ComposePolicy ps).RateLimit =
      (ps.reduceOption.filterMap (fun p => p.RateLimit)).foldl
        (fun cur rl => mergeRateLimit cur rl) none := by
  simp only [ComposePolicy, foldl_composeStep_rateLimit]
  rfl

theorem mergeRateLimit_some (a w : RateLimit) :
    ∃ m, mergeRateLimit (some a) w = some m ∧
      (m.MaxCalls = a.MaxCalls ∨ m.MaxCalls = w.MaxCalls) ∧
      m.MaxCalls ≤ a.MaxCalls ∧ m.MaxCalls ≤ w.MaxCalls ∧
      (m.Period = a.Period ∨ m.Period = w.Period) ∧
      a.Period ≤ m.Period ∧ w.Period ≤ m.Period := by
  unfold mergeRateLimit
  by_cases h1 : w.MaxCalls < a.MaxCalls <;> by_cases h2 : w.Period > a.Period
  · refine ⟨_, rfl, ?_⟩
    simp [h1, h2, le_of_lt h1, le_of_lt h2]
  · refine ⟨_, rfl, ?_⟩
    simp [h1, h2, le_of_lt h1, not_lt.1 h2]
  · refine ⟨_, rfl, ?_⟩
    simp [h1, h2, not_lt.1 h1, le_of_lt h2]
  · refine ⟨_, rfl, ?_⟩
    simp [h1, h2, not_lt.1 h1, not_lt.1 h2]

theorem foldl_mergeRateLimit (rs : List RateLimit) (a : RateLimit) :
    ∃ r, rs.foldl (fun cur rl => mergeRateLimit cur rl) (some a) = some r ∧
      (∃ x ∈ a :: rs, r.MaxCalls = x.MaxCalls) ∧ (∀ x ∈ a :: rs, r.MaxCalls ≤ x.MaxCalls) ∧
      (∃ x ∈ a :: rs, r.Period = x.Period) ∧ (∀ x ∈ a :: rs, x.Period ≤ r.Period) := by
  induction rs generalizing a with
  | nil =>
    refine ⟨a, rfl, ⟨a, List.mem_cons_self _ _, rfl⟩, ?_, ⟨a, List.mem_cons_self _ _, rfl⟩, ?_⟩
    · intro x hx
      simp only [List.mem_singleton] at hx
      rw [hx]
    · intro x hx
      simp only [List.mem_singleton] at hx
      rw [hx]
  | cons w rs ih =>
    obtain ⟨m, hm, hc, hca, hcw, hp, hpa, hpw⟩ := mergeRateLimit_some a w
    obtain ⟨r, hr, ⟨x1, hx1, e1⟩, h2, ⟨x3, hx3, e3⟩, h4⟩ := ih m
    refine ⟨r, ?_, ?_, ?_, ?_, ?_⟩
    · simp only [List.foldl_cons, hm]
      exact hr
    · rcases List.mem_cons.1 hx1 with h | h
      · subst h
        rcases hc with h | h
        · exact ⟨a, List.mem_cons_self _ _, e1.trans h⟩
        · exact ⟨w, List.mem_cons_of_mem _ (List.mem_cons_self _ _), e1.trans h⟩
      · exact ⟨x1, List.mem_cons_of_mem _ (List.mem_cons_of_mem _ h), e1⟩
    · intro x hx
      have hm2 := h2 m (List.mem_cons_self _ _)
      rcases List.mem_cons.1 hx with h | h
      · subst h
        exact le_trans hm2 hca
      · rcases List.mem_cons.1 h with h | h
        · subst h
          exact le_trans hm2 hcw
        · exact h2 x (List.mem_cons_of_mem _ h)
    · rcases List.mem_cons.1 hx3 with h | h
      · subst h
        rcases hp with h | h
        · exact ⟨a, List.mem_cons_self _ _, e3.trans h⟩
        · exact ⟨w, List.mem_cons_of_mem _ (List.mem_cons_self _ _), e3.trans h⟩
      · exact ⟨x3, List.mem_cons_of_mem _ (List.mem_cons_of_mem _ h), e3⟩
    · intro x hx
      have hm2 := h4 m (List.mem_cons_self _ _)
      rcases List.mem_cons.1 hx with h | h
      · subst h
        exact le_trans hpa hm2
      · rcases List.mem_cons.1 h with h | h
        · subst h
          exact le_trans hpw hm2
        · exact h4 x (List.mem_cons_of_mem _ h)

/-- C18. Rate-limit composition. When at least one input policy has a
RateLimit, the composed RateLimit is present, its MaxCalls is the minimum of
the MaxCalls of the inputs' rate limits and its Period the maximum of their
Periods: each is the value of some input and a bound of all of them. So 100
calls an hour and 50 calls in two hours compose to 50 calls in two hours. When
no input has a RateLimit the composed RateLimit is absent. -/
theorem compose_rate_limit (policies : List (Option Policy)) :
    ((∃ p rl, some p ∈ policies ∧ p.RateLimit = some rl) →
      ∃ r, (ComposePolicy policies).RateLimit = some r ∧
        (∃ p rl, some p ∈ policies ∧ p.RateLimit = some rl ∧ r.MaxCalls = rl.MaxCalls) ∧
        (∀ p rl, some p ∈ policies → p.RateLimit = some rl → r.MaxCalls ≤ rl.MaxCalls) ∧
        (∃ p rl, some p ∈ policies ∧ p.RateLimit = some rl ∧ r.Period = rl.Period) ∧
        (∀ p rl, some p ∈ policies → p.RateLimit = some rl → rl.Period ≤ r.Period)) ∧
    ((∀ p, some p ∈ policies → p.RateLimit = none) →
      (ComposePolicy policies).RateLimit = none) ∧
    ((ComposePolicy [some (ratePolicy 100 hour), some (ratePolicy 50 (2 * hour))]).RateLimit.map
        (fun r => (r.MaxCalls, r.Period)) = some (50, 2 * hour)) := by
  refine ⟨?_, ?_, by decide⟩
  · rintro ⟨p0, rl0, hp0, hrl0⟩
    rw [composePolicy_rateLimit]
    have hmem : rl0 ∈ policies.reduceOption.filterMap (fun p => p.RateLimit) :=
      (mem_inputs_iff _ _ _).2 ⟨p0, hp0, hrl0⟩
    have hiff := mem_inputs_iff (fun p => p.RateLimit) policies
    generalize policies.reduceOption.filterMap (fun p => p.RateLimit) = rates at hmem hiff
    cases rates with
    | nil => cases hmem
    | cons a rs =>
      obtain ⟨r, hr, ⟨x1, hx1, e1⟩, h2, ⟨x3, hx3, e3⟩, h4⟩ := foldl_mergeRateLimit rs a
      refine ⟨r, ?_, ?_, ?_, ?_, ?_⟩
      · simp only [List.foldl_cons]
        exact hr
      · obtain ⟨p, hp, hrl⟩ := (hiff x1).1 hx1
        exact ⟨p, x1, hp, hrl, e1⟩
      · intro p rl hp hrl
        exact h2 rl ((hiff rl).2 ⟨p, hp, hrl⟩)
      · obtain ⟨p, hp, hrl⟩ := (hiff x3).1 hx3
        exact ⟨p, x3, hp, hrl, e3⟩
      · intro p rl hp hrl
        exact h4 rl ((hiff rl).2 ⟨p, hp, hrl⟩)
  · intro h
    rw [composePolicy_rateLimit]
    have hnil : policies.reduceOption.filterMap (fun p => p.RateLimit) = [] := by
      apply List.eq_nil_iff_forall_not_mem.2
      intro rl hrl
      obtain ⟨p, hp, hprl⟩ := (mem_inputs_iff _ _ _).1 hrl
      rw [h p hp] at hprl
      cases hprl
    rw [hnil]
    rfl

/-- A witness of C18: the rate limits of the specification's example. -/
theorem compose_rate_limit_witness :
    ∃ r, (ComposePolicy [some (ratePolicy 100 hour), some (ratePolicy 50 (2 * hour))]).RateLimit =
        some r ∧
      (∀ p rl, some p ∈ [some (ratePolicy 100 hour), some (ratePolicy 50 (2 * hour))] →
        p.RateLimit = some rl → r.MaxCalls ≤ rl.MaxCalls) ∧
      (∀ p rl, some p ∈ [some (ratePolicy 100 hour), some (ratePolicy 50 (2 * hour))] →
        p.RateLimit = some rl → rl.Period ≤ r.Period) :=
  have h := (compose_rate_limit [some (ratePolicy 100 hour), some (ratePolicy 50 (2 * hour))]).1
    ⟨ratePolicy 100 hour, _, List.mem_cons_self _ _, rfl⟩
  h.elim (fun r hr => ⟨r, hr.1, hr.2.2.1, hr.2.2.2.2⟩)

/-! ## ComposePolicy: time windows -/

theorem foldl_composeStep_timeWindow (ps : List (Option Policy)) (c : Composition) :
    (ps.foldl composeStep c).composed.TimeWindow =
      (ps.reduceOption.filterMap (fun p => p.TimeWindow)).foldl
        (fun cur tw => mergeTimeWindow cur tw) c.composed.TimeWindow := by
  induction ps generalizing c with
  | nil => rfl
  | cons q ps ih =>
    simp only [List.foldl_cons]
    rw [ih]
    cases q with
    | none => simp [composeStep, List.reduceOption_cons_of_none]
    | some q =>
      cases hq : q.TimeWindow <;>
        simp [composeStep, hq, List.reduceOption_cons_of_some, List.filterMap_cons]

theorem composePolicy_timeWindow (ps : List (Option Policy)) :
    (ComposePolicy ps).TimeWindow =
      (ps.reduceOption.filterMap (fun p => p.TimeWindow)).foldl
        (fun cur tw => mergeTimeWindow cur tw) none := by
  simp only [ComposePolicy, foldl_composeStep_timeWindow]
  rfl

theorem mergeTimeWindow_some (a w : TimeWindow) :
    ∃ m, mergeTimeWindow (some a) w = some m ∧
      (m.Start = a.Start ∨ m.Start = w.Start) ∧ a.Start ≤ m.Start ∧ w.Start ≤ m.Start ∧
      (m.End = a.End ∨ m.End = w.End) ∧ (m.End = 0 ↔ a.End = 0 ∧ w.End = 0) ∧
      (a.End ≠ 0 → m.End ≤ a.End) ∧ (w.End ≠ 0 → m.End ≤ w.End) := by
  unfold mergeTimeWindow
  simp only [Time.After, Time.IsZero, Time.Before]
  refine ⟨_, rfl, ?_⟩
  by_cases h1 : w.Start > a.Start
  · by_cases h2 : w.End = 0
    · simp [h1, h2, le_of_lt h1]
    · by_cases h3 : a.End = 0
      · simp [h1, h2, h3, le_of_lt h1]
      · by_cases h4 : w.End < a.End
        · simp [h1, h2, h3, h4, le_of_lt h1, le_of_lt h4]
        · simp [h1, h2, h3, h4, le_of_lt h1, not_lt.1 h4]
  · by_cases h2 : w.End = 0
    · simp [h1, h2, not_lt.1 h1]
    · by_cases h3 : a.End = 0
      · simp [h1, h2, h3, not_lt.1 h1]
      · by_cases h4 : w.End < a.End
        · simp [h1, h2, h3, h4, not_lt.1 h1, le_of_lt h4]
        · simp [h1, h2, h3, h4, not_lt.1 h1, not_lt.1 h4]

theorem foldl_mergeTimeWindow (ws : List TimeWindow) (a : TimeWindow) :
    ∃ r, ws.foldl (fun cur tw => mergeTimeWindow cur tw) (some a) = some r ∧
      TightestBounds r.Start r.End (a :: ws) := by
  induction ws generalizing a with
  | nil =>
    refine ⟨a, rfl, ⟨a, List.mem_cons_self _ _, rfl⟩, ?_, ?_, ?_, ?_⟩
    · intro x hx
      simp only [List.mem_singleton] at hx
      rw [hx]
    · simp
    · intro _
      exact ⟨a, List.mem_cons_self _ _, rfl⟩
    · intro x hx _
      simp only [List.mem_singleton] at hx
      rw [hx]
  | cons w ws ih =>
    obtain ⟨m, hm, hs, hsa, hsw, he, he0, hea, hew⟩ := mergeTimeWindow_some a w
    obtain ⟨r, hr, ⟨x1, hx1, e1⟩, h2, h3, h4, h5⟩ := ih m
    refine ⟨r, ?_, ?_, ?_, ?_, ?_, ?_⟩
    · simp only [List.foldl_cons, hm]
      exact hr
    · rcases List.mem_cons.1 hx1 with h | h
      · subst h
        rcases hs with h | h
        · exact ⟨a, List.mem_cons_self _ _, e1.trans h⟩
        · exact ⟨w, List.mem_cons_of_mem _ (List.mem_cons_self _ _), e1.trans h⟩
      · exact ⟨x1, List.mem_cons_of_mem _ (List.mem_cons_of_mem _ h), e1⟩
    · intro x hx
      have hm2 := h2 m (List.mem_cons_self _ _)
      rcases List.mem_cons.1 hx with h | h
      · subst h
        exact le_trans hsa hm2
      · rcases List.mem_cons.1 h with h | h
        · subst h
          exact le_trans hsw hm2
        · exact h2 x (List.mem_cons_of_mem _ h)
    · rw [h3]
      simp only [List.forall_mem_cons, he0, and_assoc]
    · intro hne
      obtain ⟨x, hx, e⟩ := h4 hne
      rcases List.mem_cons.1 hx with h | h
      · subst h
        rcases he with h | h
        · exact ⟨a, List.mem_cons_self _ _, e.trans h⟩
        · exact ⟨w, List.mem_cons_of_mem _ (List.mem_cons_self _ _), e.trans h⟩
      · exact ⟨x, List.mem_cons_of_mem _ (List.mem_cons_of_mem _ h), e⟩
    · intro x hx hne
      rcases List.mem_cons.1 hx with h | h
      · subst h
        have hm0 : m.End ≠ 0 := fun h0 => hne (he0.1 h0).1
        exact le_trans (h5 m (List.mem_cons_self _ _) hm0) (hea hne)
      · rcases List.mem_cons.1 h with h | h
        · subst h
          have hm0 : m.End ≠ 0 := fun h0 => hne (he0.1 h0).2
          exact le_trans (h5 m (List.mem_cons_self _ _) hm0) (hew hne)
        · exact h5 x (List.mem_cons_of_mem _ h) hne

theorem tightestBounds_unique (s e s2 e2 : Time) (ws ws2 : List TimeWindow)
    (h : TightestBounds s e ws) (h2 : TightestBounds s2 e2 ws2) (hperm : ws.Perm ws2) :
    s = s2 ∧ e = e2 := by
  obtain ⟨⟨x, hx, ex⟩, hub, hz, hin, hlb⟩ := h
  obtain ⟨⟨y, hy, ey⟩, hub2, hz2, hin2, hlb2⟩ := h2
  constructor
  · apply le_antisymm
    · rw [ex]
      exact hub2 x (hperm.mem_iff.1 hx)
    · rw [ey]
      exact hub y (hperm.mem_iff.2 hy)
  · by_cases he : e = 0
    · have hall := hz.1 he
      have : e2 = 0 := hz2.2 (fun w hw => hall w (hperm.mem_iff.2 hw))
      rw [he, this]
    · have he2 : e2 ≠ 0 := by
        intro h0
        have hall := hz2.1 h0
        exact he (hz.2 (fun w hw => hall w (hperm.mem_iff.1 hw)))
      obtain ⟨u, hu, eu⟩ := hin he
      obtain ⟨v, hv, ev⟩ := hin2 he2
      apply le_antisymm
      · rw [ev]
        exact hlb v (hperm.mem_iff.2 hv) (by rw [← ev]; exact he2)
      · rw [eu]
        exact hlb2 u (hperm.mem_iff.1 hu) (by rw [← eu]; exact he)

theorem composePolicy_timeWindow_bounds (ps : List (Option Policy)) :
    (ps.reduceOption.filterMap (fun p => p.TimeWindow) = [] ∧
      (ComposePolicy ps).TimeWindow = none) ∨
    ∃ tw, (ComposePolicy ps).TimeWindow = some tw ∧
      TightestBounds tw.Start tw.End (ps.reduceOption.filterMap (fun p => p.TimeWindow)) := by
  rw [composePolicy_timeWindow]
  cases ps.reduceOption.filterMap (fun p => p.TimeWindow) with
  | nil => exact Or.inl ⟨rfl, rfl⟩
  | cons a ws =>
    obtain ⟨r, hr, hb⟩ := foldl_mergeTimeWindow ws a
    exact Or.inr ⟨r, by simpa using hr, hb⟩

/-- C17. Time-window composition tightens both bounds. When at least one input
policy has a TimeWindow, the composed TimeWindow is present; its Start is the
latest Start of the inputs' windows; its End is zero iff every input End is
zero, and otherwise the earliest End that is not zero. Start and End do not
depend on the order of the inputs. When no input has a TimeWindow the composed
TimeWindow is absent. -/
theorem compose_tightens_window (policies : List (Option Policy)) :
    ((∃ p w, some p ∈ policies ∧ p.TimeWindow = some w) →
      ∃ tw, (ComposePolicy policies).TimeWindow = some tw ∧
        (∃ p w, some p ∈ policies ∧ p.TimeWindow = some w ∧ tw.Start = w.Start) ∧
        (∀ p w, some p ∈ policies → p.TimeWindow = some w → w.Start ≤ tw.Start) ∧
        (tw.End = 0 ↔ ∀ p w, some p ∈ policies → p.TimeWindow = some w → w.End = 0) ∧
        (tw.End ≠ 0 → ∃ p w, some p ∈ policies ∧ p.TimeWindow = some w ∧ tw.End = w.End) ∧
        (∀ p w, some p ∈ policies → p.TimeWindow = some w → w.End ≠ 0 → tw.End ≤ w.End)) ∧
    (∀ reordered : List (Option Policy), policies.Perm reordered →
      (ComposePolicy reordered).TimeWindow.map (fun w => (w.Start, w.End)) =
        (ComposePolicy policies).TimeWindow.map (fun w => (w.Start, w.End))) ∧
    ((∀ p, some p ∈ policies → p.TimeWindow = none) →
      (ComposePolicy policies).TimeWindow = none) := by
  have hiff := mem_inputs_iff (fun p => p.TimeWindow) policies
  refine ⟨?_, ?_, ?_⟩
  · rintro ⟨p0, w0, hp0, hw0⟩
    have hmem : w0 ∈ policies.reduceOption.filterMap (fun p => p.TimeWindow) :=
      (hiff w0).2 ⟨p0, hp0, hw0⟩
    rcases composePolicy_timeWindow_bounds policies with ⟨hnil, -⟩ | ⟨tw, htw, hb⟩
    · rw [hnil] at hmem
      cases hmem
    · obtain ⟨⟨x, hx, ex⟩, hub, hz, hin, hlb⟩ := hb
      refine ⟨tw, htw, ?_, ?_, ?_, ?_, ?_⟩
      · obtain ⟨p, hp, hw⟩ := (hiff x).1 hx
        exact ⟨p, x, hp, hw, ex⟩
      · intro p w hp hw
        exact hub w ((hiff w).2 ⟨p, hp, hw⟩)
      · rw [hz]
        constructor
        · intro h p w hp hw
          exact h w ((hiff w).2 ⟨p, hp, hw⟩)
        · intro h w hw
          obtain ⟨p, hp, hpw⟩ := (hiff w).1 hw
          exact h p w hp hpw
      · intro hne
        obtain ⟨w, hw, ew⟩ := hin hne
        obtain ⟨p, hp, hpw⟩ := (hiff w).1 hw
        exact ⟨p, w, hp, hpw, ew⟩
      · intro p w hp hw hne
        exact hlb w ((hiff w).2 ⟨p, hp, hw⟩) hne
  · intro reordered hperm
    have hwperm : (policies.reduceOption.filterMap (fun p => p.TimeWindow)).Perm
        (reordered.reduceOption.filterMap (fun p => p.TimeWindow)) :=
      (hperm.filterMap id).filterMap _
    rcases composePolicy_timeWindow_bounds policies with ⟨hnil, hnone⟩ | ⟨tw, htw, hb⟩
    · rw [hnil] at hwperm
      have hnil2 := hwperm.symm.eq_nil
      rcases composePolicy_timeWindow_bounds reordered with ⟨-, hnone2⟩ | ⟨tw2, -, hb2⟩
      · rw [hnone, hnone2]
      · obtain ⟨⟨x, hx, -⟩, -⟩ := hb2
        rw [hnil2] at hx
        cases hx
    · rcases composePolicy_timeWindow_bounds reordered with ⟨hnil2, -⟩ | ⟨tw2, htw2, hb2⟩
      · obtain ⟨⟨x, hx, -⟩, -⟩ := hb
        rw [hnil2] at hwperm
        rw [hwperm.eq_nil] at hx
        cases hx
      · obtain ⟨hs, he⟩ := tightestBounds_unique _ _ _ _ _ _ hb hb2 hwperm
        rw [htw, htw2]
        simp only [Option.map_some', hs, he]
  · intro h
    rcases composePolicy_timeWindow_bounds policies with ⟨-, hnone⟩ | ⟨tw, -, hb⟩
    · exact hnone
    · obtain ⟨⟨x, hx, -⟩, -⟩ := hb
      obtain ⟨p, hp, hpw⟩ := (hiff x).1 hx
      rw [h p hp] at hpw
      cases hpw

/-- A witness of C17: the test `zero end treated specially`, in both orders. A
window without End and a window that ends at 200 compose to a window that ends
at 200. -/
theorem compose_tightens_window_witness :
    (ComposePolicy [some (windowPolicy 100 200 10), some (windowPolicy 100 0 9)]).TimeWindow.map
        (fun w => (w.Start, w.End)) =
      (ComposePolicy [some (windowPolicy 100 0 9), some (windowPolicy 100 200 10)]).TimeWindow.map
        (fun w => (w.Start, w.End)) ∧
    (ComposePolicy [some emptyPolicy]).TimeWindow = none :=
  ⟨(compose_tightens_window [some (windowPolicy 100 0 9), some (windowPolicy 100 200 10)]).2.1
      [some (windowPolicy 100 200 10), some (windowPolicy 100 0 9)] (List.Perm.swap _ _ _),
    (compose_tightens_window [some emptyPolicy]).2.2 (by
      intro p hp
      simp only [List.mem_singleton, Option.some.injEq] at hp
      subst hp
      rfl)⟩

/-! ## Spending limits -/

theorem checkSpendingLimit_eq (sl : SpendingLimit) (amount : Int) (now : Time)
    (hpos : amount > 0) :
    CheckSpendingLimit (some sl) (some amount) now =
      if now > sl.ResetAt then
        match sl.MaxAmount with
        | some maxAmount =>
          some { err := if amount > maxAmount then some "spending limit exceeded" else none
                 limit := some { sl with Spent := some 0, ResetAt := now + sl.Period } }
        | none => none
      else
        match sl.Spent, sl.MaxAmount with
        | some spent, some maxAmount =>
          some { err := if spent + amount > maxAmount then some "spending limit exceeded"
                        else none
                 limit := some sl }
        | _, _ => none := by
  have hnot : ¬ amount ≤ 0 := not_le.2 hpos
  unfold CheckSpendingLimit
  simp only [hnot, decide_False, Bool.false_eq_true, if_false, Time.After, Time.Add,
    decide_eq_true_eq]
  by_cases hreset : now > sl.ResetAt
  · simp only [hreset, if_true]
    cases sl.MaxAmount with
    | none => rfl
    | some maxAmount =>
      simp only [zero_add]
      split_ifs <;> rfl
  · simp only [hreset, if_false]
    cases sl.Spent with
    | none => rfl
    | some spent =>
      cases sl.MaxAmount with
      | none => rfl
      | some maxAmount =>
        simp only
        split_ifs <;> rfl

/-- C21. Threshold of `CheckSpendingLimit` with its lazy reset, for a limit
that is not nil and an amount above 0. When now is not after ResetAt the limit
is left as it is and the check succeeds iff Spent + amount <= MaxAmount, and
fails with 'spending limit exceeded' otherwise. When now is after ResetAt,
Spent is set to 0 and ResetAt to now + Period, and the check succeeds iff
amount <= MaxAmount. A nil limit fails with 'nil spending limit'; a nil, zero
or negative amount fails with 'invalid amount'. With max 1000 and spent 500,
501 fails and 500 succeeds. -/
theorem checkSpendingLimit_threshold (sl : SpendingLimit) (amount : Int) (now : Time)
    (maxAmount : Int) (hpos : amount > 0) (hmax : sl.MaxAmount = some maxAmount) :
    (¬ now > sl.ResetAt → ∀ spent, sl.Spent = some spent →
      ∃ r, CheckSpendingLimit (some sl) (some amount) now = some r ∧
        r.limit = some sl ∧
        (r.err = none ↔ spent + amount ≤ maxAmount) ∧
        (r.err ≠ none → r.err = some "spending limit exceeded")) ∧
    (now > sl.ResetAt →
      ∃ r, CheckSpendingLimit (some sl) (some amount) now = some r ∧
        r.limit = some { sl with Spent := some 0, ResetAt := now + sl.Period } ∧
        (r.err = none ↔ amount ≤ maxAmount) ∧
        (r.err ≠ none → r.err = some "spending limit exceeded")) ∧
    (∀ (a : Option Int) (n : Time),
      CheckSpendingLimit none a n = some { err := some "nil spending limit", limit := none }) ∧
    (∀ a : Option Int, (a = none ∨ ∃ v, a = some v ∧ v ≤ 0) →
      CheckSpendingLimit (some sl) a now =
        some { err := some "invalid amount", limit := some sl }) ∧
    (CheckSpendingLimit (some halfSpentLimit) (some 501) 0 =
        some { err := some "spending limit exceeded", limit := some halfSpentLimit } ∧
      CheckSpendingLimit (some halfSpentLimit) (some 500) 0 =
        some { err := none, limit := some halfSpentLimit }) := by
  refine ⟨?_, ?_, ?_, ?_, by decide⟩
  · intro hreset spent hspent
    rw [checkSpendingLimit_eq sl amount now hpos, if_neg hreset, hspent, hmax]
    refine ⟨_, rfl, rfl, ?_, ?_⟩
    · by_cases h : spent + amount > maxAmount
      · simp [h]
      · simp [h, not_lt.1 h]
    · by_cases h : spent + amount > maxAmount <;> simp [h]
  · intro hreset
    rw [checkSpendingLimit_eq sl amount now hpos, if_pos hreset, hmax]
    refine ⟨_, rfl, rfl, ?_, ?_⟩
    · by_cases h : amount > maxAmount
      · simp [h]
      · simp [h, not_lt.1 h]
    · by_cases h : amount > maxAmount <;> simp [h]
  · intro a n
    rfl
  · intro a ha
    rcases ha with ha | ⟨v, ha, hv⟩
    · subst ha
      simp [CheckSpendingLimit]
    · subst ha
      simp [CheckSpendingLimit, hv]

/-- A witness of C21: the limit of the test of the period reset, max 1000 and
spent 999 with the reset time passed, accepts 500 after the reset. -/
theorem checkSpendingLimit_threshold_witness :
    ∃ r, CheckSpendingLimit (some staleLimit) (some 500) 1000 = some r ∧
      r.limit = some { staleLimit with Spent := some 0, ResetAt := 1000 + staleLimit.Period } ∧
      (r.err = none ↔ (500 : Int) ≤ 1000) ∧
      (r.err ≠ none → r.err = some "spending limit exceeded") :=
  (checkSpendingLimit_threshold staleLimit 500 1000 1000 (by decide) rfl).2.1 (by decide)

/-- Every way `CheckSpendingLimit` returns on a limit that is not nil: the
amount is invalid and the limit is untouched, or the amount is above 0 and the
limit is the limit after the lazy reset, with the verdict of the threshold. -/
theorem checkSpendingLimit_cases (sl : SpendingLimit) (amount : Option Int) (now : Time)
    (c : SpendingResult) (h : CheckSpendingLimit (some sl) amount now = some c) :
    (c.err = some "invalid amount" ∧ c.limit = some sl ∧
      (amount = none ∨ ∃ v, amount = some v ∧ v ≤ 0)) ∨
    (∃ a lim spent m, amount = some a ∧ a > 0 ∧ c.limit = some lim ∧
      lim = (if now > sl.ResetAt then
        { sl with Spent := some 0, ResetAt := now + sl.Period } else sl) ∧
      lim.Spent = some spent ∧ lim.MaxAmount = some m ∧
      c.err = (if spent + a > m then some "spending limit exceeded" else none)) := by
  cases amount with
  | none =>
    simp only [CheckSpendingLimit, if_true, Option.some.injEq] at h
    subst h
    exact Or.inl ⟨rfl, rfl, Or.inl rfl⟩
  | some a =>
    by_cases ha : a ≤ 0
    · simp only [CheckSpendingLimit, ha, decide_True, if_true, Option.some.injEq] at h
      subst h
      exact Or.inl ⟨rfl, rfl, Or.inr ⟨a, rfl, ha⟩⟩
    · have hpos : a > 0 := not_le.1 ha
      rw [checkSpendingLimit_eq sl a now hpos] at h
      right
      by_cases hreset : now > sl.ResetAt
      · rw [if_pos hreset] at h
        cases hm : sl.MaxAmount with
        | none =>
          rw [hm] at h
          cases h
        | some m =>
          rw [hm] at h
          simp only [Option.some.injEq] at h
          subst h
          refine ⟨a, _, 0, m, rfl, hpos, rfl, by rw [if_pos hreset], rfl, rfl, ?_⟩
          simp only [zero_add]
      · rw [if_neg hreset] at h
        cases hs : sl.Spent with
        | none =>
          rw [hs] at h
          cases h
        | some spent =>
          cases hm : sl.MaxAmount with
          | none =>
            rw [hs, hm] at h
            cases h
          | some m =>
            rw [hs, hm] at h
            simp only [Option.some.injEq] at h
            subst h
            exact ⟨a, sl, spent, m, rfl, hpos, rfl, by rw [if_neg hreset], hs, hm, rfl⟩

theorem updateSpending_of_error (sl : Option SpendingLimit) (amount : Option Int) (now : Time)
    (r : SpendingResult) (h : UpdateSpending sl amount now = some r) (he : r.err ≠ none) :
    CheckSpendingLimit sl amount now = some r := by
  unfold UpdateSpending at h
  cases hc : CheckSpendingLimit sl amount now with
  | none =>
    rw [hc] at h
    cases h
  | some c =>
    rw [hc] at h
    simp only at h
    cases hce : c.err with
    | some e =>
      rw [hce] at h
      simp only [Option.some.injEq] at h
      subst h
      obtain ⟨cerr, clim⟩ := c
      simp only at hce
      subst hce
      rfl
    | none =>
      rw [hce] at h
      simp only at h
      split at h
      · split at h
        · simp only [Option.some.injEq] at h
          subst h
          exact absurd rfl he
        · cases h
      · cases h

theorem updateSpending_of_success (sl : SpendingLimit) (amount : Option Int) (now : Time)
    (r : SpendingResult) (h : UpdateSpending (some sl) amount now = some r)
    (he : r.err = none) :
    ∃ c a lim spent m, CheckSpendingLimit (some sl) amount now = some c ∧ c.err = none ∧
      amount = some a ∧ a > 0 ∧ c.limit = some lim ∧ lim.Spent = some spent ∧
      lim.MaxAmount = some m ∧ spent + a ≤ m ∧
      r.limit = some { lim with Spent := some (spent + a) } := by
  unfold UpdateSpending at h
  cases hc : CheckSpendingLimit (some sl) amount now with
  | none =>
    rw [hc] at h
    cases h
  | some c =>
    rw [hc] at h
    simp only at h
    cases hce : c.err with
    | some e =>
      rw [hce] at h
      simp only [Option.some.injEq] at h
      subst h
      cases he
    | none =>
      rcases checkSpendingLimit_cases sl amount now c hc with ⟨hinv, -, -⟩ |
        ⟨a, lim, spent, m, ha, hpos, hlim, -, hs, hm, herr⟩
      · rw [hce] at hinv
        cases hinv
      · rw [hce] at h
        simp only [hlim, ha, hs, Option.some.injEq] at h
        subst h
        refine ⟨c, a, lim, spent, m, rfl, hce, ha, hpos, hlim, hs, hm, ?_, rfl⟩
        rw [hce] at herr
        by_cases hgt : spent + a > m
        · rw [if_pos hgt] at herr
          cases herr
        · exact not_lt.1 hgt

/-- C22. Spending-limit invariant. When `UpdateSpending` returns nil, the
Spent it leaves is the Spent after the lazy reset of `CheckSpendingLimit` plus
the amount, and it is at most MaxAmount. So Spent <= MaxAmount holds after
every successful update that follows any sequence of `UpdateSpending` calls. -/
theorem updateSpending_invariant (sl : SpendingLimit) (amount : Option Int) (now : Time)
    (r : SpendingResult) :
    (UpdateSpending (some sl) amount now = some r → r.err = none →
      ∃ after checked lim a spent m, r.limit = some after ∧
        CheckSpendingLimit (some sl) amount now = some checked ∧
        checked.limit = some lim ∧ lim.Spent = some spent ∧ amount = some a ∧
        after.Spent = some (spent + a) ∧ after.MaxAmount = some m ∧
        sl.MaxAmount = some m ∧ spent + a ≤ m) ∧
    (∀ (calls : List (Option Int × Time)) (mid : SpendingLimit),
      updateAll sl calls = some mid →
      UpdateSpending (some mid) amount now = some r → r.err = none →
      ∃ after spent m, r.limit = some after ∧ after.Spent = some spent ∧
        after.MaxAmount = some m ∧ spent ≤ m) := by
  constructor
  · intro h he
    obtain ⟨c, a, lim, spent, m, hc, hce, ha, hpos, hlim, hs, hm, hle, hr⟩ :=
      updateSpending_of_success sl amount now r h he
    refine ⟨_, c, lim, a, spent, m, hr, hc, hlim, hs, ha, rfl, hm, ?_, hle⟩
    rcases checkSpendingLimit_cases sl amount now c hc with ⟨hinv, -, -⟩ |
      ⟨a2, lim2, spent2, m2, -, -, hlim2, hdef, -, -, -⟩
    · rw [hce] at hinv
      cases hinv
    · rw [hlim] at hlim2
      cases hlim2
      rw [hdef] at hm
      split at hm <;> exact hm
  · intro calls mid _ h he
    obtain ⟨c, a, lim, spent, m, -, -, -, -, -, -, hm, hle, hr⟩ :=
      updateSpending_of_success mid amount now r h he
    exact ⟨_, spent + a, m, hr, rfl, hm, hle⟩

/-- A witness of C22: the test `success`, 400 and then 300 of a limit of 1000. -/
theorem updateSpending_invariant_witness :
    ∃ after spent m,
      (({ err := none,
          limit := some { NewSpendingLimit 0 1000 3600 0 with Spent := some 700 } } :
        SpendingResult).limit = some after) ∧
      after.Spent = some spent ∧ after.MaxAmount = some m ∧ spent ≤ m :=
  (updateSpending_invariant (NewSpendingLimit 0 1000 3600 0) (some 300) 20
    { err := none, limit := some { NewSpendingLimit 0 1000 3600 0 with Spent := some 700 } }).2
    [(some 400, 10)] { NewSpendingLimit 0 1000 3600 0 with Spent := some 400 }
    (by decide) (by decide) rfl

/-- C23, as the claim states it, fails: with max 1000 and spent 999, an update
of 1001 made after the reset time returns 'spending limit exceeded' and leaves
Spent at 0. -/
theorem rejected_update_resets_spent :
    staleLimit.Spent = some 999 ∧
    UpdateSpending (some staleLimit) (some 1001) 1000 =
      some { err := some "spending limit exceeded",
             limit := some { staleLimit with Spent := some 0, ResetAt := 1001 } } := by
  decide

/-- C23, amended. When `UpdateSpending` returns an error on a limit that is
not nil, it leaves the limit as `CheckSpendingLimit` leaves it, with MaxAmount
and Period unchanged. The limit, and so Spent, is what it was before the call
when the amount is invalid or now is not after ResetAt. When the error is
'spending limit exceeded' and now is after ResetAt, Spent is 0 and ResetAt is
now + Period. -/
theorem rejected_update_keeps_reset (sl : SpendingLimit) (amount : Option Int) (now : Time)
    (r : SpendingResult) (e : String)
    (h : UpdateSpending (some sl) amount now = some r) (he : r.err = some e) :
    CheckSpendingLimit (some sl) amount now = some r ∧
    (e = "invalid amount" ∨ e = "spending limit exceeded") ∧
    ∃ after, r.limit = some after ∧
      after.MaxAmount = sl.MaxAmount ∧ after.Period = sl.Period ∧
      ((e = "invalid amount" ∨ ¬ now > sl.ResetAt) → after = sl) ∧
      (e = "spending limit exceeded" → now > sl.ResetAt →
        after.Spent = some 0 ∧ after.ResetAt = now + sl.Period) := by
  have hc := updateSpending_of_error (some sl) amount now r h (by rw [he]; simp)
  refine ⟨hc, ?_⟩
  rcases checkSpendingLimit_cases sl amount now r hc with ⟨hinv, hlim, -⟩ |
    ⟨a, lim, spent, m, -, -, hlim, hdef, -, -, herr⟩
  · rw [he] at hinv
    cases hinv
    refine ⟨Or.inl rfl, sl, hlim, rfl, rfl, fun _ => rfl, ?_⟩
    intro hne
    exact absurd hne (by decide)
  · have hex : e = "spending limit exceeded" := by
      rw [he] at herr
      by_cases hgt : spent + a > m
      · rw [if_pos hgt] at herr
        exact Option.some.inj herr
      · rw [if_neg hgt] at herr
        cases herr
    refine ⟨Or.inr hex, lim, hlim, ?_, ?_, ?_, ?_⟩
    · rw [hdef]
      split <;> rfl
    · rw [hdef]
      split <;> rfl
    · rintro (hinv | hreset)
      · rw [hex] at hinv
        exact absurd hinv (by decide)
      · rw [hdef, if_neg hreset]
    · intro _ hreset
      rw [hdef, if_pos hreset]
      exact ⟨rfl, rfl⟩

/-- A witness of the amended C23: the test `exceeds limit`. A fresh limit of
1000 refuses 1001 before its reset time and is left as it was. -/
theorem rejected_update_keeps_reset_witness :
    CheckSpendingLimit (some (NewSpendingLimit 0 1000 3600 0)) (some 1001) 10 =
      some { err := some "spending limit exceeded",
             limit := some (NewSpendingLimit 0 1000 3600 0) } :=
  (rejected_update_keeps_reset (NewSpendingLimit 0 1000 3600 0) (some 1001) 10
    { err := some "spending limit exceeded", limit := some (NewSpendingLimit 0 1000 3600 0) }
    "spending limit exceeded" (by decide) rfl).1

/-! ## Lemmas on the validity of a composition -/

theorem validateSpendingLimits_none_iff (limits : List SpendingLimit) :
    validateSpendingLimits limits = none ↔
      ∀ sl ∈ limits, (∃ m, sl.MaxAmount = some m ∧ m > 0) ∧ sl.Period > 0 := by
  induction limits with
  | nil => simp [validateSpendingLimits]
  | cons sl rest ih =>
    simp only [validateSpendingLimits, List.mem_cons, forall_eq_or_imp]
    cases hm : sl.MaxAmount with
    | none => simp
    | some m =>
      by_cases h1 : m ≤ 0
      · simp [h1, not_lt.2 h1]
      · by_cases h2 : sl.Period ≤ 0
        · simp [h1, h2, not_lt.2 h2]
        · simp [h1, h2, not_le.1 h1, not_le.1 h2, ih]

theorem validatePolicy_none_iff (p : Policy) :
    ValidatePolicy (some p) = none ↔
      validateSpendingLimits p.SpendingLimits = none ∧
      (∀ tw, p.TimeWindow = some tw →
        (tw.End = 0 ∨ tw.Start ≤ tw.End) ∧ (0 ≤ tw.Hours.1 ∧ tw.Hours.1 ≤ 23) ∧
          (0 ≤ tw.Hours.2 ∧ tw.Hours.2 ≤ 23)) ∧
      (∀ rl, p.RateLimit = some rl → rl.MaxCalls > 0 ∧ rl.Period > 0) := by
  unfold ValidatePolicy
  simp only
  cases hs : validateSpendingLimits p.SpendingLimits with
  | some err => simp
  | none =>
    simp only [true_and]
    cases htw : p.TimeWindow with
    | none =>
      cases hrl : p.RateLimit with
      | none => simp
      | some rl =>
        by_cases h1 : rl.MaxCalls = 0
        · simp [h1]
        · by_cases h2 : rl.Period ≤ 0
          · simp [h1, h2, not_lt.2 h2]
          · simp [h1, h2, Nat.pos_of_ne_zero h1, not_le.1 h2]
    | some tw =>
      simp only [Time.IsZero, Time.After, Option.some.injEq, forall_eq']
      by_cases h0 : tw.End = 0
      · by_cases h3 : tw.Hours.1 < 0 ∨ tw.Hours.1 > 23
        · have : ¬ (0 ≤ tw.Hours.1 ∧ tw.Hours.1 ≤ 23) := by omega
          simp [h0, h3, this]
        · by_cases h4 : tw.Hours.2 < 0 ∨ tw.Hours.2 > 23
          · have : ¬ (0 ≤ tw.Hours.2 ∧ tw.Hours.2 ≤ 23) := by omega
            simp [h0, h3, h4, this]
          · have k3 : 0 ≤ tw.Hours.1 ∧ tw.Hours.1 ≤ 23 := by omega
            have k4 : 0 ≤ tw.Hours.2 ∧ tw.Hours.2 ≤ 23 := by omega
            cases hrl : p.RateLimit with
            | none => simp [h0, h3, h4, k3, k4]
            | some rl =>
              by_cases h1 : rl.MaxCalls = 0
              · simp [h0, h3, h4, h1]
              · by_cases h2 : rl.Period ≤ 0
                · simp [h0, h3, h4, h1, h2, not_lt.2 h2]
                · simp [h0, h3, h4, k3, k4, h1, h2, Nat.pos_of_ne_zero h1, not_le.1 h2]
      · by_cases h5 : tw.Start > tw.End
        · simp [h0, h5, not_le.2 h5]
        · by_cases h3 : tw.Hours.1 < 0 ∨ tw.Hours.1 > 23
          · have : ¬ (0 ≤ tw.Hours.1 ∧ tw.Hours.1 ≤ 23) := by omega
            simp [h0, h5, h3, this]
          · by_cases h4 : tw.Hours.2 < 0 ∨ tw.Hours.2 > 23
            · have : ¬ (0 ≤ tw.Hours.2 ∧ tw.Hours.2 ≤ 23) := by omega
              simp [h0, h5, h3, h4, this]
            · have k3 : 0 ≤ tw.Hours.1 ∧ tw.Hours.1 ≤ 23 := by omega
              have k4 : 0 ≤ tw.Hours.2 ∧ tw.Hours.2 ≤ 23 := by omega
              cases hrl : p.RateLimit with
              | none => simp [h0, h5, h3, h4, k3, k4, not_lt.1 h5]
              | some rl =>
                by_cases h1 : rl.MaxCalls = 0
                · simp [h0, h5, h3, h4, h1]
                · by_cases h2 : rl.Period ≤ 0
                  · simp [h0, h5, h3, h4, h1, h2, not_lt.2 h2]
                  · simp [h0, h5, h3, h4, k3, k4, h1, h2, Nat.pos_of_ne_zero h1, not_le.1 h2,
                      not_lt.1 h5]

theorem mergeTimeWindow_hours (a w : TimeWindow) :
    ∃ m, mergeTimeWindow (some a) w = some m ∧ m.Hours = a.Hours ∧ m.Days = a.Days := by
  unfold mergeTimeWindow
  simp only
  split_ifs <;> exact ⟨_, rfl, rfl, rfl⟩

theorem foldl_mergeTimeWindow_hours (ws : List TimeWindow) :
    ∀ a : TimeWindow, ∃ r, ws.foldl (fun cur tw => mergeTimeWindow cur tw) (some a) = some r ∧
      r.Hours = a.Hours ∧ r.Days = a.Days := by
  induction ws with
  | nil => exact fun a => ⟨a, rfl, rfl, rfl⟩
  | cons w ws ih =>
    intro a
    obtain ⟨m, hm, h1, h2⟩ := mergeTimeWindow_hours a w
    obtain ⟨r, hr, h3, h4⟩ := ih m
    refine ⟨r, ?_, h3.trans h1, h4.trans h2⟩
    rw [List.foldl_cons, hm]
    exact hr

theorem composePolicy_hours (ps : List (Option Policy)) :
    (ComposePolicy ps).TimeWindow.map (fun tw => (tw.Hours, tw.Days)) =
      (ps.reduceOption.filterMap (fun p => p.TimeWindow)).head?.map
        (fun w => (w.Hours, w.Days)) := by
  rw [composePolicy_timeWindow]
  cases ps.reduceOption.filterMap (fun p => p.TimeWindow) with
  | nil => rfl
  | cons a ws =>
    obtain ⟨r, hr, h1, h2⟩ := foldl_mergeTimeWindow_hours ws a
    have e : (a :: ws).foldl (fun cur tw => mergeTimeWindow cur tw) none =
        ws.foldl (fun cur tw => mergeTimeWindow cur tw) (some a) := rfl
    rw [e, hr]
    simp [h1, h2]

theorem composePolicy_parts_valid (policies : List (Option Policy))
    (hvalid : ∀ p, some p ∈ policies → ValidatePolicy (some p) = none) :
    validateSpendingLimits (ComposePolicy policies).SpendingLimits = none ∧
    (∀ tw, (ComposePolicy policies).TimeWindow = some tw →
      (0 ≤ tw.Hours.1 ∧ tw.Hours.1 ≤ 23) ∧ (0 ≤ tw.Hours.2 ∧ tw.Hours.2 ≤ 23)) ∧
    (∀ rl, (ComposePolicy policies).RateLimit = some rl → rl.MaxCalls > 0 ∧ rl.Period > 0) := by
  refine ⟨?_, ?_, ?_⟩
  · rw [composePolicy_limits, validateSpendingLimits_none_iff]
    intro sl hsl
    simp only [List.mem_flatMap, List.reduceOption_mem_iff] at hsl
    obtain ⟨p, hp, hmem⟩ := hsl
    exact (validateSpendingLimits_none_iff _).1 ((validatePolicy_none_iff p).1 (hvalid p hp)).1
      sl hmem
  · intro tw htw
    have hh := composePolicy_hours policies
    rw [htw] at hh
    cases hws : policies.reduceOption.filterMap (fun p => p.TimeWindow) with
    | nil =>
      rw [hws] at hh
      simp at hh
    | cons w ws =>
      rw [hws] at hh
      simp only [Option.map_some', List.head?_cons, Option.some.injEq, Prod.mk.injEq] at hh
      have hmem : w ∈ policies.reduceOption.filterMap (fun p => p.TimeWindow) := by
        rw [hws]
        exact List.mem_cons_self _ _
      obtain ⟨p, hp, hw⟩ := (mem_inputs_iff (fun p => p.TimeWindow) policies w).1 hmem
      have := (((validatePolicy_none_iff p).1 (hvalid p hp)).2.1 w hw).2
      rw [hh.1]
      exact this
  · intro rl hrl
    rw [composePolicy_rateLimit] at hrl
    cases hrs : policies.reduceOption.filterMap (fun p => p.RateLimit) with
    | nil =>
      rw [hrs] at hrl
      simp at hrl
    | cons a rs =>
      rw [hrs] at hrl
      obtain ⟨r, hr, ⟨x, hx, ex⟩, -, ⟨y, hy, ey⟩, -⟩ := foldl_mergeRateLimit rs a
      have e : (a :: rs).foldl (fun cur rl => mergeRateLimit cur rl) none =
          rs.foldl (fun cur rl => mergeRateLimit cur rl) (some a) := rfl
      rw [e, hr] at hrl
      have erl : r = rl := Option.some.inj hrl
      subst erl
      rw [← hrs] at hx hy
      obtain ⟨p, hp, hpx⟩ := (mem_inputs_iff (fun p => p.RateLimit) policies x).1 hx
      obtain ⟨q, hq, hqy⟩ := (mem_inputs_iff (fun p => p.RateLimit) policies y).1 hy
      have h1 := ((validatePolicy_none_iff p).1 (hvalid p hp)).2.2 x hpx
      have h2 := ((validatePolicy_none_iff q).1 (hvalid q hq)).2.2 y hqy
      rw [ex, ey]
      exact ⟨h1.1, h2.2⟩

/-- C34, as the claim states it, fails: the policies with the windows from 0
to 10 and from 20 to 30 are both accepted by `ValidatePolicy`, and their
composition has the window from 20 to 10, which `ValidatePolicy` rejects with
'time window start after end'. -/
theorem compose_disjoint_windows_invalid :
    ValidatePolicy (some (windowPolicy 0 10 9)) = none ∧
    ValidatePolicy (some (windowPolicy 20 30 9)) = none ∧
    (ComposePolicy [some (windowPolicy 0 10 9), some (windowPolicy 20 30 9)]).TimeWindow.map
        (fun tw => (tw.Start, tw.End)) = some (20, 10) ∧
    ValidatePolicy (some (ComposePolicy [some (windowPolicy 0 10 9), some (windowPolicy 20 30 9)])) =
      some "time window start after end" := by
  decide

/-- C34, amended. When `ValidatePolicy` accepts every input that is not nil,
the spending limits, the hours and the rate limit of `ComposePolicy` of the
list pass their checks, and `ValidatePolicy` accepts the composition iff its
time window, when it has one, has End zero or Start not after End; otherwise
it rejects it with 'time window start after end'. -/
theorem compose_valid_up_to_window (policies : List (Option Policy))
    (hvalid : ∀ p, some p ∈ policies → ValidatePolicy (some p) = none) :
    (ValidatePolicy (some (ComposePolicy policies)) = none ↔
      ∀ tw, (ComposePolicy policies).TimeWindow = some tw → tw.End = 0 ∨ tw.Start ≤ tw.End) ∧
    (ValidatePolicy (some (ComposePolicy policies)) = none ∨
      ValidatePolicy (some (ComposePolicy policies)) = some "time window start after end") := by
  obtain ⟨hs, hh, hr⟩ := composePolicy_parts_valid policies hvalid
  have hiff : ValidatePolicy (some (ComposePolicy policies)) = none ↔
      ∀ tw, (ComposePolicy policies).TimeWindow = some tw → tw.End = 0 ∨ tw.Start ≤ tw.End := by
    rw [validatePolicy_none_iff]
    constructor
    · exact fun h tw htw => (h.2.1 tw htw).1
    · exact fun h => ⟨hs, fun tw htw => ⟨h tw htw, hh tw htw⟩, hr⟩
  refine ⟨hiff, ?_⟩
  by_cases hw : ∀ tw, (ComposePolicy policies).TimeWindow = some tw →
      tw.End = 0 ∨ tw.Start ≤ tw.End
  · exact Or.inl (hiff.2 hw)
  · right
    simp only [not_forall, not_or, not_le] at hw
    obtain ⟨tw, htw, h0, hlt⟩ := hw
    unfold ValidatePolicy
    simp only [hs, htw, Time.IsZero, Time.After]
    simp [h0, hlt]

/-- A witness of the amended C34: the windows from 0 to 30 and from 10 to 20
compose to the window from 10 to 20, which is accepted. -/
theorem compose_valid_up_to_window_witness :
    ValidatePolicy
        (some (ComposePolicy [some (windowPolicy 0 30 9), none, some (windowPolicy 10 20 8)])) =
      none :=
  (compose_valid_up_to_window [some (windowPolicy 0 30 9), none, some (windowPolicy 10 20 8)]
    (by
      intro p hp
      simp only [List.mem_cons, Option.some.injEq, reduceCtorEq, List.mem_singleton,
        List.not_mem_nil, or_false, false_or] at hp
      rcases hp with rfl | rfl <;> decide)).1.2
    (by
      intro tw htw
      have e : (ComposePolicy [some (windowPolicy 0 30 9), none,
          some (windowPolicy 10 20 8)]).TimeWindow =
          some { Start := 10, End := 20, Days := [], Hours := (9, 17) } := by decide
      rw [e] at htw
      cases htw
      exact Or.inr (by decide))

/-- C35. Hours and Days come from the first windowed policy only. When the
inputs before the policy p are nil or have no TimeWindow and p has the
TimeWindow w, the TimeWindow of `ComposePolicy` has the Hours and the Days of
w, whatever the inputs after p are. For every list, Hours and Days of the
composition are those of the first TimeWindow among the inputs that are not
nil. -/
theorem compose_hours_of_first_window (before later : List (Option Policy)) (p : Policy)
    (w : TimeWindow) (hbefore : ∀ q, some q ∈ before → q.TimeWindow = none)
    (hp : p.TimeWindow = some w) :
    (∃ tw, (ComposePolicy (before ++ some p :: later)).TimeWindow = some tw ∧
      tw.Hours = w.Hours ∧ tw.Days = w.Days) ∧
    (∀ policies : List (Option Policy),
      (ComposePolicy policies).TimeWindow.map (fun tw => (tw.Hours, tw.Days)) =
        (policies.reduceOption.filterMap (fun p => p.TimeWindow)).head?.map
          (fun w => (w.Hours, w.Days))) := by
  refine ⟨?_, composePolicy_hours⟩
  have hh := composePolicy_hours (before ++ some p :: later)
  have hnil : before.reduceOption.filterMap (fun p => p.TimeWindow) = [] := by
    rw [List.filterMap_eq_nil_iff]
    intro q hq
    exact hbefore q (List.reduceOption_mem_iff.1 hq)
  have hhead : ((before ++ some p :: later).reduceOption.filterMap
      (fun p => p.TimeWindow)).head? = some w := by
    rw [List.reduceOption_append, List.filterMap_append, hnil, List.nil_append,
      List.reduceOption_cons_of_some, List.filterMap_cons, hp]
    rfl
  rw [hhead] at hh
  cases htw : (ComposePolicy (before ++ some p :: later)).TimeWindow with
  | none =>
    rw [htw] at hh
    simp at hh
  | some tw =>
    rw [htw] at hh
    simp only [Option.map_some', Option.some.injEq, Prod.mk.injEq] at hh
    exact ⟨tw, rfl, hh.1, hh.2⟩

/-- A witness of C35: the test `time windows - later start wins`, with the
hours 9 to 17 and then 10 to 17; the composition keeps the start hour 9. -/
theorem compose_hours_of_first_window_witness :
    ∃ tw, (ComposePolicy ([none, some emptyPolicy] ++
        some (windowPolicy 0 48 9) :: [some (windowPolicy 1 24 10)])).TimeWindow = some tw ∧
      tw.Hours = (9, 17) ∧ tw.Days = [] :=
  (compose_hours_of_first_window [none, some emptyPolicy] [some (windowPolicy 1 24 10)]
    (windowPolicy 0 48 9) { Start := 0, End := 48, Days := [], Hours := (9, 17) }
    (by
      intro q hq
      simp only [List.mem_cons, reduceCtorEq, Option.some.injEq, List.mem_singleton,
        List.not_mem_nil, or_false, false_or] at hq
      rw [hq]
      rfl)
    rfl).1

/-- C36. `IsAllowed` depends only on the two allowlists. Two policies with
equal ContractAllowlist and equal FunctionAllowlist get the same answer for
every contract and signature, whatever their SpendingLimits, TimeWindow,
RateLimit, ID and CreatedAt; `IsAllowed` reads no clock. A policy without
allowlists is allowed everything, whatever its time window, rate limit and
spending limits. -/
theorem isAllowed_reads_allowlists_only (keccak : List Nat → List Nat) (p q : Policy)
    (contract : X402.Address) (functionSig : String)
    (hcontracts : p.ContractAllowlist = q.ContractAllowlist)
    (hfunctions : p.FunctionAllowlist = q.FunctionAllowlist) :
    IsAllowed keccak (some p) contract functionSig =
      IsAllowed keccak (some q) contract functionSig ∧
    (∀ (id : String) (limits : List SpendingLimit) (tw : Option TimeWindow)
        (rl : Option RateLimit) (createdAt : Time),
      IsAllowed keccak
          (some { p with ID := id, SpendingLimits := limits, TimeWindow := tw, RateLimit := rl,
                         CreatedAt := createdAt }) contract functionSig =
        IsAllowed keccak (some p) contract functionSig) ∧
    (p.ContractAllowlist = none → p.FunctionAllowlist = none →
      IsAllowed keccak (some p) contract functionSig = true) := by
  refine ⟨?_, fun _ _ _ _ _ => rfl, ?_⟩
  · unfold IsAllowed
    simp only [hcontracts, hfunctions]
  · intro h1 h2
    unfold IsAllowed
    simp [h1, h2]

/-- A witness of C36: a policy with a time window, a rate limit and a spending
limit and no allowlist, next to the empty policy. -/
theorem isAllowed_reads_allowlists_only_witness :
    IsAllowed plainKeccak
        (some { windowPolicy 0 10 9 with
                RateLimit := some { MaxCalls := 0, Calls := 5, Period := 0, ResetAt := 0 }
                SpendingLimits := [limitOf (some 1) hour] }) 187 "transfer(address,uint256)" =
      IsAllowed plainKeccak (some emptyPolicy) 187 "transfer(address,uint256)" :=
  (isAllowed_reads_allowlists_only plainKeccak
    { windowPolicy 0 10 9 with
      RateLimit := some { MaxCalls := 0, Calls := 5, Period := 0, ResetAt := 0 }
      SpendingLimits := [limitOf (some 1) hour] } emptyPolicy 187 "transfer(address,uint256)"
    rfl rfl).1

end policy

namespace agent

set_option maxRecDepth 100000

/-! ## Bytes and hexadecimal -/

theorem bigEndian_length (len n : Nat) : (X402.bigEndian len n).length = len := by
  induction len generalizing n with
  | zero => rfl
  | succ len ih => simp [X402.bigEndian, ih]

theorem bigEndian_lt (len n : Nat) : ∀ b ∈ X402.bigEndian len n, b < 256 := by
  induction len generalizing n with
  | zero => simp [X402.bigEndian]
  | succ len ih =>
    intro b hb
    simp only [X402.bigEndian, List.mem_append, List.mem_singleton] at hb
    rcases hb with hb | hb
    · exact ih _ b hb
    · rw [hb]
      exact Nat.mod_lt _ (by decide)

theorem natBytesWithin_lt (fuel n : Nat) : ∀ b ∈ natBytesWithin fuel n, b < 256 := by
  induction fuel generalizing n with
  | zero => simp [natBytesWithin]
  | succ fuel ih =>
    intro b hb
    unfold natBytesWithin at hb
    split at hb
    · cases hb
    · simp only [List.mem_append, List.mem_singleton] at hb
      rcases hb with hb | hb
      · exact ih _ b hb
      · rw [hb]
        exact Nat.mod_lt _ (by decide)

theorem setBytes_append (xs : List Nat) (b : Nat) :
    SetBytes (xs ++ [b]) = SetBytes xs * 256 + b := by
  simp [SetBytes, List.foldl_append]

theorem setBytes_bigEndian (len n : Nat) :
    SetBytes (X402.bigEndian len n) = n % 256 ^ len := by
  induction len generalizing n with
  | zero => simp [X402.bigEndian, SetBytes, Nat.mod_one]
  | succ len ih =>
    simp only [X402.bigEndian]
    rw [setBytes_append, ih, pow_succ, Nat.mul_comm (256 ^ len) 256, Nat.mod_mul]
    omega

theorem common_left_pad_length (b : List Nat) (size : Nat) :
    (common_left_pad b size).length = size := by
  unfold common_left_pad
  split
  · rename_i h
    simp only [List.length_take]
    omega
  · rename_i h
    simp only [List.length_append, List.length_replicate]
    omega

theorem common_left_pad_lt (b : List Nat) (size : Nat) (hb : ∀ x ∈ b, x < 256) :
    ∀ x ∈ common_left_pad b size, x < 256 := by
  intro x hx
  unfold common_left_pad at hx
  split at hx
  · exact hb x (List.mem_of_mem_take hx)
  · simp only [List.mem_append, List.mem_replicate] at hx
    rcases hx with ⟨-, hx⟩ | hx
    · rw [hx]
      decide
    · exact hb x hx

theorem hexVal_digitChar : ∀ n < 16, hexVal (Nat.digitChar n) = some n := by
  decide

theorem decodePairs_encode (bytes : List Nat) (h : ∀ b ∈ bytes, b < 256) :
    decodePairs
        (bytes.flatMap (fun b => [Nat.digitChar (b / 16 % 16), Nat.digitChar (b % 16)])) =
      .ok bytes := by
  induction bytes with
  | nil => rfl
  | cons b rest ih =>
    have hb : b < 256 := h b (List.mem_cons_self _ _)
    have hrest := ih (fun x hx => h x (List.mem_cons_of_mem _ hx))
    have e : (b :: rest).flatMap
          (fun b => [Nat.digitChar (b / 16 % 16), Nat.digitChar (b % 16)]) =
        Nat.digitChar (b / 16 % 16) :: Nat.digitChar (b % 16) ::
          rest.flatMap (fun b => [Nat.digitChar (b / 16 % 16), Nat.digitChar (b % 16)]) := rfl
    have hv : b / 16 % 16 * 16 + b % 16 = b := by omega
    rw [e, decodePairs, hexVal_digitChar (b / 16 % 16) (Nat.mod_lt _ (by decide)),
      hexVal_digitChar (b % 16) (Nat.mod_lt _ (by decide)), hrest]
    simp only [hv]

theorem hexDecode_hexEncode (bytes : List Nat) (h : ∀ b ∈ bytes, b < 256) :
    hexDecode (policy.hexEncode bytes) = .ok bytes := by
  unfold hexDecode policy.hexEncode
  exact decodePairs_encode bytes h

/-- What `SerializeSessionKey` returns for a key whose private scalar is below
`2 ^ 256` and whose three numbers are not nil: the hexadecimal of 128 bytes that
`DeserializeSessionKey` gets back, the first 32 of which write the scalar. -/
theorem serialize_decodes (sk : SessionKey) (d : Nat) (chainID validAfter validUntil : Int)
    (hkey : sk.PrivateKey = some d) (hd : d < 2 ^ 256) (hc : sk.ChainID = some chainID)
    (ha : sk.ValidAfter = some validAfter) (hu : sk.ValidUntil = some validUntil) :
    ∃ encoded data, SerializeSessionKey (some sk) = some (.ok encoded) ∧
      hexDecode encoded = .ok data ∧ data.length = 128 ∧
      data.take 32 = X402.bigEndian 32 d ∧
      (data.drop 32).take 32 = common_left_pad (bigIntBytes chainID) 32 ∧
      (data.drop 64).take 32 = common_left_pad (bigIntBytes validAfter) 32 ∧
      (data.drop 96).take 32 = common_left_pad (bigIntBytes validUntil) 32 := by
  have hP := bigEndian_length 32 d
  have hC := common_left_pad_length (bigIntBytes chainID) 32
  have hA := common_left_pad_length (bigIntBytes validAfter) 32
  have hU := common_left_pad_length (bigIntBytes validUntil) 32
  refine ⟨policy.hexEncode (X402.bigEndian 32 d ++ common_left_pad (bigIntBytes chainID) 32 ++
      common_left_pad (bigIntBytes validAfter) 32 ++
      common_left_pad (bigIntBytes validUntil) 32),
    X402.bigEndian 32 d ++ common_left_pad (bigIntBytes chainID) 32 ++
      common_left_pad (bigIntBytes validAfter) 32 ++ common_left_pad (bigIntBytes validUntil) 32,
    ?_, ?_, ?_, ?_, ?_, ?_, ?_⟩
  · simp only [SerializeSessionKey, hkey, hc, ha, hu, FromECDSA, hd, if_true]
  · apply hexDecode_hexEncode
    intro b hb
    simp only [List.mem_append] at hb
    rcases hb with ((hb | hb) | hb) | hb
    · exact bigEndian_lt 32 d b hb
    · exact common_left_pad_lt _ _ (natBytesWithin_lt _ _) b hb
    · exact common_left_pad_lt _ _ (natBytesWithin_lt _ _) b hb
    · exact common_left_pad_lt _ _ (natBytesWithin_lt _ _) b hb
  · simp only [List.length_append, hP, hC, hA, hU]
  · rw [List.append_assoc, List.append_assoc]
    exact List.take_left' hP
  · rw [List.append_assoc, List.append_assoc, List.drop_left' hP]
    exact List.take_left' hC
  · have h64 : (X402.bigEndian 32 d ++ common_left_pad (bigIntBytes chainID) 32).length = 64 := by
      simp only [List.length_append, hP, hC]
    rw [List.append_assoc (X402.bigEndian 32 d ++ common_left_pad (bigIntBytes chainID) 32),
      List.drop_left' h64]
    exact List.take_left' hA
  · have h96 : (X402.bigEndian 32 d ++ common_left_pad (bigIntBytes chainID) 32 ++
        common_left_pad (bigIntBytes validAfter) 32).length = 96 := by
      simp only [List.length_append, hP, hC, hA]
    rw [List.drop_left' h96]
    exact List.take_of_length_le (by omega)

/-! ## Session keys -/

theorem toECDSA_bigEndian (d : Nat) (hd : 0 < d ∧ d < secp256k1N) :
    ToECDSA (X402.bigEndian 32 d) = .ok d := by
  have hN : secp256k1N < 256 ^ 32 := by decide
  have hv : SetBytes (X402.bigEndian 32 d) = d := by
    rw [setBytes_bigEndian]
    exact Nat.mod_eq_of_lt (Nat.lt_trans hd.2 hN)
  unfold ToECDSA
  rw [hv, bigEndian_length]
  have h1 : ¬ d ≥ secp256k1N := Nat.not_le.2 hd.2
  have h2 : ¬ d = 0 := Nat.pos_iff_ne_zero.1 hd.1
  simp [h1, h2]

theorem deserialize_of_data (lib : Crypto) (encoded : String) (data : List Nat) (d : Nat)
    (hdata : hexDecode encoded = .ok data) (hlen : ¬ data.length < 128)
    (hkey : ToECDSA (data.take 32) = .ok d) :
    DeserializeSessionKey lib encoded =
      .ok
        { PrivateKey := some d
          PublicKey := some (lib.PublicKey d)
          Address := lib.PubkeyToAddress (lib.PublicKey d)
          ValidAfter := some (SetBytes ((data.drop 32).take 32) : Nat)
          ValidUntil := some (SetBytes ((data.drop 64).take 32) : Nat)
          ChainID := some (SetBytes ((data.drop 96).take 32) : Nat) } := by
  unfold DeserializeSessionKey
  rw [hdata]
  simp only [hlen, if_false, hkey]

theorem setBytes_natBytesWithin (fuel : Nat) :
    ∀ n : Nat, n ≤ fuel → SetBytes (natBytesWithin fuel n) = n := by
  induction fuel with
  | zero =>
    intro n h
    have e : n = 0 := Nat.le_zero.1 h
    subst e
    rfl
  | succ fuel ih =>
    intro n h
    unfold natBytesWithin
    by_cases hz : n = 0
    · rw [if_pos hz, hz]
      rfl
    · rw [if_neg hz, setBytes_append, ih (n / 256) (by omega)]
      omega

theorem natBytesWithin_length (fuel : Nat) :
    ∀ n k : Nat, n < 256 ^ k → (natBytesWithin fuel n).length ≤ k := by
  induction fuel with
  | zero => exact fun n k _ => Nat.zero_le k
  | succ fuel ih =>
    intro n k h
    unfold natBytesWithin
    by_cases hz : n = 0
    · rw [if_pos hz]
      exact Nat.zero_le k
    · rw [if_neg hz]
      cases k with
      | zero =>
        rw [pow_zero] at h
        omega
      | succ k =>
        rw [List.length_append, List.length_singleton]
        have h2 : n / 256 < 256 ^ k := by
          rw [pow_succ] at h
          exact Nat.div_lt_of_lt_mul (by rw [Nat.mul_comm]; exact h)
        exact Nat.succ_le_succ (ih (n / 256) k h2)

theorem setBytes_zeros (k : Nat) (b : List Nat) :
    SetBytes (List.replicate k 0 ++ b) = SetBytes b := by
  unfold SetBytes
  rw [List.foldl_append]
  congr 1
  induction k with
  | zero => rfl
  | succ k ih =>
    rw [List.replicate_succ, List.foldl_cons]
    exact ih

theorem setBytes_left_pad (x : Int) (h0 : 0 ≤ x) (h : x < 2 ^ 256) :
    ((SetBytes (common_left_pad (bigIntBytes x) 32) : Nat) : Int) = x := by
  have hn : x.natAbs < 256 ^ 32 := by
    have e : ((256 : Nat) ^ 32 : Nat) = 2 ^ 256 := by norm_num
    omega
  have hlen : (natBytes x.natAbs).length ≤ 32 := natBytesWithin_length _ _ 32 hn
  have hval : SetBytes (natBytes x.natAbs) = x.natAbs :=
    setBytes_natBytesWithin _ _ (Nat.le_refl _)
  have hpad : SetBytes (common_left_pad (bigIntBytes x) 32) = x.natAbs := by
    unfold common_left_pad bigIntBytes
    by_cases hge : (natBytes x.natAbs).length ≥ 32
    · rw [if_pos hge, List.take_of_length_le hlen, hval]
    · rw [if_neg hge, setBytes_zeros, hval]
  rw [hpad]
  exact Int.natAbs_of_nonneg h0

/-- The encoding of the key with ChainID 8453, ValidAfter 1700000000 and
ValidUntil 1700003600, and the key that `DeserializeSessionKey` reads from it:
ChainID 1700003600, ValidAfter 8453 and ValidUntil 1700000000. -/
theorem roundtrip_example_encoding :
    (SerializeSessionKey (some (keyOf (some 8453) (some 1700000000) (some 1700003600)))).map
        Except.toOption =
      some (some "00000000000000000000000000000000000000000000000000000000000000070000000000000000000000000000000000000000000000000000000000002105000000000000000000000000000000000000000000000000000000006553f100000000000000000000000000000000000000000000000000000000006553ff10") ∧
    (DeserializeSessionKey exampleCrypto
        "00000000000000000000000000000000000000000000000000000000000000070000000000000000000000000000000000000000000000000000000000002105000000000000000000000000000000000000000000000000000000006553f100000000000000000000000000000000000000000000000000000000006553ff10").toOption =
      some (keyOf (some 1700003600) (some 8453) (some 1700000000)) := by
  decide

/-- C24, what the code does instead. `SerializeSessionKey` writes the scalar,
ChainID, ValidAfter and ValidUntil in this order, and `DeserializeSessionKey`
reads the three numbers back as ValidAfter, ValidUntil and ChainID. For every
session key with a private scalar between 1 and the group order and with
ChainID, ValidAfter and ValidUntil in [0, 2^256), the round trip succeeds and
returns a key whose ValidAfter is the ChainID of the key, whose ValidUntil is
its ValidAfter and whose ChainID is its ValidUntil. -/
theorem roundtrip_rotates_fields (lib : Crypto) (sk : SessionKey) (d : Nat)
    (chainID validAfter validUntil : Int)
    (hkey : sk.PrivateKey = some d) (hd : 0 < d ∧ d < secp256k1N)
    (hc : sk.ChainID = some chainID) (ha : sk.ValidAfter = some validAfter)
    (hu : sk.ValidUntil = some validUntil)
    (hcr : 0 ≤ chainID ∧ chainID < 2 ^ 256) (har : 0 ≤ validAfter ∧ validAfter < 2 ^ 256)
    (hur : 0 ≤ validUntil ∧ validUntil < 2 ^ 256) :
    ∃ encoded decoded,
      SerializeSessionKey (some sk) = some (.ok encoded) ∧
      DeserializeSessionKey lib encoded = .ok decoded ∧
      decoded.ValidAfter = some chainID ∧
      decoded.ValidUntil = some validAfter ∧
      decoded.ChainID = some validUntil := by
  have hN : secp256k1N < 2 ^ 256 := by decide
  obtain ⟨encoded, data, hser, hdec, hlen, hpriv, h1, h2, h3⟩ :=
    serialize_decodes sk d chainID validAfter validUntil hkey (Nat.lt_trans hd.2 hN) hc ha hu
  have hk : ToECDSA (data.take 32) = .ok d := by
    rw [hpriv]
    exact toECDSA_bigEndian d hd
  refine ⟨encoded, _, hser, deserialize_of_data lib encoded data d hdec (by omega) hk, ?_, ?_, ?_⟩
  · simp only [h1, setBytes_left_pad chainID hcr.1 hcr.2]
  · simp only [h2, setBytes_left_pad validAfter har.1 har.2]
  · simp only [h3, setBytes_left_pad validUntil hur.1 hur.2]

/-- The failing input of C24: the key with ChainID 8453, ValidAfter 1700000000
and ValidUntil 1700003600 comes back with ValidAfter 8453, ValidUntil
1700000000 and ChainID 1700003600. -/
theorem roundtrip_rotates_fields_witness :
    ∃ encoded decoded,
      SerializeSessionKey (some (keyOf (some 8453) (some 1700000000) (some 1700003600))) =
        some (.ok encoded) ∧
      DeserializeSessionKey exampleCrypto encoded = .ok decoded ∧
      decoded.ValidAfter = some 8453 ∧
      decoded.ValidUntil = some 1700000000 ∧
      decoded.ChainID = some 1700003600 :=
  roundtrip_rotates_fields exampleCrypto (keyOf (some 8453) (some 1700000000) (some 1700003600))
    7 8453 1700000000 1700003600 rfl (by decide) rfl rfl rfl (by decide) (by decide) (by decide)

/-- C25, as the claim states it, fails. `GenerateSessionKey` with a nil chain
id returns a key, the one of the scalar 7 generated at the second 1700000000
for one hour, and `SerializeSessionKey` panics on it: it calls `Bytes` on the
nil ChainID. -/
theorem generated_key_without_chain_panics :
    (GenerateSessionKey exampleCrypto (.ok 7) none (3600 * second)
        (1700000000 * second)).toOption =
      some (keyOf none (some 1700000000) (some 1700003600)) ∧
    (SerializeSessionKey (some (keyOf none (some 1700000000) (some 1700003600)))).isNone =
      true := by
  decide

/-- C25, amended. Serialize then deserialize is the identity on the key
material of a key generated with a chain id. For a key that
`GenerateSessionKey` returns, from a scalar between 1 and the group order and a
chain id that is not nil, `SerializeSessionKey` returns an encoding that
`DeserializeSessionKey` accepts, and the key it returns has the same private
scalar and the same Address. That Address is derived from the scalar that the
first 32 bytes of the payload write; the Address of the key is not part of the
encoding. On every key that `GenerateSessionKey` returns for a nil chain id,
`SerializeSessionKey` panics. -/
theorem roundtrip_key_material (lib : Crypto) (d : Nat) (chainID : Int) (duration : Duration)
    (now : Time) (sk : SessionKey) (hd : 0 < d ∧ d < secp256k1N)
    (hgen : GenerateSessionKey lib (.ok d) (some chainID) duration now = .ok sk) :
    (∃ encoded data decoded,
      SerializeSessionKey (some sk) = some (.ok encoded) ∧
      DeserializeSessionKey lib encoded = .ok decoded ∧
      decoded.PrivateKey = sk.PrivateKey ∧ decoded.PrivateKey = some d ∧
      decoded.Address = sk.Address ∧
      hexDecode encoded = .ok data ∧
      decoded.Address = lib.PubkeyToAddress (lib.PublicKey (SetBytes (data.take 32))) ∧
      (∀ address : X402.Address,
        SerializeSessionKey (some { sk with Address := address }) = some (.ok encoded))) ∧
    (∀ (generated : Nat) (lifetime : Duration) (clock : Time) (unchained : SessionKey),
      GenerateSessionKey lib (.ok generated) none lifetime clock = .ok unchained →
      SerializeSessionKey (some unchained) = none) := by
  have hN : secp256k1N < 2 ^ 256 := by decide
  have hsk : sk =
      { PrivateKey := some d
        PublicKey := some (lib.PublicKey d)
        Address := lib.PubkeyToAddress (lib.PublicKey d)
        ValidAfter := some now.Unix
        ValidUntil := some (now.Add duration).Unix
        ChainID := some chainID } := by
    simp only [GenerateSessionKey, Except.ok.injEq] at hgen
    exact hgen.symm
  obtain ⟨encoded, data, hser, hdec, hlen, hpriv, -, -, -⟩ :=
    serialize_decodes sk d chainID now.Unix (now.Add duration).Unix (by rw [hsk])
      (Nat.lt_trans hd.2 hN) (by rw [hsk]) (by rw [hsk]) (by rw [hsk])
  have hkey : ToECDSA (data.take 32) = .ok d := by
    rw [hpriv]
    exact toECDSA_bigEndian d hd
  have hv : SetBytes (data.take 32) = d := by
    rw [hpriv, setBytes_bigEndian]
    exact Nat.mod_eq_of_lt (Nat.lt_trans hd.2 (by decide))
  constructor
  · refine ⟨encoded, data, _, hser, deserialize_of_data lib encoded data d hdec (by omega) hkey,
      ?_, rfl, ?_, hdec, ?_, ?_⟩
    · rw [hsk]
    · rw [hsk]
    · rw [hv]
    · intro address
      rw [← hser]
      rw [hsk]
      rfl
  · intro generated lifetime clock unchained hnil
    simp only [GenerateSessionKey, Except.ok.injEq] at hnil
    rw [← hnil]
    rfl

/-- A witness of the amended C25: the key generated from the scalar 7 for
chain 8453. -/
theorem roundtrip_key_material_witness :
    ∃ encoded data decoded,
      SerializeSessionKey (some (keyOf (some 8453) (some 1700000000) (some 1700003600))) =
        some (.ok encoded) ∧
      DeserializeSessionKey exampleCrypto encoded = .ok decoded ∧
      decoded.PrivateKey = (keyOf (some 8453) (some 1700000000) (some 1700003600)).PrivateKey ∧
      decoded.PrivateKey = some 7 ∧
      decoded.Address = (keyOf (some 8453) (some 1700000000) (some 1700003600)).Address ∧
      hexDecode encoded = .ok data ∧
      decoded.Address =
        exampleCrypto.PubkeyToAddress (exampleCrypto.PublicKey (SetBytes (data.take 32))) ∧
      (∀ address : X402.Address,
        SerializeSessionKey
            (some { keyOf (some 8453) (some 1700000000) (some 1700003600) with
                    Address := address }) =
          some (.ok encoded)) :=
  (roundtrip_key_material exampleCrypto 7 8453 (3600 * second) (1700000000 * second)
    (keyOf (some 8453) (some 1700000000) (some 1700003600)) (by decide)
    (congrArg Except.ok (by decide))).1

theorem validateSessionKey_eq (lib : Crypto) (sk : SessionKey) (clock : Time) :
    ValidateSessionKey lib (some sk) clock =
      match sk.PrivateKey with
      | none => some "missing private key"
      | some d =>
        if (sk.ChainID = none ∨ ∃ c, sk.ChainID = some c ∧ c ≤ 0) then some "invalid chain ID"
        else if (∃ a, sk.ValidAfter = some a ∧ clock.Unix < a) then
          some "session key not yet valid"
        else if (∃ u, sk.ValidUntil = some u ∧ clock.Unix > u) then some "session key expired"
        else if sk.Address ≠ lib.PubkeyToAddress (lib.PublicKey d) then some "address mismatch"
        else none := by
  rcases sk with ⟨pk, pub, addr, va, vu, cid⟩
  cases pk with
  | none => rfl
  | some d =>
    cases cid with
    | none => simp [ValidateSessionKey]
    | some c =>
      by_cases hcz : c ≤ 0
      · simp [ValidateSessionKey, hcz]
      · cases va <;> cases vu <;> simp [ValidateSessionKey, hcz]

/-- C26. `ValidateSessionKey` applies its checks in a fixed order and the first
failure wins: 'missing private key' iff the private key is absent; else
'invalid chain ID' iff ChainID is absent or <= 0; else 'session key not yet
valid' iff now is before ValidAfter; else 'session key expired' iff now is
after ValidUntil; else 'address mismatch' iff Address is not the address
derived from the private key; else nil. Here now is the clock reading in whole
seconds. A key that passes the other checks is valid when now equals ValidAfter
or ValidUntil. -/
theorem validateSessionKey_order (lib : Crypto) (sk : SessionKey) (clock : Time) :
    (ValidateSessionKey lib (some sk) clock = some "missing private key" ↔
      sk.PrivateKey = none) ∧
    (ValidateSessionKey lib (some sk) clock = some "invalid chain ID" ↔
      sk.PrivateKey ≠ none ∧ (sk.ChainID = none ∨ ∃ c, sk.ChainID = some c ∧ c ≤ 0)) ∧
    (ValidateSessionKey lib (some sk) clock = some "session key not yet valid" ↔
      sk.PrivateKey ≠ none ∧ ¬ (sk.ChainID = none ∨ ∃ c, sk.ChainID = some c ∧ c ≤ 0) ∧
      ∃ a, sk.ValidAfter = some a ∧ clock.Unix < a) ∧
    (ValidateSessionKey lib (some sk) clock = some "session key expired" ↔
      sk.PrivateKey ≠ none ∧ ¬ (sk.ChainID = none ∨ ∃ c, sk.ChainID = some c ∧ c ≤ 0) ∧
      (¬ ∃ a, sk.ValidAfter = some a ∧ clock.Unix < a) ∧
      ∃ u, sk.ValidUntil = some u ∧ clock.Unix > u) ∧
    (ValidateSessionKey lib (some sk) clock = some "address mismatch" ↔
      ¬ (sk.ChainID = none ∨ ∃ c, sk.ChainID = some c ∧ c ≤ 0) ∧
      (¬ ∃ a, sk.ValidAfter = some a ∧ clock.Unix < a) ∧
      (¬ ∃ u, sk.ValidUntil = some u ∧ clock.Unix > u) ∧
      ∃ d, sk.PrivateKey = some d ∧ sk.Address ≠ lib.PubkeyToAddress (lib.PublicKey d)) ∧
    (ValidateSessionKey lib (some sk) clock = none ↔
      ¬ (sk.ChainID = none ∨ ∃ c, sk.ChainID = some c ∧ c ≤ 0) ∧
      (¬ ∃ a, sk.ValidAfter = some a ∧ clock.Unix < a) ∧
      (¬ ∃ u, sk.ValidUntil = some u ∧ clock.Unix > u) ∧
      ∃ d, sk.PrivateKey = some d ∧ sk.Address = lib.PubkeyToAddress (lib.PublicKey d)) ∧
    (∀ d c a u, sk.PrivateKey = some d → sk.ChainID = some c → c > 0 →
      sk.ValidAfter = some a → sk.ValidUntil = some u →
      sk.Address = lib.PubkeyToAddress (lib.PublicKey d) →
      a ≤ u → (clock.Unix = a ∨ clock.Unix = u) →
      ValidateSessionKey lib (some sk) clock = none) := by
  rw [validateSessionKey_eq]
  refine ⟨?_, ?_, ?_, ?_, ?_, ?_, ?_⟩
  · cases sk.PrivateKey with
    | none => simp
    | some d =>
      simp only [reduceCtorEq, iff_false]
      split_ifs <;> simp
  · cases sk.PrivateKey with
    | none => simp
    | some d =>
      simp only [ne_eq, reduceCtorEq, not_false_eq_true, true_and]
      split_ifs <;> simp_all
  · cases sk.PrivateKey with
    | none => simp
    | some d =>
      simp only [ne_eq, reduceCtorEq, not_false_eq_true, true_and]
      split_ifs <;> simp_all
  · cases sk.PrivateKey with
    | none => simp
    | some d =>
      simp only [ne_eq, reduceCtorEq, not_false_eq_true, true_and]
      split_ifs <;> simp_all
  · cases sk.PrivateKey with
    | none => simp
    | some d =>
      simp only [Option.some.injEq, exists_eq_left']
      split_ifs <;> simp_all
  · cases sk.PrivateKey with
    | none => simp
    | some d =>
      simp only [Option.some.injEq, exists_eq_left']
      split_ifs <;> simp_all
  · intro d c a u hd hc hpos ha hu haddr hle hnow
    simp only [hd, hc, ha, hu, haddr]
    have h1 : ¬ c ≤ 0 := not_le.2 hpos
    have h2 : ¬ clock.Unix < a := by
      rcases hnow with h | h
      · rw [h]
        exact lt_irrefl a
      · rw [h]
        exact not_lt.2 hle
    have h3 : ¬ clock.Unix > u := by
      rcases hnow with h | h
      · rw [h]
        exact not_lt.2 hle
      · rw [h]
        exact lt_irrefl u
    simp [h1, h2, h3]

/-- A witness of C26: a key valid from second 10 to second 20 is valid at
second 10 and at second 20. -/
theorem validateSessionKey_order_witness :
    ValidateSessionKey exampleCrypto (some (keyOf (some 1) (some 10) (some 20))) (10 * second) =
      none ∧
    ValidateSessionKey exampleCrypto (some (keyOf (some 1) (some 10) (some 20))) (20 * second) =
      none :=
  ⟨(validateSessionKey_order exampleCrypto (keyOf (some 1) (some 10) (some 20))
      (10 * second)).2.2.2.2.2.2 7 1 10 20 rfl rfl (by decide) rfl rfl rfl (by decide)
      (Or.inl (by decide)),
    (validateSessionKey_order exampleCrypto (keyOf (some 1) (some 10) (some 20))
      (20 * second)).2.2.2.2.2.2 7 1 10 20 rfl rfl (by decide) rfl rfl rfl (by decide)
      (Or.inr (by decide))⟩

/-- C27, as the claim states it, fails: a key generated at second 10 for a
duration of one nanosecond has ValidUntil equal to ValidAfter; so has a key
generated for the millisecond of the tests. -/
theorem subsecond_key_has_equal_bounds :
    (GenerateSessionKey exampleCrypto (.ok 7) (some 8453) 1 (10 * second)).toOption.map
        (fun sk => (sk.ValidAfter, sk.ValidUntil)) = some (some 10, some 10) ∧
    (GenerateSessionKey exampleCrypto (.ok 7) (some 8453) 1000000 (10 * second)).toOption.map
        (fun sk => (sk.ValidAfter, sk.ValidUntil)) = some (some 10, some 10) := by
  decide

/-- C27, amended. The key that `GenerateSessionKey` returns has ValidAfter the
whole seconds of now and ValidUntil the whole seconds of now + d. For every
duration d > 0, ValidUntil is at least ValidAfter; for every duration d of one
second or more, ValidUntil is strictly greater than ValidAfter. -/
theorem generated_key_bounds (lib : Crypto) (d : Nat) (chainID : Option Int)
    (duration : Duration) (now : Time) (sk : SessionKey)
    (hgen : GenerateSessionKey lib (.ok d) chainID duration now = .ok sk) :
    ∃ a u : Int, sk.ValidAfter = some a ∧ sk.ValidUntil = some u ∧
      a = now / 1000000000 ∧ u = (now + duration) / 1000000000 ∧
      (duration > 0 → u ≥ a) ∧ (duration ≥ 1000000000 → u > a) := by
  simp only [GenerateSessionKey, Except.ok.injEq] at hgen
  subst hgen
  refine ⟨now / 1000000000, (now + duration) / 1000000000, rfl, rfl, rfl, rfl, ?_, ?_⟩
  · intro h
    simp only [Duration, Time] at *
    omega
  · intro h
    simp only [Duration, Time] at *
    omega

/-- A witness of the amended C27: the test `success`, a key for one hour. -/
theorem generated_key_bounds_witness :
    ∃ a u : Int, (keyOf (some 8453) (some 1700000000) (some 1700003600)).ValidAfter = some a ∧
      (keyOf (some 8453) (some 1700000000) (some 1700003600)).ValidUntil = some u ∧
      a = (1700000000 * second) / 1000000000 ∧
      u = (1700000000 * second + 3600 * second) / 1000000000 ∧
      ((3600 * second) > 0 → u ≥ a) ∧ ((3600 * second) ≥ 1000000000 → u > a) :=
  generated_key_bounds exampleCrypto 7 (some 8453) (3600 * second) (1700000000 * second)
    (keyOf (some 8453) (some 1700000000) (some 1700003600)) (congrArg Except.ok (by decide))

/-! ## The registry of agents -/

theorem lookup_mapEntries (F : String × Agent → String × Agent) (g : String → Agent → Agent)
    (h : ∀ e, F e = (e.1, g e.1 e.2)) (id : String) (agents : List (String × Agent)) :
    (agents.map F).lookup id = (agents.lookup id).map (g id) := by
  induction agents with
  | nil => rfl
  | cons e rest ih =>
    rcases e with ⟨k, a⟩
    rw [List.map_cons, h, List.lookup_cons, List.lookup_cons]
    cases hk : id == k with
    | true =>
      have e : id = k := by simpa using hk
      subst e
      rfl
    | false => exact ih

theorem lookup_modify (agents : List (String × Agent)) (id : String) (f : Agent → Agent)
    (id2 : String) :
    (modify agents id f).lookup id2 =
      (agents.lookup id2).map (fun a => if id2 = id then f a else a) := by
  unfold modify
  apply lookup_mapEntries _ (fun k a => if k = id then f a else a)
  intro e
  by_cases h : e.1 = id <;> simp [h]

theorem lookup_mem (agents : List (String × Agent)) (id : String) (a : Agent)
    (h : agents.lookup id = some a) : (id, a) ∈ agents := by
  induction agents with
  | nil => simp at h
  | cons e rest ih =>
    rcases e with ⟨k, b⟩
    rw [List.lookup_cons] at h
    cases hk : id == k with
    | true =>
      rw [hk] at h
      have e : id = k := by simpa using hk
      have e2 : b = a := by simpa using h
      subst e
      subst e2
      exact List.mem_cons_self _ _
    | false =>
      rw [hk] at h
      exact List.mem_cons_of_mem _ (ih h)

theorem refresh_status (a : Agent) (now : Time) :
    refresh a now =
      { a with
        Status :=
          if a.Status = AgentStatus.Active ∧ now.After a.ExpiresAt = true then AgentStatus.Expired
          else a.Status } := by
  unfold refresh
  split_ifs <;> rfl

theorem refresh_revoked (a : Agent) (now : Time) (h : a.Status = AgentStatus.Revoked) :
    (refresh a now).Status = AgentStatus.Revoked := by
  rw [refresh_status]
  simp [h]

theorem after_lookup (s : AgentService) (id : String) (call : Call) :
    ∃ f : Agent → Agent, (s.after call).agents.lookup id = (s.agents.lookup id).map f ∧
      ∀ a, a.Status = AgentStatus.Revoked → (f a).Status = AgentStatus.Revoked := by
  cases call with
  | get id2 now =>
    simp only [AgentService.after, AgentService.GetAgent]
    cases h2 : s.agents.lookup id2 with
    | none => exact ⟨fun a => a, by simp, fun a h => h⟩
    | some b =>
      refine ⟨fun a => if id = id2 then refresh a now else a,
        lookup_modify s.agents id2 (fun a => refresh a now) id, ?_⟩
      intro a h
      by_cases e : id = id2
      · simp only [e, if_true]
        exact refresh_revoked a now h
      · simp only [e, if_false]
        exact h
  | list walletAddr now =>
    simp only [AgentService.after, AgentService.ListAgents]
    refine ⟨fun a => if a.WalletAddress = walletAddr then refresh a now else a,
      lookup_mapEntries _ (fun _ a => if a.WalletAddress = walletAddr then refresh a now else a)
        ?_ id s.agents, ?_⟩
    · intro e
      by_cases h : e.2.WalletAddress = walletAddr <;> simp [h]
    · intro a h
      by_cases e : a.WalletAddress = walletAddr
      · simp only [e, if_true]
        exact refresh_revoked a now h
      · simp only [e, if_false]
        exact h
  | revoke id2 =>
    simp only [AgentService.after, AgentService.RevokeAgent]
    cases h2 : s.agents.lookup id2 with
    | none => exact ⟨fun a => a, by simp, fun a h => h⟩
    | some b =>
      refine ⟨fun a => if id = id2 then { a with Status := AgentStatus.Revoked } else a,
        lookup_modify s.agents id2 (fun a => { a with Status := AgentStatus.Revoked }) id, ?_⟩
      intro a h
      by_cases e : id = id2
      · simp only [e, if_true]
      · simp only [e, if_false]
        exact h

theorem afterAll_revoked (id : String) (calls : List Call) :
    ∀ s : AgentService,
      (s.agents.lookup id).map (fun a => a.Status) = some AgentStatus.Revoked →
      ((s.afterAll calls).agents.lookup id).map (fun a => a.Status) =
        some AgentStatus.Revoked := by
  induction calls with
  | nil => exact fun s h => h
  | cons call rest ih =>
    intro s h
    apply ih (s.after call)
    obtain ⟨f, hf, hrev⟩ := after_lookup s id call
    rw [hf]
    cases ha : s.agents.lookup id with
    | none => rw [ha] at h; simp at h
    | some a =>
      rw [ha] at h
      simp only [Option.map_some', Option.some.injEq] at h ⊢
      exact hrev a h

theorem sign_of_validation_error (lib : Crypto) (sk : Option SessionKey) (hash : List Nat)
    (clock : Time) (err : String) (h : ValidateSessionKey lib sk clock = some err) :
    SignWithSessionKey lib sk hash clock = .error err := by
  unfold SignWithSessionKey
  rw [h]

theorem createAgent_ok (s : AgentService) (lib : Crypto) (d : Nat) (params : CreateAgentParams)
    (keyTime now : Time) (a : Agent) (s1 : AgentService)
    (h : s.CreateAgent lib (.ok d) params keyTime now = (.ok a, s1)) :
    a.SessionKey =
        some
          { PrivateKey := some d
            PublicKey := some (lib.PublicKey d)
            Address := lib.PubkeyToAddress (lib.PublicKey d)
            ValidAfter := some keyTime.Unix
            ValidUntil := some (keyTime.Add params.Config.Duration).Unix
            ChainID := params.ChainID } ∧
      a.Status = AgentStatus.Active ∧ a.CreatedAt = now ∧
      a.ExpiresAt = now.Add params.Config.Duration ∧
      s1.agents.lookup a.ID = some a := by
  simp only [AgentService.CreateAgent, GenerateSessionKey, Prod.mk.injEq, Except.ok.injEq] at h
  obtain ⟨ha, hs⟩ := h
  subst ha
  subst hs
  refine ⟨rfl, rfl, rfl, rfl, ?_⟩
  simp [List.lookup_cons]

/-- C28, as the claim states it, fails. The agent created for one hour at the
second 1700000000 and revoked has status Revoked in the registry, and one
second after its creation `ValidateSessionKey` on its session key returns nil
and `SignWithSessionKey` returns a signature. The same agent, not revoked, is
returned with status Expired by `GetAgent` and by `ListAgents` one nanosecond
after its ExpiresAt, and at that time its key is valid and signs. -/
theorem revoked_agent_key_still_signs :
    revokedRegistry.agents.map (fun entry =>
        (entry.2.Status,
          ValidateSessionKey exampleCrypto entry.2.SessionKey (1700000001 * second),
          (SignWithSessionKey exampleCrypto entry.2.SessionKey [1, 2, 3]
            (1700000001 * second)).toOption)) =
      [(AgentStatus.Revoked, none, some [1, 2, 3, 7])] ∧
    createdRegistry.agents.flatMap (fun entry =>
        ((createdRegistry.GetAgent entry.1 (1700003600 * second + 1)).1.toOption.toList.map
          (fun a =>
            (a.Status, (a.ExpiresAt : Int),
              ValidateSessionKey exampleCrypto a.SessionKey (1700003600 * second + 1),
              (SignWithSessionKey exampleCrypto a.SessionKey [1, 2, 3]
                (1700003600 * second + 1)).toOption)))) =
      [(AgentStatus.Expired, 1700003600000000000, none, some [1, 2, 3, 7])] ∧
    (createdRegistry.ListAgents 170 (1700003600 * second + 1)).1.map (fun a =>
        (a.Status, ValidateSessionKey exampleCrypto a.SessionKey (1700003600 * second + 1))) =
      [(AgentStatus.Expired, none)] := by
  decide

/-- C28, amended. Revocation does not reach the session key, and the expiry of
the agent is to the nanosecond while the expiry of the key is in whole seconds.
For an agent that `CreateAgent` returns (its two clock readings in order) and
every time t of one second or more after its ExpiresAt, `ValidateSessionKey` on
the session key of the agent returns an error, and `SignWithSessionKey` returns
the same error and no signature. `RevokeAgent` stores the status Revoked and
leaves the session key as it is. Whenever `ValidateSessionKey` returns an
error, `SignWithSessionKey` returns that error. -/
theorem expired_key_cannot_sign (s : AgentService) (lib : Crypto) (d : Nat)
    (params : CreateAgentParams) (keyTime now : Time) (a : Agent) (s1 : AgentService)
    (t : Time) (hash : List Nat)
    (hcreate : s.CreateAgent lib (.ok d) params keyTime now = (.ok a, s1))
    (horder : keyTime ≤ now) (ht : t ≥ a.ExpiresAt + second) :
    (∃ err, ValidateSessionKey lib a.SessionKey t = some err ∧
      SignWithSessionKey lib a.SessionKey hash t = .error err) ∧
    (∃ revoked, (s1.RevokeAgent a.ID).1 = none ∧
      (s1.RevokeAgent a.ID).2.agents.lookup a.ID = some revoked ∧
      revoked.Status = AgentStatus.Revoked ∧ revoked.SessionKey = a.SessionKey) ∧
    (∀ sk clock err, ValidateSessionKey lib sk clock = some err →
      SignWithSessionKey lib sk hash clock = .error err) := by
  obtain ⟨hkey, -, -, hexp, hlook⟩ := createAgent_ok s lib d params keyTime now a s1 hcreate
  refine ⟨?_, ?_, fun sk clock err h => sign_of_validation_error lib sk hash clock err h⟩
  · have hlate : t.Unix > (keyTime.Add params.Config.Duration).Unix := by
      rw [hexp] at ht
      simp only [Time.Unix, Time.Add, second, Time, Duration] at *
      omega
    have hv : ∃ err, ValidateSessionKey lib a.SessionKey t = some err := by
      rw [hkey, validateSessionKey_eq]
      simp only
      split_ifs with h1 h2 h3 h4
      · exact ⟨_, rfl⟩
      · exact ⟨_, rfl⟩
      · exact ⟨_, rfl⟩
      · exact absurd ⟨_, rfl, hlate⟩ h3
      · exact absurd ⟨_, rfl, hlate⟩ h3
    obtain ⟨err, herr⟩ := hv
    exact ⟨err, herr, sign_of_validation_error lib _ hash t err herr⟩
  · refine ⟨{ a with Status := AgentStatus.Revoked }, ?_, ?_, rfl, rfl⟩
    · simp only [AgentService.RevokeAgent, hlook]
    · simp only [AgentService.RevokeAgent, hlook]
      rw [lookup_modify, hlook]
      simp

/-- A witness of the amended C28: the agent created for one hour at the second
1700000000, one second after its ExpiresAt. -/
theorem expired_key_cannot_sign_witness :
    ∃ a : Agent,
      NewAgentService.CreateAgent exampleCrypto (.ok 7) (exampleParams (3600 * second))
          (1700000000 * second) (1700000000 * second) = (.ok a, createdRegistry) ∧
      (∃ err, ValidateSessionKey exampleCrypto a.SessionKey (1700003601 * second) = some err ∧
        SignWithSessionKey exampleCrypto a.SessionKey [1, 2, 3] (1700003601 * second) =
          .error err) ∧
      (∃ revoked, (createdRegistry.RevokeAgent a.ID).1 = none ∧
        (createdRegistry.RevokeAgent a.ID).2.agents.lookup a.ID = some revoked ∧
        revoked.Status = AgentStatus.Revoked ∧ revoked.SessionKey = a.SessionKey) ∧
      (∀ sk clock err, ValidateSessionKey exampleCrypto sk clock = some err →
        SignWithSessionKey exampleCrypto sk [1, 2, 3] clock = .error err) :=
  ⟨_, rfl,
    expired_key_cannot_sign NewAgentService exampleCrypto 7 (exampleParams (3600 * second))
      (1700000000 * second) (1700000000 * second) _ createdRegistry (1700003601 * second)
      [1, 2, 3] rfl (by decide) (by decide)⟩

theorem reported_revoked (s : AgentService) (id : String) (call : Call) (st : AgentStatus)
    (h : (s.agents.lookup id).map (fun a => a.Status) = some AgentStatus.Revoked)
    (hr : s.reported id call = some st) : st = AgentStatus.Revoked := by
  cases ha : s.agents.lookup id with
  | none => rw [ha] at h; simp at h
  | some a =>
    rw [ha] at h
    have hst : a.Status = AgentStatus.Revoked := by simpa using h
    cases call with
    | get id2 now =>
      simp only [AgentService.reported] at hr
      by_cases e : id2 = id
      · subst e
        simp only [if_true, AgentService.GetAgent, ha] at hr
        have e2 : (refresh a now).Status = st := by simpa using hr
        rw [← e2]
        exact refresh_revoked a now hst
      · simp [e] at hr
    | list walletAddr now =>
      simp only [AgentService.reported, ha] at hr
      by_cases e : a.WalletAddress = walletAddr
      · simp only [e, if_true, AgentService.ListAgents] at hr
        rw [lookup_mapEntries _
          (fun _ a => if a.WalletAddress = walletAddr then refresh a now else a) ?_ id s.agents,
          ha] at hr
        · simp only [Option.map_some', e, if_true, Option.some.injEq] at hr
          rw [← hr]
          exact refresh_revoked a now hst
        · intro entry
          by_cases h2 : entry.2.WalletAddress = walletAddr <;> simp [h2]
      · simp [e] at hr
    | revoke id2 =>
      simp only [AgentService.reported] at hr
      by_cases e : id2 = id
      · subst e
        simp only [if_true, AgentService.RevokeAgent, ha] at hr
        rw [lookup_modify, ha] at hr
        simp only [Option.map_some', if_true, Option.some.injEq] at hr
        exact hr.symm
      · simp [e] at hr

/-- C29. The status of an agent is recomputed on every read, and revocation is
permanent. For the agent a stored under id and a clock reading now, `GetAgent`
returns a with the status Expired when the stored status is Active and now is
after ExpiresAt, and with the stored status otherwise, and stores what it
returns; `ListAgents` of the wallet of a does the same, and every agent it
returns is a stored agent of that wallet with its status so recomputed. When
the stored status is Revoked, it is Revoked after every sequence of `GetAgent`,
`ListAgents` and `RevokeAgent` calls, at any clock readings, and every such
call that reports on the agent reports Revoked. `RevokeAgent` of id returns nil
and stores a with the status Revoked, whatever the status of a was; after it,
and after every sequence of later `GetAgent`, `ListAgents` and `RevokeAgent`
calls at any clock readings, the stored status is Revoked, every such call
that reports on the agent reports Revoked, and `GetAgent` of id returns the
agent with the status Revoked. -/
theorem status_recomputed_on_read (s : AgentService) (id : String) (a : Agent) (now : Time)
    (hstored : s.agents.lookup id = some a) :
    (s.GetAgent id now).1 =
        .ok { a with
              Status :=
                if a.Status = AgentStatus.Active ∧ now.After a.ExpiresAt = true then
                  AgentStatus.Expired
                else a.Status } ∧
      (s.GetAgent id now).2.agents.lookup id =
        some { a with
               Status :=
                 if a.Status = AgentStatus.Active ∧ now.After a.ExpiresAt = true then
                   AgentStatus.Expired
                 else a.Status } ∧
      { a with
        Status :=
          if a.Status = AgentStatus.Active ∧ now.After a.ExpiresAt = true then AgentStatus.Expired
          else a.Status } ∈ (s.ListAgents a.WalletAddress now).1 ∧
      (s.ListAgents a.WalletAddress now).2.agents.lookup id =
        some { a with
               Status :=
                 if a.Status = AgentStatus.Active ∧ now.After a.ExpiresAt = true then
                   AgentStatus.Expired
                 else a.Status } ∧
      (∀ walletAddr, ∀ r ∈ (s.ListAgents walletAddr now).1,
        ∃ entry ∈ s.agents, entry.2.WalletAddress = walletAddr ∧
          r = { entry.2 with
                Status :=
                  if entry.2.Status = AgentStatus.Active ∧ now.After entry.2.ExpiresAt = true then
                    AgentStatus.Expired
                  else entry.2.Status }) ∧
      (a.Status ≠ AgentStatus.Expired →
        (((s.GetAgent id now).2.agents.lookup id).map (fun r => r.Status) =
            some AgentStatus.Expired ↔
          a.Status = AgentStatus.Active ∧ now.After a.ExpiresAt = true)) ∧
      (a.Status = AgentStatus.Revoked →
        ∀ calls : List Call,
          ((s.afterAll calls).agents.lookup id).map (fun r => r.Status) =
              some AgentStatus.Revoked ∧
          ∀ call st, (s.afterAll calls).reported id call = some st →
            st = AgentStatus.Revoked) ∧
      (s.RevokeAgent id).1 = none ∧
      (s.RevokeAgent id).2.agents.lookup id = some { a with Status := AgentStatus.Revoked } ∧
      (∀ calls : List Call,
        (((s.RevokeAgent id).2.afterAll calls).agents.lookup id).map (fun r => r.Status) =
            some AgentStatus.Revoked ∧
        (∀ call st, ((s.RevokeAgent id).2.afterAll calls).reported id call = some st →
          st = AgentStatus.Revoked) ∧
        ∀ later : Time, ∃ r,
          (((s.RevokeAgent id).2.afterAll calls).GetAgent id later).1 = .ok r ∧
            r.Status = AgentStatus.Revoked) := by
  have hget : s.GetAgent id now =
      (.ok (refresh a now), { agents := modify s.agents id (fun a => refresh a now) }) := by
    simp only [AgentService.GetAgent, hstored]
  have hlist : (s.ListAgents a.WalletAddress now).2.agents.lookup id = some (refresh a now) := by
    simp only [AgentService.ListAgents]
    rw [lookup_mapEntries _
      (fun _ b => if b.WalletAddress = a.WalletAddress then refresh b now else b) ?_ id s.agents,
      hstored]
    · simp
    · intro entry
      by_cases h2 : entry.2.WalletAddress = a.WalletAddress <;> simp [h2]
  have hrevoke : s.RevokeAgent id =
      (none,
        { agents := modify s.agents id (fun a => { a with Status := AgentStatus.Revoked }) }) := by
    simp only [AgentService.RevokeAgent, hstored]
  have hstoredRevoked : (s.RevokeAgent id).2.agents.lookup id =
      some { a with Status := AgentStatus.Revoked } := by
    rw [hrevoke]
    simp only
    rw [lookup_modify, hstored]
    simp
  refine ⟨?_, ?_, ?_, ?_, ?_, ?_, ?_, ?_, hstoredRevoked, ?_⟩
  · rw [hget, ← refresh_status]
  · rw [hget, ← refresh_status]
    simp only
    rw [lookup_modify, hstored]
    simp
  · rw [← refresh_status]
    simp only [AgentService.ListAgents, List.mem_map, List.mem_filter, decide_eq_true_eq]
    exact ⟨(id, a), ⟨lookup_mem s.agents id a hstored, rfl⟩, rfl⟩
  · rw [← refresh_status]
    exact hlist
  · intro walletAddr r hr
    simp only [AgentService.ListAgents, List.mem_map, List.mem_filter, decide_eq_true_eq] at hr
    obtain ⟨entry, ⟨hmem, hw⟩, he⟩ := hr
    exact ⟨entry, hmem, hw, by rw [← he, refresh_status]⟩
  · intro hne
    rw [hget]
    simp only
    rw [lookup_modify, hstored]
    simp only [Option.map_some', if_true, Option.some.injEq, refresh_status]
    constructor
    · intro h
      by_contra hc
      rw [if_neg hc] at h
      exact hne h
    · intro h
      rw [if_pos h]
  · intro hrev calls
    have h := afterAll_revoked id calls s (by rw [hstored]; simp [hrev])
    exact ⟨h, fun call st hr => reported_revoked _ id call st h hr⟩
  · rw [hrevoke]
  · intro calls
    have h := afterAll_revoked id calls (s.RevokeAgent id).2 (by rw [hstoredRevoked]; rfl)
    refine ⟨h, fun call st hr => reported_revoked _ id call st h hr, ?_⟩
    intro later
    cases hx : ((s.RevokeAgent id).2.afterAll calls).agents.lookup id with
    | none =>
      rw [hx] at h
      simp at h
    | some x =>
      rw [hx] at h
      have hst : x.Status = AgentStatus.Revoked := by simpa using h
      refine ⟨refresh x later, ?_, refresh_revoked x later hst⟩
      simp only [AgentService.GetAgent, hx]

/-- A witness of C29: the agent of the example registry, read one nanosecond
after its ExpiresAt; and the same agent revoked while Active, then read by
`GetAgent` and `ListAgents` after its ExpiresAt: its status stays Revoked. -/
theorem status_recomputed_on_read_witness :
    createdRegistry.agents.lookup "00000000000000000000000000000000" = some createdAgent ∧
      (createdRegistry.GetAgent "00000000000000000000000000000000"
          (1700003600 * second + 1)).2.agents.lookup "00000000000000000000000000000000" =
        some { createdAgent with Status := AgentStatus.Expired } ∧
      (createdRegistry.RevokeAgent "00000000000000000000000000000000").2.agents.lookup
          "00000000000000000000000000000000" =
        some { createdAgent with Status := AgentStatus.Revoked } ∧
      (((createdRegistry.RevokeAgent "00000000000000000000000000000000").2.afterAll
          [.get "00000000000000000000000000000000" (1700003600 * second + 1),
            .list 170 (1700003600 * second + 2)]).agents.lookup
          "00000000000000000000000000000000").map (fun r => r.Status) =
        some AgentStatus.Revoked :=
  ⟨by decide,
    (status_recomputed_on_read createdRegistry "00000000000000000000000000000000" createdAgent
      (1700003600 * second + 1) (by decide)).2.1,
    (status_recomputed_on_read createdRegistry "00000000000000000000000000000000" createdAgent
      (1700003600 * second + 1) (by decide)).2.2.2.2.2.2.2.2.1,
    ((status_recomputed_on_read createdRegistry "00000000000000000000000000000000" createdAgent
      (1700003600 * second + 1) (by decide)).2.2.2.2.2.2.2.2.2
      [.get "00000000000000000000000000000000" (1700003600 * second + 1),
        .list 170 (1700003600 * second + 2)]).1⟩

end agent

namespace wallet

set_option maxRecDepth 100000

/-! ## Lemmas on recovery -/

theorem lookup_put {α : Type} (m : List (X402.Address × α)) (k : X402.Address) (v : α) :
    (put m k v).lookup k = some v := by
  simp [put, List.lookup]

/-- C39, what the code does instead. `ApproveRecovery` checks that the
signature is one of the address it is given and never looks at the guardians
of the wallet. For a wallet of the service whose first guardian has Threshold
at most 1, and an address that is no guardian of the wallet and has signed the
recovery hash: after `InitiateRecovery`, `ApproveRecovery` for that address
returns nil and `ExecuteRecovery` returns nil and sets the Owner of the wallet
to the new owner. -/
theorem stranger_can_recover (lib : Crypto) (walletService : WalletService)
    (rs : RecoveryService) (w : Wallet) (first : Guardian) (others : List Guardian)
    (newOwner stranger : X402.Address) (signature : List Nat) (pub : Nat × Nat)
    (hwallet : walletService.wallets.lookup w.Address = some w)
    (hguardians : w.Guardians = first :: others) (hthreshold : first.Threshold ≤ 1)
    (hsig : lib.SigToPub
      (lib.Keccak256 (X402.addressBytes w.Address ++ X402.addressBytes newOwner)) signature =
        .ok pub)
    (haddr : lib.PubkeyToAddress pub = stranger)
    (_hstranger : ∀ g ∈ w.Guardians, g.Address ≠ stranger) :
    recoverBy lib walletService rs w newOwner stranger signature =
      (none, none,
        { walletService with
          wallets := put walletService.wallets w.Address { w with Owner := newOwner } }) ∧
    ((recoverBy lib walletService rs w newOwner stranger signature).2.2.GetWallet w.Address).map
        (fun after => (after.Owner, after.Guardians)) = some (newOwner, w.Guardians) := by
  have hrun : recoverBy lib walletService rs w newOwner stranger signature =
      (none, none,
        { walletService with
          wallets := put walletService.wallets w.Address { w with Owner := newOwner } }) := by
    have hlen : ¬ (1 % 256 < first.Threshold) := by omega
    simp only [recoverBy, RecoveryService.InitiateRecovery, hguardians,
      RecoveryService.ApproveRecovery, lookup_put, hsig, haddr,
      RecoveryService.ExecuteRecovery, hwallet]
    simp [put, hlen]
  refine ⟨hrun, ?_⟩
  rw [hrun]
  simp only [WalletService.GetWallet, lookup_put]
  rfl

/-- The failing input of C39: the wallet of owner 170 with the one guardian
187; the key 204, which is no guardian, signs the recovery to the owner 204,
approves it and the recovery is executed. -/
theorem stranger_can_recover_witness :
    (guardedWallet.Owner, guardedWallet.Guardians.map (fun g => g.Address)) = (170, [187]) ∧
    recoverBy exampleCrypto guardedService NewRecoveryService guardedWallet 204 204
        strangerSignature =
      (none, none,
        { guardedService with
          wallets := put guardedService.wallets guardedWallet.Address
            { guardedWallet with Owner := 204 } }) ∧
    ((recoverBy exampleCrypto guardedService NewRecoveryService guardedWallet 204 204
        strangerSignature).2.2.GetWallet guardedWallet.Address).map
        (fun after => (after.Owner, after.Guardians)) = some (204, guardedWallet.Guardians) :=
  ⟨by decide,
    stranger_can_recover exampleCrypto guardedService NewRecoveryService guardedWallet
      { Address := 187, AddedAt := 0, Threshold := 1 } [] 204 204 strangerSignature (204, 0)
      (by decide) (by decide) (by decide) (by simp [exampleCrypto, strangerSignature])
      (by decide) (by decide)⟩

end wallet

namespace encoding

set_option maxRecDepth 100000

/-- C40, as the claim states it, fails: `transfer(address,uint256)` declares
two parameters, and `EncodeFunctionCall` with no argument returns no error but
the 4-byte selector. With one argument it returns an error. -/
theorem no_arguments_skip_the_count :
    (parseSignatureArgs exampleAbi "transfer(address,uint256)").toOption =
      some ["address", "uint256"] ∧
    (EncodeFunctionCall exampleAbi "transfer(address,uint256)" []).toOption =
      some ((exampleAbi.Keccak256 (X402.stringBytes "transfer(address,uint256)")).take 4) ∧
    (EncodeFunctionCall exampleAbi "transfer(address,uint256)" [.address 187]).toOption =
      none := by
  decide

/-- C40, amended. With no argument `EncodeFunctionCall` returns the 4-byte
selector, the first 4 bytes of the hash of the signature, whatever parameters
the signature declares. With at least one argument, it returns the error of
`parseSignatureArgs` when the signature does not parse, and an error when the
number of arguments is not the number n of parameters that `parseSignatureArgs`
reads from the signature, given that `abi.Arguments.Pack` rejects a wrong
number of arguments. -/
theorem encodeFunctionCall_count (lib : Abi) (signature : String) (args : List Value)
    (hpack : ∀ types vals, vals.length ≠ types.length → ∃ err, lib.Pack types vals = .error err) :
    EncodeFunctionCall lib signature [] =
      .ok ((lib.Keccak256 (X402.stringBytes signature)).take 4) ∧
    (args ≠ [] → ∀ types, parseSignatureArgs lib signature = .ok types →
      args.length ≠ types.length → ∃ err, EncodeFunctionCall lib signature args = .error err) ∧
    (args ≠ [] → ∀ err, parseSignatureArgs lib signature = .error err →
      EncodeFunctionCall lib signature args = .error err) := by
  refine ⟨rfl, ?_, ?_⟩
  · intro hargs types hparse hcount
    have hlen : ¬ args.length = 0 := fun h => hargs (List.length_eq_zero.1 h)
    obtain ⟨err, herr⟩ := hpack types args hcount
    refine ⟨err, ?_⟩
    unfold EncodeFunctionCall
    simp only [hlen, if_false, hparse, herr]
  · intro hargs err hparse
    have hlen : ¬ args.length = 0 := fun h => hargs (List.length_eq_zero.1 h)
    unfold EncodeFunctionCall
    simp only [hlen, if_false, hparse]

/-- A witness of the amended C40: the test `wrong number of args`, one argument
for `transfer(address,uint256)`. -/
theorem encodeFunctionCall_count_witness :
    ∃ err, EncodeFunctionCall exampleAbi "transfer(address,uint256)" [.address 187] =
      .error err :=
  (encodeFunctionCall_count exampleAbi "transfer(address,uint256)" [.address 187]
    (by
      intro types vals h
      exact ⟨"argument count mismatch", by simp [exampleAbi, h]⟩)).2.1
    (by decide) ["address", "uint256"] (congrArg Except.ok (by decide)) (by decide)

end encoding

namespace X402

/-! ## What the payment header says and what is signed -/

theorem signEIP3009Authorization_eq (lib : Lib) (key : PrivateKey) (tokenAddress : Address)
    (sender payee : Address) (value validAfter validBefore : Int) (nonce : List Nat)
    (chainID : Int) :
    SignEIP3009Authorization lib key tokenAddress sender payee value validAfter validBefore nonce
        chainID =
      match lib.Sign (lib.Keccak256 ([0x19, 0x01] ++ buildDomainSeparator lib tokenAddress chainID ++
          lib.Keccak256
            (transferStructBytes lib sender payee value validAfter validBefore nonce))) key with
      | .error err => .error err
      | .ok sig => if sig.getD 64 0 < 27 then .ok (sig.set 64 (sig.getD 64 0 + 27)) else .ok sig :=
  rfl

theorem setBytes_U256Bytes (x : Int) :
    ((agent.SetBytes (U256Bytes x) : Nat) : Int) = x % 2 ^ 256 := by
  have hne : (2 : Int) ^ 256 ≠ 0 := pow_ne_zero 256 (by norm_num)
  have h0 : 0 ≤ x % 2 ^ 256 := Int.emod_nonneg x hne
  have e : ((256 ^ 32 : Nat) : Int) = 2 ^ 256 := by
    norm_num
  unfold U256Bytes
  rw [agent.setBytes_bigEndian, Int.natCast_mod, Int.toNat_of_nonneg h0, e]
  exact Int.emod_emod_of_dvd x (dvd_refl _)

theorem emod_eq_self_iff (x : Int) : x % 2 ^ 256 = x ↔ 0 ≤ x ∧ x < 2 ^ 256 := by
  have hne : (2 : Int) ^ 256 ≠ 0 := pow_ne_zero 256 (by norm_num)
  have hpos : (0 : Int) < 2 ^ 256 := pow_pos (by norm_num) 256
  constructor
  · intro h
    rw [← h]
    exact ⟨Int.emod_nonneg x hne, Int.emod_lt_of_pos x hpos⟩
  · intro h
    exact Int.emod_eq_of_lt h.1 h.2

set_option maxRecDepth 1000000 in
/-- The failing inputs of C38, evaluated. For the requirement of 1000 whose
RequiredDeadline is `not-a-number`, `BuildPaymentHeader` succeeds and the
header carries the validBefore `not-a-number`, which is no base-10 numeral.
What is signed is the validBefore 0: under a signer whose signature is its
input, the signature is the one of the same requirement with the deadline `0`,
and not the one of the deadline `1`. For the requirement of the amount `-1`
the header carries the value `-1`, and the 32 bytes of the value in the signed
struct write 2^256 - 1. -/
theorem header_keeps_unparsed_deadline :
    SetString undatedRequirement.RequiredDeadline = none ∧
    (paymentPayload exampleLib 1 (some undatedRequirement) 170 8453).toOption.map
        (fun header =>
          (header.payload.value, header.payload.validAfter, header.payload.validBefore)) =
      some ("1000", "0", "not-a-number") ∧
    (BuildPaymentHeader exampleLib 1 (some undatedRequirement) 170 8453).toOption =
      some "1000" ∧
    (paymentPayload echoLib 1 (some undatedRequirement) 170 8453).toOption.map
        (fun header => header.payload.signature) =
      (paymentPayload echoLib 1 (some { undatedRequirement with RequiredDeadline := "0" }) 170
        8453).toOption.map (fun header => header.payload.signature) ∧
    (paymentPayload echoLib 1 (some undatedRequirement) 170 8453).toOption.map
        (fun header => header.payload.signature) ≠
      (paymentPayload echoLib 1 (some { undatedRequirement with RequiredDeadline := "1" }) 170
        8453).toOption.map (fun header => header.payload.signature) ∧
    (paymentPayload exampleLib 1 (some (requirementOf "-1")) 170 8453).toOption.map
        (fun header => header.payload.value) = some "-1" ∧
    SetString "-1" = some (-1) ∧
    agent.SetBytes (U256Bytes (-1)) = 2 ^ 256 - 1 := by
  decide

/-- C38, what the code does instead. When `BuildPaymentHeader` succeeds, it
marshals a header whose signature is the signature of the digest of the struct
of `transferStructBytes`, with the payer, the payee, the amount as value, 0 as
validAfter and the deadline as validBefore, each number in the 32 bytes of
`U256Bytes`. The header's value is a base-10 numeral of the amount; the bytes
signed for it write the amount modulo 2^256, which is the amount iff 0 <=
amount < 2^256. The header's validBefore is the RequiredDeadline of the
requirement as it came: when that is a base-10 numeral it denotes the deadline,
and when it is not, the deadline signed is 0 and the header's validBefore is no
numeral; the bytes signed write the deadline modulo 2^256. The header's
validAfter is `0`, its `to` is the payee and its `from` the payer. -/
theorem header_states_signed_values (lib : Lib) (key : PrivateKey) (req : PaymentRequirement)
    (sender : Address) (chainID : Int) (encoded : String)
    (h : BuildPaymentHeader lib key (some req) sender chainID = .ok encoded) :
    ∃ (header : PaymentHeader) (amount deadline : Int) (rawSig : List Nat),
      lib.Marshal header = .ok encoded ∧
      paymentPayload lib key (some req) sender chainID = .ok header ∧
      lib.Sign (lib.Keccak256 ([0x19, 0x01] ++ buildDomainSeparator lib usdcAddress chainID ++
          lib.Keccak256
            (transferStructBytes lib sender req.PayTo amount 0 deadline
              (paymentNonce lib sender req.PayTo amount)))) key = .ok rawSig ∧
      header.payload.signature =
        lib.Bytes2Hex
          (if rawSig.getD 64 0 < 27 then rawSig.set 64 (rawSig.getD 64 0 + 27) else rawSig) ∧
      SetString header.payload.value = some amount ∧
      ((agent.SetBytes (U256Bytes amount) : Nat) : Int) = amount % 2 ^ 256 ∧
      (((agent.SetBytes (U256Bytes amount) : Nat) : Int) = amount ↔
        0 ≤ amount ∧ amount < 2 ^ 256) ∧
      header.payload.validBefore = req.RequiredDeadline ∧
      (SetString header.payload.validBefore = some deadline ∨
        (SetString header.payload.validBefore = none ∧ deadline = 0)) ∧
      ((agent.SetBytes (U256Bytes deadline) : Nat) : Int) = deadline % 2 ^ 256 ∧
      (((agent.SetBytes (U256Bytes deadline) : Nat) : Int) = deadline ↔
        0 ≤ deadline ∧ deadline < 2 ^ 256) ∧
      header.payload.validAfter = "0" ∧
      header.payload.payee = lib.AddressHex req.PayTo ∧
      header.payload.sender = lib.AddressHex sender := by
  rw [buildPaymentHeader_eq_marshal] at h
  cases hp : paymentPayload lib key (some req) sender chainID with
  | error err =>
    rw [hp] at h
    cases h
  | ok header =>
    rw [hp] at h
    simp only at h
    unfold paymentPayload at hp
    simp only at hp
    cases ha : SetString req.MaxAmountRequired with
    | none =>
      rw [ha] at hp
      cases hp
    | some amount =>
      rw [ha] at hp
      simp only at hp
      rw [signEIP3009Authorization_eq] at hp
      cases hs : lib.Sign (lib.Keccak256 ([0x19, 0x01] ++
          buildDomainSeparator lib usdcAddress chainID ++
          lib.Keccak256
            (transferStructBytes lib sender req.PayTo amount 0
              ((SetString req.RequiredDeadline).getD 0)
              (paymentNonce lib sender req.PayTo amount)))) key with
      | error err =>
        rw [hs] at hp
        cases hp
      | ok rawSig =>
        rw [hs] at hp
        have hheader : header =
            { x402Version := 1
              scheme := req.Scheme
              network := req.Network
              payload :=
                { signature := lib.Bytes2Hex
                    (if rawSig.getD 64 0 < 27 then rawSig.set 64 (rawSig.getD 64 0 + 27)
                      else rawSig)
                  sender := lib.AddressHex sender
                  payee := lib.AddressHex req.PayTo
                  value := req.MaxAmountRequired
                  validAfter := "0"
                  validBefore := req.RequiredDeadline
                  nonce := lib.Bytes2Hex (paymentNonce lib sender req.PayTo amount) } } := by
          by_cases h27 : rawSig.getD 64 0 < 27
          · simp only [h27, if_true, Except.ok.injEq] at hp
            rw [← hp]
            simp only [h27, if_true]
          · simp only [h27, if_false, Except.ok.injEq] at hp
            rw [← hp]
            simp only [h27, if_false]
        subst hheader
        refine ⟨_, amount, (SetString req.RequiredDeadline).getD 0, rawSig, h, rfl, hs, rfl, ha,
          setBytes_U256Bytes amount, ?_, rfl, ?_, setBytes_U256Bytes _, ?_, rfl, rfl, rfl⟩
        · rw [setBytes_U256Bytes]
          exact emod_eq_self_iff amount
        · cases hd : SetString req.RequiredDeadline with
          | none => exact Or.inr ⟨rfl, rfl⟩
          | some d => exact Or.inl rfl
        · rw [setBytes_U256Bytes]
          exact emod_eq_self_iff _

/-- The failing input of C38: the requirement of 1000 with the RequiredDeadline
`not-a-number`. The header carries the validBefore `not-a-number`, which is no
numeral, and the deadline in the signed struct is 0. -/
theorem header_states_signed_values_witness :
    ∃ (header : PaymentHeader) (deadline : Int) (rawSig : List Nat),
      paymentPayload exampleLib 1 (some undatedRequirement) 170 8453 = .ok header ∧
      header.payload.validBefore = "not-a-number" ∧
      SetString header.payload.validBefore = none ∧
      deadline = 0 ∧
      exampleLib.Sign (exampleLib.Keccak256 ([0x19, 0x01] ++
          buildDomainSeparator exampleLib usdcAddress 8453 ++
          exampleLib.Keccak256
            (transferStructBytes exampleLib 170 undatedRequirement.PayTo 1000 0 deadline
              (paymentNonce exampleLib 170 undatedRequirement.PayTo 1000)))) 1 = .ok rawSig ∧
      header.payload.signature =
        exampleLib.Bytes2Hex
          (if rawSig.getD 64 0 < 27 then rawSig.set 64 (rawSig.getD 64 0 + 27) else rawSig) := by
  obtain ⟨header, amount, deadline, rawSig, -, hp, hsign, hsig, hval, -, -, hvb, hdl, -, -, -, -,
    -⟩ := header_states_signed_values exampleLib 1 undatedRequirement 170 8453 "1000" rfl
  have hvb2 : header.payload.validBefore = "not-a-number" := hvb
  have hnone : SetString header.payload.validBefore = none := by
    rw [hvb2]
    decide
  have hzero : deadline = 0 := by
    rcases hdl with hdl | ⟨-, hdl⟩
    · rw [hnone] at hdl
      cases hdl
    · exact hdl
  have hamount : amount = 1000 := by
    have e : header.payload.value = "1000" := by
      have hp2 : paymentPayload exampleLib 1 (some undatedRequirement) 170 8453 = .ok header := hp
      have hv : (paymentPayload exampleLib 1 (some undatedRequirement) 170 8453).toOption.map
          (fun header => header.payload.value) = some "1000" := by decide
      rw [hp2] at hv
      exact Option.some.inj hv
    rw [e] at hval
    have e2 : SetString "1000" = some 1000 := by decide
    rw [e2] at hval
    exact (Option.some.inj hval).symm
  subst hamount
  exact ⟨header, deadline, rawSig, hp, hvb2, hnone, hzero, hsign, hsig⟩

end X402
